import Mathlib

/-!
Live-chat core: rate limiter, conversation store, socket handlers, heartbeat
and the HTTP handlers of the admin chat.

A shallow embedding of `src/server/controller/customerChatController.js`,
`src/server/controller/adminChatController.js` and the upgrade listener and
heartbeat of `src/server/server.js`.

* Clock values (`Date.now()`) are integers (milliseconds).
* The JavaScript `Map` `wsRateLimits` is an insertion-ordered association list.
* The MySQL tables are lists of rows in storage order; every SQL statement is a
  function on those lists, and a statement may be rejected by the database
  (the `fault` arguments), in which case `pool.execute` / `query` throws.
-/

namespace ChatCore

/-! ## Rate limiter (customerChatController.js, lines 14-44) -/

/-- The `Map` held in `wsRateLimits`: key, then the array of timestamps. -/
abbrev WsRateLimits := List (String × List Int)

/-- Method `Map.prototype.get`; `none` is `undefined`. -/
def mapGet (m : WsRateLimits) (key : String) : Option (List Int) :=
  match m with
  | [] => none
  | (k, v) :: rest => if k = key then some v else mapGet rest key

/-- Method `Map.prototype.has`. -/
def mapHas (m : WsRateLimits) (key : String) : Bool :=
  (mapGet m key).isSome

/-- Method `Map.prototype.set`: an existing key keeps its place, a new key goes last. -/
def mapSet (m : WsRateLimits) (key : String) (v : List Int) : WsRateLimits :=
  match m with
  | [] => [(key, v)]
  | (k, w) :: rest => if k = key then (key, v) :: rest else (k, w) :: mapSet rest key v

def WS_MESSAGE_LIMIT : Nat := 20

def WS_WINDOW_MS : Int := 60 * 1000

/-- The loop `while (timestamps.length && timestamps[0] <= now - WS_WINDOW_MS) timestamps.shift()`. -/
def pruneFront (now : Int) : List Int → List Int
  | [] => []
  | t :: rest => if t ≤ now - WS_WINDOW_MS then pruneFront now rest else t :: rest

/-- The key under which a sender is stored: the template string with prefix `ws:`. -/
def wsKey (userId : String) : String := "ws:" ++ userId

/-- Function `checkWsRateLimit(userId)` with the clock reading `now` made explicit.
The array returned by `get` is the one held by the map, so the `shift()` calls
are visible in the map also when the call is rejected. -/
def checkWsRateLimit (wsRateLimits : WsRateLimits) (now : Int) (userId : String) :
    Bool × WsRateLimits :=
  let key := wsKey userId
  let m1 := if !(mapHas wsRateLimits key) then mapSet wsRateLimits key [] else wsRateLimits
  let timestamps := (mapGet m1 key).getD []
  let pruned := pruneFront now timestamps
  let m2 := mapSet m1 key pruned
  if pruned.length ≥ WS_MESSAGE_LIMIT then
    (false, m2)
  else
    (true, mapSet m2 key (pruned ++ [now]))

/-- A run of calls `(userId, now)` in order: the verdicts and the final map. -/
def runWsCalls : WsRateLimits → List (String × Int) → List Bool × WsRateLimits
  | m, [] => ([], m)
  | m, (u, now) :: rest =>
    let r := checkWsRateLimit m now u
    let rs := runWsCalls r.2 rest
    (r.1 :: rs.1, rs.2)

/-- The timestamps of the calls of `userId` that were admitted, in call order. -/
def admittedStamps (userId : String) : List (String × Int) → List Bool → List Int
  | (u, now) :: calls, ok :: oks =>
    if u = userId ∧ ok = true then now :: admittedStamps userId calls oks
    else admittedStamps userId calls oks
  | _, _ => []

/-- The number of timestamps lying in the trailing interval `(t - WS_WINDOW_MS, t]`. -/
def countInWindow (t : Int) (stamps : List Int) : Nat :=
  (stamps.filter (fun x => decide (t - WS_WINDOW_MS < x ∧ x ≤ t))).length

/-! ## Conversation store

The tables `users`, `users_online`, `chat_conversations` and `chat_messages`.
Identifiers are naturals; `0` is the identifier that JavaScript treats as
falsy. An absent (`undefined` / `null`) field of a frame is `none`. -/

/-- A row of `users`, as far as the chat queries read it. -/
structure User where
  id : Nat
  username : Option String
deriving DecidableEq, Repr

/-- A row of `chat_conversations`. -/
structure Conversation where
  id : Nat
  customer_id : Nat
  priority : String
  created_at : Int
deriving DecidableEq, Repr

/-- A row of `chat_messages`. -/
structure Message where
  id : Nat
  conversation_id : Nat
  sender_id : Nat
  sender_type : String
  content : String
  media_url : Option String
  media_type : Option String
  timestamp : Int
  is_read : Nat
deriving DecidableEq, Repr

/-- The database: every table in storage order. -/
structure Store where
  users : List User
  users_online : List Nat
  chat_conversations : List Conversation
  chat_messages : List Message
deriving DecidableEq, Repr

/-- Modelled from the spec: the column default of `chat_conversations.priority`
(the table definition is not among the sources; the data model gives `medium`). -/
def DEFAULT_PRIORITY : String := "medium"

/-- Counter `AUTO_INCREMENT` of `chat_conversations.id`: one more than every id
in the table. -/
def nextConversationId (db : Store) : Nat :=
  (db.chat_conversations.map (fun c => c.id)).foldr max 0 + 1

/-- Counter `AUTO_INCREMENT` of `chat_messages.id`: one more than every id in
the table. -/
def nextMessageId (db : Store) : Nat :=
  (db.chat_messages.map (fun m => m.id)).foldr max 0 + 1

/-- JavaScript truthiness of an identifier field: present and not `0`. -/
def truthyId : Option Nat → Bool
  | some n => n != 0
  | none => false

/-- JavaScript truthiness of a string field: present and not empty. -/
def truthyStr : Option String → Bool
  | some s => s != ""
  | none => false

/-- Clause `ORDER BY id DESC` on messages. -/
def orderByIdDesc (rows : List Message) : List Message :=
  rows.insertionSort (fun a b => a.id ≥ b.id)

/-- Clause `ORDER BY timestamp ASC` on messages. -/
def orderByTimestampAsc (rows : List Message) : List Message :=
  rows.insertionSort (fun a b => a.timestamp ≤ b.timestamp)

/-- Clause `ORDER BY timestamp DESC` on messages. -/
def orderByTimestampDesc (rows : List Message) : List Message :=
  rows.insertionSort (fun a b => a.timestamp ≥ b.timestamp)

/-- The inbound envelope after `JSON.parse`: the fields the handlers read. -/
structure Frame where
  type : Option String
  content : Option String
  media_url : Option String
  sender_id : Option Nat
  sender_type : Option String
  sender_name : Option String
  conversation_id : Option Nat
  customer_id : Option Nat
  message_id : Option Nat
  priority : Option String
  filter : Option String
  query : Option String
deriving DecidableEq, Repr

/-- A message object as it is put on the wire (`chat_message`, `chat_history`). -/
structure MessageView where
  id : Nat
  conversation_id : Nat
  sender_id : Nat
  sender_type : String
  content : String
  media_url : Option String
  media_type : Option String
  timestamp : Int
  is_read : Nat
  sender_name : String
deriving DecidableEq, Repr

/-- A row of the conversation listing queries. -/
structure ConversationRow where
  id : Nat
  customer_id : Nat
  customer_name : Option String
  priority : String
  created_at : Int
  last_message : Option String
  last_message_time : Option Int
  unread_count : Nat
  is_online : Bool
deriving DecidableEq, Repr

/-- The outbound envelope. -/
inductive Event where
  | conversations (conversations : List ConversationRow)
  | chat_history (messages : List MessageView)
  | chat_message (message : MessageView)
  | message_read (message_id : Option Nat)
  | unread_count (count : Nat)
  | priority_updated (conversation_id : Option Nat) (priority : Option String)
  | customer_online (customer_id : String)
  | customer_offline (customer_id : String)
  | error (message : String)
deriving DecidableEq, Repr

/-- Constant `WebSocket.OPEN`. -/
def OPEN : Nat := 1

/-- A socket of `global.wss.clients` with the tags the handlers put on it. -/
structure Client where
  sock : Nat
  userId : Option String
  adminId : Option String
  isAdmin : Bool
  isAlive : Bool
  readyState : Nat
deriving DecidableEq, Repr

/-- The process state: the rate-limit map, the database and the live sockets. -/
structure State where
  wsRateLimits : WsRateLimits
  db : Store
  clients : List Client
deriving DecidableEq, Repr

/-- One call of `send` on the socket `sock`. -/
abbrev Sent := Nat × Event

/-- What one socket event reads from outside the process: `Date.now()` in the
rate limiter, `new Date()` stamped on an echoed message, `NOW()` of the database,
and for the `k`-th `pool.execute` / `query` call site of the operation whether
the database rejects the statement (the call then throws). -/
structure Env where
  now : Int
  date : Int
  dbNow : Int
  fault : Nat → Bool

/-- Function `parseInt(s, 10)`: leading blanks, an optional sign, then the decimal digits;
`none` is `NaN`. -/
def parseInt (s : String) : Option Int :=
  let cs := s.toList.dropWhile Char.isWhitespace
  let signed : Bool × List Char :=
    match cs with
    | '-' :: r => (true, r)
    | '+' :: r => (false, r)
    | r => (false, r)
  let digits := signed.2.takeWhile Char.isDigit
  if digits.isEmpty then none
  else
    let n : Int := digits.foldl (fun acc c => acc * 10 + ((c.toNat - '0'.toNat : Nat) : Int)) 0
    some (if signed.1 then -n else n)

/-- The number MySQL compares a string parameter as against a numeric column:
its leading integer, `0` when it has none. -/
def sqlNumber (s : String) : Int := (parseInt s).getD 0

/-- The `sender_name` column of the history queries: the `CASE` over
`sender_type` and the `LEFT JOIN users u ON m.sender_id = u.id` (`users.id` is
the key of `users`, so a message meets at most one user row). -/
def senderNameOf (db : Store) (m : Message) : String :=
  if m.sender_type = "admin" then "Admin"
  else
    match db.users.find? (fun u => u.id == m.sender_id) with
    | some u =>
      match u.username with
      | some name => name
      | none => "User"
    | none => "User"

/-- Statement `SELECT m.*, CASE ... END as sender_name` for one message row. -/
def selectWithSenderName (db : Store) (m : Message) : MessageView :=
  { id := m.id, conversation_id := m.conversation_id, sender_id := m.sender_id,
    sender_type := m.sender_type, content := m.content, media_url := m.media_url,
    media_type := m.media_type, timestamp := m.timestamp, is_read := m.is_read,
    sender_name := senderNameOf db m }

/-- The `messages.map(...)` of both `get_history` branches: `content || ""`,
`is_read || 0` and `sender_name || (sender_type === "admin" ? "Admin" : "User")`. -/
def formatMessage (msg : MessageView) : MessageView :=
  { msg with
    sender_name :=
      if msg.sender_name = "" then (if msg.sender_type = "admin" then "Admin" else "User")
      else msg.sender_name }

/-- Statement `UPDATE chat_messages SET is_read = 1 WHERE id = ?`. -/
def setRead (db : Store) (messageId : Nat) : Store :=
  { db with
    chat_messages :=
      db.chat_messages.map (fun m => if m.id = messageId then { m with is_read := 1 } else m) }

namespace Customer

/-- Function `broadcastToAdmins(data)` of customerChatController.js (lines 641-649). -/
def broadcastToAdmins (clients : List Client) (data : Event) : List Sent :=
  (clients.filter (fun c => c.isAdmin && c.readyState == OPEN)).map (fun c => (c.sock, data))

/-- Function `getChatHistoryForUser(userId)` (lines 442-477). -/
def getChatHistoryForUser (fault : Nat → Bool) (db : Store) (userId : String) :
    List MessageView :=
  match parseInt userId with
  | none => []
  | some userIdNum =>
    if fault 0 then []
    else
      let owned :=
        (db.chat_conversations.filter (fun c => decide ((c.customer_id : Int) = userIdNum))).map
          (fun c => c.id)
      let rows := db.chat_messages.filter (fun m =>
        decide (m.conversation_id ∈ owned)
          || (decide ((m.sender_id : Int) = userIdNum) && m.sender_type == "user"))
      ((orderByTimestampAsc rows).take 500).map (selectWithSenderName db)

/-- The conversation resolver inside `createNewMessage` (lines 514-550), entered
when the frame carries no `conversation_id`. The first component is the value
left in `conversationId`; `none` means that `createNewMessage` returns `null`
(a statement threw). Call sites: 0 the `SELECT` on `chat_messages`, 1 the
`SELECT` on `chat_conversations`, 2 the `INSERT INTO chat_conversations`. -/
def resolveConversation (fault : Nat → Bool) (dbNow : Int) (db : Store) (customerId : Nat) :
    Option Nat × Store :=
  if fault 0 then (none, db)
  else
    let existingMsg := (orderByIdDesc (db.chat_messages.filter
      (fun m => m.sender_id == customerId && m.sender_type == "user"))).take 1
    let foundConvoId : Option Nat := existingMsg.head?.map (fun m => m.conversation_id)
    if truthyId foundConvoId then (foundConvoId, db)
    else if fault 1 then (none, db)
    else
      let existingConvs :=
        (db.chat_conversations.filter (fun c => c.customer_id == customerId)).take 1
      match existingConvs with
      | c :: _ => (some c.id, db)
      | [] =>
        if fault 2 then (none, db)
        else
          let insertId := nextConversationId db
          (some insertId,
            { db with
              chat_conversations := db.chat_conversations ++
                [{ id := insertId, customer_id := customerId, priority := DEFAULT_PRIORITY,
                   created_at := dbNow }] })

/-- The row written by `INSERT INTO chat_messages (...) VALUES (?, ?, ?, ?, ?, NOW(), 0)`
with the parameters `conversationId, sender_id, sender_type, content || "",
media_url || null`; `media_type` is not written by the statement. -/
def insertedRow (dbNow : Int) (data : Frame) (conversationId insertId : Nat) : Message :=
  { id := insertId, conversation_id := conversationId, sender_id := data.sender_id.getD 0,
    sender_type := data.sender_type.getD "", content := data.content.getD "",
    media_url := if truthyStr data.media_url then data.media_url else none,
    media_type := none, timestamp := dbNow, is_read := 0 }

/-- The object literal `message` returned by `createNewMessage` (lines 584-594);
it has no `media_type` property. -/
def returnedMessage (date : Int) (data : Frame) (conversationId insertId : Nat) : MessageView :=
  { id := insertId, conversation_id := conversationId, sender_id := data.sender_id.getD 0,
    sender_type := data.sender_type.getD "", content := data.content.getD "",
    media_url := if truthyStr data.media_url then data.media_url else none,
    media_type := none, timestamp := date, is_read := 0,
    sender_name :=
      if truthyStr data.sender_name then data.sender_name.getD ""
      else if data.sender_type.getD "" = "admin" then "Admin" else "User" }

/-- Function `createNewMessage(data)` (lines 479-601); `none` is `null`. Call site 3 is
the `INSERT INTO chat_messages`. -/
def createNewMessage (env : Env) (db : Store) (data : Frame) : Option MessageView × Store :=
  if !truthyId data.customer_id then (none, db)
  else if !truthyId data.sender_id || !truthyStr data.sender_type then (none, db)
  else
    let r : Option Nat × Store :=
      if truthyId data.conversation_id then (data.conversation_id, db)
      else resolveConversation env.fault env.dbNow db (data.customer_id.getD 0)
    match r.1 with
    | none => (none, r.2)
    | some conversationId =>
      if conversationId = 0 then (none, r.2)
      else if env.fault 3 then (none, r.2)
      else
        let insertId := nextMessageId r.2
        (some (returnedMessage env.date data conversationId insertId),
          { r.2 with
            chat_messages :=
              r.2.chat_messages ++ [insertedRow env.dbNow data conversationId insertId] })

/-- Function `markMessageRead(messageId)` (lines 603-619): `false` without a statement
when the id is falsy, `false` when the `UPDATE` throws, `true` otherwise. -/
def markMessageRead (fault : Nat → Bool) (db : Store) (messageId : Option Nat) : Bool × Store :=
  if !truthyId messageId then (false, db)
  else if fault 0 then (false, db)
  else (true, setRead db (messageId.getD 0))

/-- Function `getUnreadCountForUser(userId)` (lines 621-639). -/
def getUnreadCountForUser (fault : Nat → Bool) (db : Store) (userId : String) : Nat :=
  if fault 0 then 0
  else
    let owned :=
      (db.chat_conversations.filter
        (fun c => decide ((c.customer_id : Int) = sqlNumber userId))).map (fun c => c.id)
    (db.chat_messages.filter (fun m =>
      decide (m.conversation_id ∈ owned) && m.sender_type == "admin" && m.is_read == 0)).length

/-- The `ws.on("message", ...)` callback of `handleWebSocketConnection`
(lines 261-423) for the socket `ws` tagged `userId`; `message = none` is a
payload on which `JSON.parse` throws. Returns the new state and the `send`
calls in order. -/
def onMessage (env : Env) (st : State) (ws : Nat) (userId : String) (message : Option Frame) :
    State × List Sent :=
  match message with
  | none => (st, [])
  | some data =>
    if data.type = some "get_history" then
      (st, [(ws, Event.chat_history
        ((getChatHistoryForUser env.fault st.db userId).map formatMessage))])
    else if data.type = some "chat_message" then
      let r := checkWsRateLimit st.wsRateLimits env.now userId
      if !r.1 then
        ({ st with wsRateLimits := r.2 },
          [(ws, Event.error "Rate limit exceeded. Please wait before sending more messages.")])
      else
        let c := createNewMessage env st.db data
        match c.1 with
        | none =>
          ({ st with wsRateLimits := r.2, db := c.2 },
            [(ws, Event.error "Failed to send message")])
        | some newMessage =>
          ({ st with wsRateLimits := r.2, db := c.2 },
            broadcastToAdmins st.clients (Event.chat_message newMessage)
              ++ [(ws, Event.chat_message newMessage)])
    else if data.type = some "mark_read" then
      if !truthyId data.message_id then
        (st, [(ws, Event.error "Failed to mark message as read")])
      else
        let r := markMessageRead env.fault st.db data.message_id
        if !r.1 then
          ({ st with db := r.2 }, [(ws, Event.error "Failed to mark message as read")])
        else
          ({ st with db := r.2 },
            broadcastToAdmins st.clients (Event.message_read data.message_id))
    else if data.type = some "get_unread_count" then
      (st, [(ws, Event.unread_count (getUnreadCountForUser env.fault st.db userId))])
    else (st, [])

end Customer

/-- What a listing function hands back to the handler: an array of rows, a
single row object, or `undefined`. -/
inductive Listing where
  | rows (l : List ConversationRow)
  | row (r : ConversationRow)
  | undefined
deriving DecidableEq, Repr

/-- The handler's `Array.isArray(x) ? x : x ? [x] : []`. -/
def coerceToArray : Listing → List ConversationRow
  | Listing.rows l => l
  | Listing.row r => [r]
  | Listing.undefined => []

/-- Expression `const [first] = rows`: array destructuring takes the first row, `undefined`
when there is none. -/
def firstOfRows : List ConversationRow → Listing
  | r :: _ => Listing.row r
  | [] => Listing.undefined

/-- Function `String(customerId)`. -/
def jsString : Option Nat → String
  | some n => toString n
  | none => "undefined"

/-- Case-insensitive comparison of two characters (the default collation). -/
def eqCI (a b : Char) : Bool := a.toLower == b.toLower

/-- SQL `LIKE`: a percent sign matches any run of characters, an underscore any
one character, a backslash makes the next pattern character literal. -/
def likeMatch : List Char → List Char → Bool
  | [], s => s.isEmpty
  | '%' :: p, s => s.tails.any (fun t => likeMatch p t)
  | '_' :: p, s =>
    match s with
    | [] => false
    | _ :: t => likeMatch p t
  | ['\\'], s =>
    match s with
    | [d] => eqCI '\\' d
    | _ => false
  | '\\' :: c :: p, s =>
    match s with
    | [] => false
    | d :: t => eqCI c d && likeMatch p t
  | c :: p, s =>
    match s with
    | [] => false
    | d :: t => eqCI c d && likeMatch p t

/-- The comparison `column LIKE ?` with the parameter built as the search term
between two percent signs; a `NULL` column never matches. -/
def sqlLike (column : Option String) (term : String) : Bool :=
  match column with
  | none => false
  | some v => likeMatch (("%" ++ term ++ "%").toList) v.toList

/-- The comparison behind `ORDER BY last_message_time DESC`: `NULL` sorts after
every time. -/
def lastTimeGe : Option Int → Option Int → Bool
  | some x, some y => decide (x ≥ y)
  | some _, none => true
  | none, some _ => false
  | none, none => true

/-- Clause `ORDER BY last_message_time DESC`. -/
def orderByLastMessageTimeDesc (rows : List ConversationRow) : List ConversationRow :=
  rows.insertionSort (fun a b => lastTimeGe a.last_message_time b.last_message_time = true)

/-- The select list shared by the three listing queries, for the conversation
`c` joined with its user row `u`. -/
def listingRow (db : Store) (c : Conversation) (u : User) : ConversationRow :=
  let msgs := db.chat_messages.filter (fun m => m.conversation_id == c.id)
  let last := (orderByTimestampDesc msgs).head?
  { id := c.id, customer_id := c.customer_id, customer_name := u.username,
    priority := c.priority, created_at := c.created_at,
    last_message := last.map (fun m => m.content),
    last_message_time := last.map (fun m => m.timestamp),
    unread_count := (msgs.filter (fun m => m.sender_type == "user" && m.is_read == 0)).length,
    is_online := decide (c.customer_id ∈ db.users_online) }

/-- Clause `FROM chat_conversations c JOIN users u ON c.customer_id = u.id` restricted
by `keep`, with the select list, before ordering. -/
def listingRows (db : Store) (keep : Conversation → User → Bool) : List ConversationRow :=
  db.chat_conversations.filterMap (fun c =>
    match db.users.find? (fun u => u.id == c.customer_id) with
    | some u => if keep c u then some (listingRow db c u) else none
    | none => none)

namespace Admin

/-- Function `broadcastToCustomer(customerId, data)` (lines 1135-1145). -/
def broadcastToCustomer (clients : List Client) (customerId : Option Nat) (data : Event) :
    List Sent :=
  (clients.filter (fun c => c.userId == some (jsString customerId) && c.readyState == OPEN)).map
    (fun c => (c.sock, data))

/-- Function `broadcastToAdmins(data, excludeAdminId = null)` (lines 1147-1158);
`none` is the default `null`, which no tag is strictly equal to. -/
def broadcastToAdmins (clients : List Client) (data : Event) (excludeAdminId : Option String) :
    List Sent :=
  (clients.filter (fun c =>
    c.isAdmin
      && (match excludeAdminId with
          | none => true
          | some a => c.adminId != some a)
      && c.readyState == OPEN)).map (fun c => (c.sock, data))

/-- Function `getAllConversations()` (lines 790-835): the rows, `[]` when the query throws. -/
def getAllConversations (fault : Bool) (db : Store) : Listing :=
  if fault then Listing.rows []
  else Listing.rows (orderByLastMessageTimeDesc (listingRows db (fun _ _ => true)))

/-- Function `getChatHistoryForConversation(conversationId)` (lines 837-870);
`parseInt` of an absent id is `NaN`. -/
def getChatHistoryForConversation (fault : Nat → Bool) (db : Store)
    (conversationId : Option Nat) : List MessageView :=
  match conversationId with
  | none => []
  | some convId =>
    if fault 0 then []
    else
      let rows := db.chat_messages.filter (fun m => m.conversation_id == convId)
      ((orderByTimestampAsc rows).take 500).map (selectWithSenderName db)

/-- Function `createNewMessage(data)` (lines 872-938); `none` is `null`. Call sites: 0
the `SELECT` on `chat_conversations`, 1 the `INSERT INTO chat_conversations`,
2 the `INSERT INTO chat_messages`, 3 the `SELECT` of the inserted row. A bind
parameter that is `undefined` makes `execute` throw. -/
def createNewMessage (env : Env) (db : Store) (data : Frame) : Option MessageView × Store :=
  let r : Option Nat × Store :=
    if truthyId data.conversation_id then (data.conversation_id, db)
    else
      match data.customer_id with
      | none => (none, db)
      | some customer_id =>
        if env.fault 0 then (none, db)
        else
          match (db.chat_conversations.filter (fun c => c.customer_id == customer_id)).take 1 with
          | c :: _ => (some c.id, db)
          | [] =>
            if env.fault 1 then (none, db)
            else
              let insertId := nextConversationId db
              (some insertId,
                { db with
                  chat_conversations := db.chat_conversations ++
                    [{ id := insertId, customer_id := customer_id,
                       priority := DEFAULT_PRIORITY, created_at := env.dbNow }] })
  match r.1, data.sender_id, data.sender_type with
  | some convId, some sender_id, some sender_type =>
    if env.fault 2 then (none, r.2)
    else
      let insertId := nextMessageId r.2
      let row : Message :=
        { id := insertId, conversation_id := convId, sender_id := sender_id,
          sender_type := sender_type, content := data.content.getD "",
          media_url := if truthyStr data.media_url then data.media_url else none,
          media_type := none, timestamp := env.dbNow, is_read := 0 }
      let db2 : Store := { r.2 with chat_messages := r.2.chat_messages ++ [row] }
      if env.fault 3 then (none, db2)
      else
        match (db2.chat_messages.filter (fun m => m.id == insertId)).head? with
        | none => (none, db2)
        | some m => (some { selectWithSenderName db2 m with conversation_id := convId }, db2)
  | _, _, _ => (none, r.2)

/-- Function `markMessageRead(messageId)` (lines 940-951): `some true`, or `none` when
the `UPDATE` throws (the function rethrows). -/
def markMessageRead (fault : Nat → Bool) (db : Store) (messageId : Option Nat) :
    Option Bool × Store :=
  match messageId with
  | none => (none, db)
  | some id => if fault 0 then (none, db) else (some true, setRead db id)

/-- A row object of the `COUNT(*) as count` query. -/
structure CountRow where
  count : Nat
deriving DecidableEq, Repr

/-- Expression `row[0]` on a row object: it has no property `0`. -/
def CountRow.index0 (_row : CountRow) : Option CountRow := none

/-- Function `getTotalUnreadCount()` (lines 953-970). `query` resolves to the array of
rows, `const [results] = ...` binds its first row, and the function then reads
`results[0].count`. -/
def getTotalUnreadCount (fault : Nat → Bool) (db : Store) : Nat :=
  if fault 0 then 0
  else
    let rows : List CountRow :=
      [{ count := (db.chat_messages.filter
          (fun m => m.sender_type == "user" && m.is_read == 0)).length }]
    match rows.head? with
    | some results =>
      match results.index0 with
      | some r0 => r0.count
      | none => 0
    | none => 0

/-- Function `updateConversationPriority(conversationId, priority)` (lines 972-984):
`some true`, or `none` when the `UPDATE` throws. -/
def updateConversationPriority (fault : Nat → Bool) (db : Store) (conversationId : Nat)
    (priority : String) : Option Bool × Store :=
  if fault 0 then (none, db)
  else
    (some true,
      { db with
        chat_conversations := db.chat_conversations.map (fun c =>
          if c.id = conversationId then { c with priority := priority } else c) })

/-- Function `filterConversationsByType(filter)` (lines 986-1073). The `today` and
`yesterday` clauses put a bare `SELECT` inside `DATE(...)`, which MySQL rejects
as a syntax error, so those queries always throw. The result of `query` is
destructured, which leaves the first row. -/
def filterConversationsByType (fault : Nat → Bool) (db : Store) (filter : Option String) :
    Listing :=
  if filter = some "today" ∨ filter = some "yesterday" then Listing.rows []
  else if fault 0 then Listing.rows []
  else
    let keep : Conversation → Bool := fun c =>
      if filter = some "unread" then
        decide ((db.chat_messages.filter (fun m =>
          m.conversation_id == c.id && m.sender_type == "user" && m.is_read == 0)).length > 0)
      else if filter = some "high" then c.priority == "high"
      else if filter = some "medium" then c.priority == "medium"
      else if filter = some "low" then c.priority == "low"
      else true
    firstOfRows (orderByLastMessageTimeDesc (listingRows db (fun c _ => keep c)))

/-- Function `searchConversationsByQuery(searchQuery)` (lines 1075-1133); the result of
`query` is destructured, which leaves the first row. -/
def searchConversationsByQuery (fault : Nat → Bool) (db : Store) (searchQuery : Option String) :
    Listing :=
  if !truthyStr searchQuery then getAllConversations (fault 0) db
  else if fault 0 then Listing.rows []
  else
    let term := searchQuery.getD ""
    let hits := (db.chat_messages.filter (fun m => sqlLike (some m.content) term)).map
      (fun m => m.conversation_id)
    firstOfRows (orderByLastMessageTimeDesc
      (listingRows db (fun c u => sqlLike u.username term || decide (c.id ∈ hits))))

/-- The `ws.on("message", ...)` callback of `handleWebSocketConnection`
(lines 563-786) for the socket `ws` tagged `adminId`; `message = none` is a
payload on which `JSON.parse` throws. An exception that reaches the outer
`catch` is logged and nothing is sent. -/
def onMessage (env : Env) (st : State) (ws : Nat) (adminId : String) (message : Option Frame) :
    State × List Sent :=
  match message with
  | none => (st, [])
  | some data =>
    if data.type = some "get_conversations" then
      (st, [(ws, Event.conversations (coerceToArray (getAllConversations (env.fault 0) st.db)))])
    else if data.type = some "get_history" then
      if !truthyId data.conversation_id then
        (st, [(ws, Event.error "Conversation ID is required")])
      else
        (st, [(ws, Event.chat_history
          ((getChatHistoryForConversation env.fault st.db data.conversation_id).map
            formatMessage))])
    else if data.type = some "chat_message" then
      let c := createNewMessage env st.db data
      match c.1 with
      | none => ({ st with db := c.2 }, [(ws, Event.error "Failed to send message")])
      | some newMessage =>
        ({ st with db := c.2 },
          broadcastToCustomer st.clients data.customer_id (Event.chat_message newMessage)
            ++ broadcastToAdmins st.clients
                (Event.conversations (coerceToArray (getAllConversations (env.fault 4) c.2))) none
            ++ [(ws, Event.chat_message newMessage)])
    else if data.type = some "mark_read" then
      let r := markMessageRead env.fault st.db data.message_id
      match r.1 with
      | none => ({ st with db := r.2 }, [])
      | some _ =>
        ({ st with db := r.2 },
          broadcastToAdmins st.clients (Event.message_read data.message_id) (some adminId))
    else if data.type = some "get_unread_count" then
      (st, [(ws, Event.unread_count (getTotalUnreadCount env.fault st.db))])
    else if data.type = some "set_priority" then
      match data.priority with
      | some priority =>
        if !truthyId data.conversation_id
            || !(priority == "high" || priority == "medium" || priority == "low") then
          (st, [(ws, Event.error "Invalid priority update request")])
        else
          let r := updateConversationPriority env.fault st.db
            (data.conversation_id.getD 0) priority
          match r.1 with
          | none => ({ st with db := r.2 }, [])
          | some _ =>
            ({ st with db := r.2 },
              broadcastToAdmins st.clients
                (Event.priority_updated data.conversation_id data.priority) none)
      | none => (st, [(ws, Event.error "Invalid priority update request")])
    else if data.type = some "filter_conversations" then
      (st, [(ws, Event.conversations
        (coerceToArray (filterConversationsByType env.fault st.db data.filter)))])
    else if data.type = some "search_conversations" then
      (st, [(ws, Event.conversations
        (coerceToArray (searchConversationsByQuery env.fault st.db data.query)))])
    else (st, [])

end Admin

/-! ## Connection set-up (server.js, lines 368-412, and the two
`handleWebSocketConnection` functions) -/

/-- Constant `WebSocket.CLOSING`. -/
def CLOSING : Nat := 2

/-- Method `split("/")` on the characters of a string. -/
def splitSlash : List Char → List (List Char)
  | [] => [[]]
  | c :: rest =>
    match splitSlash rest with
    | [] => [[]]
    | seg :: segs => if c = '/' then [] :: seg :: segs else (c :: seg) :: segs

/-- The identity read from the path:
`pathname.split("/").filter((part) => part !== "")` and then the element at
`pathParts.length - 1`; `none` is `undefined`. -/
def lastPathPart (pathname : String) : Option String :=
  (((splitSlash pathname.toList).filter (fun part => part != [])).getLast?).map String.mk

/-- Method `pathname.startsWith(head)`. -/
def pathStartsWith (pathname head : String) : Bool :=
  head.toList.isPrefixOf pathname.toList

/-- What the `upgrade` listener does with a request: hand the socket to the
customer handler with `request.params.userId`, to the admin handler with
`request.params.adminId`, or `socket.destroy()`. -/
inductive Routed where
  | customer (userId : String)
  | admin (adminId : String)
  | destroyed
deriving DecidableEq, Repr

/-- The `upgrade` listener (server.js, lines 368-412) as a function of the path. -/
def routeUpgrade (pathname : String) : Routed :=
  if pathStartsWith pathname "/ws/customer/chat/" then
    match lastPathPart pathname with
    | none => Routed.destroyed
    | some userId => if userId = "" then Routed.destroyed else Routed.customer userId
  else if pathStartsWith pathname "/ws/admin/chat/" then
    match lastPathPart pathname with
    | none => Routed.destroyed
    | some adminId => if adminId = "" then Routed.destroyed else Routed.admin adminId
  else Routed.destroyed

/-- The socket object that `wss.handleUpgrade` creates and adds to
`wss.clients` before it calls back: open and without tags (`isAlive` is
`undefined`, which the heartbeat does not take for `false`). -/
def freshSocket (sock : Nat) : Client :=
  { sock := sock, userId := none, adminId := none, isAdmin := false, isAlive := true,
    readyState := OPEN }

namespace Customer

/-- Function `handleWebSocketConnection(ws, req)` of customerChatController.js
(lines 243-253 and 434-438): close when the identity is falsy, otherwise tag the
socket and announce the customer to the admins. -/
def handleWebSocketConnection (clients : List Client) (ws : Nat) (userId : Option String) :
    List Client × List Sent :=
  if !truthyStr userId then
    (clients.map (fun c => if c.sock = ws then { c with readyState := CLOSING } else c), [])
  else
    let tagged :=
      clients.map (fun c => if c.sock = ws then { c with userId := userId, isAlive := true } else c)
    (tagged, broadcastToAdmins tagged (Event.customer_online (userId.getD "")))

end Customer

namespace Admin

/-- Function `handleWebSocketConnection(ws, req)` of adminChatController.js
(lines 544-555): close when the identity is falsy, otherwise tag the socket. -/
def handleWebSocketConnection (clients : List Client) (ws : Nat) (adminId : Option String) :
    List Client × List Sent :=
  if !truthyStr adminId then
    (clients.map (fun c => if c.sock = ws then { c with readyState := CLOSING } else c), [])
  else
    (clients.map (fun c =>
      if c.sock = ws then { c with adminId := adminId, isAdmin := true, isAlive := true }
      else c), [])

end Admin

/-- One upgrade request for the path `pathname`, the new socket being `sock`:
the registry afterwards and the `send` calls. A destroyed socket is not kept. -/
def onUpgrade (clients : List Client) (sock : Nat) (pathname : String) :
    List Client × List Sent :=
  match routeUpgrade pathname with
  | Routed.customer userId =>
    Customer.handleWebSocketConnection (clients ++ [freshSocket sock]) sock (some userId)
  | Routed.admin adminId =>
    Admin.handleWebSocketConnection (clients ++ [freshSocket sock]) sock (some adminId)
  | Routed.destroyed => (clients, [])

/-- The registries that the connection handlers can produce: every upgrade adds
a new socket object and tags it through `onUpgrade`; the transport and the
heartbeat change `readyState` and `isAlive` of a socket; a closed socket is
removed from `wss.clients`. -/
inductive Reachable : List Client → Prop where
  | start : Reachable []
  | upgrade (clients : List Client) (sock : Nat) (pathname : String) :
      Reachable clients → (∀ c ∈ clients, c.sock ≠ sock) →
      Reachable (onUpgrade clients sock pathname).1
  | transport (clients : List Client) (sock readyState : Nat) (isAlive : Bool) :
      Reachable clients →
      Reachable (clients.map (fun c =>
        if c.sock = sock then { c with readyState := readyState, isAlive := isAlive } else c))
  | removed (clients : List Client) (sock : Nat) :
      Reachable clients → Reachable (clients.filter (fun c => c.sock != sock))

/-- Whether an outbound event is a `conversations` event. -/
def Event.isConversations : Event → Bool
  | Event.conversations _ => true
  | _ => false

/-- The `send` calls made on the socket `sock`, in order. -/
def sentTo (sends : List Sent) (sock : Nat) : List Event :=
  (sends.filter (fun s => s.1 == sock)).map (fun s => s.2)

/-! ## Heartbeat (server.js, lines 414-422) and the `pong` listeners -/

/-- One run of the `setInterval` callback: a socket whose `isAlive` is `false`
is terminated, which takes it out of `wss.clients`; every other socket gets
`isAlive = false` and a ping. -/
def heartbeatSweep (clients : List Client) : List Client :=
  (clients.filter (fun ws => ws.isAlive)).map (fun ws => { ws with isAlive := false })

/-- The sockets that one run of the heartbeat terminates. -/
def terminatedBySweep (clients : List Client) : List Nat :=
  (clients.filter (fun ws => !ws.isAlive)).map (fun ws => ws.sock)

/-- The listener `ws.on("pong", () => { ws.isAlive = true; })` that both
connection handlers install, for a pong that arrives on the socket `sock`. -/
def onPong (clients : List Client) (sock : Nat) : List Client :=
  clients.map (fun ws => if ws.sock = sock then { ws with isAlive := true } else ws)

/-- The pongs that arrive between two sweeps, in order. -/
def onPongs (clients : List Client) (pongs : List Nat) : List Client :=
  pongs.foldl onPong clients

/-! ## The `get_history` normalisation, row by row -/

/-- A row object as the driver hands it to the `messages.map(...)` of
`get_history`; a property that is `NULL` or absent is `none`. -/
structure RawRow where
  id : Nat
  conversation_id : Nat
  sender_id : Nat
  sender_type : String
  content : Option String
  media_url : Option String
  media_type : Option String
  timestamp : Int
  is_read : Option Nat
  sender_name : Option String
deriving DecidableEq, Repr

/-- JavaScript `value || fallback` on a string: the fallback replaces an absent
and an empty value. -/
def orString (value : Option String) (fallback : String) : String :=
  match value with
  | some s => if s = "" then fallback else s
  | none => fallback

/-- JavaScript `value || fallback` on a number: the fallback replaces an absent
value and `0`. -/
def orNumber (value : Option Nat) (fallback : Nat) : Nat :=
  match value with
  | some n => if n = 0 then fallback else n
  | none => fallback

namespace Customer

/-- The arrow function of `messages.map(...)` in the customer `get_history`
branch (customerChatController.js, lines 288-301). -/
def formatRow (msg : RawRow) : MessageView :=
  { id := msg.id, conversation_id := msg.conversation_id, sender_id := msg.sender_id,
    sender_type := msg.sender_type, content := orString msg.content "",
    media_url := msg.media_url, media_type := msg.media_type, timestamp := msg.timestamp,
    is_read := orNumber msg.is_read 0,
    sender_name := orString msg.sender_name
      (if msg.sender_type = "admin" then "Admin" else "User") }

/-- A run of inbound frames on one customer socket, each with what it reads
from outside: the final state and, frame by frame, the `send` calls. -/
def runMessages (st : State) (ws : Nat) (userId : String) :
    List (Env × Frame) → State × List (List Sent)
  | [] => (st, [])
  | (env, data) :: rest =>
    let r := onMessage env st ws userId (some data)
    let rs := runMessages r.1 ws userId rest
    (rs.1, r.2 :: rs.2)

end Customer

namespace Admin

/-- The arrow function of `messages.map(...)` in the admin `get_history` branch
(adminChatController.js, lines 616-629). -/
def formatRow (msg : RawRow) : MessageView :=
  { id := msg.id, conversation_id := msg.conversation_id, sender_id := msg.sender_id,
    sender_type := msg.sender_type, content := orString msg.content "",
    media_url := msg.media_url, media_type := msg.media_type, timestamp := msg.timestamp,
    is_read := orNumber msg.is_read 0,
    sender_name := orString msg.sender_name
      (if msg.sender_type = "admin" then "Admin" else "User") }

end Admin

/-- The canonical shape as the specification words it: the seven plain fields
copied, `content` replaced by the empty string when missing, `is_read` replaced
by 0 when missing, `sender_name` replaced by the label of the role when missing. -/
def canonicalShape (row : RawRow) : MessageView :=
  { id := row.id, conversation_id := row.conversation_id, sender_id := row.sender_id,
    sender_type := row.sender_type, content := row.content.getD "",
    media_url := row.media_url, media_type := row.media_type, timestamp := row.timestamp,
    is_read := row.is_read.getD 0,
    sender_name := row.sender_name.getD
      (if row.sender_type = "admin" then "Admin" else "User") }

/-- A row of the history queries of this model, which has no missing property,
as a row object. -/
def rawOfView (v : MessageView) : RawRow :=
  { id := v.id, conversation_id := v.conversation_id, sender_id := v.sender_id,
    sender_type := v.sender_type, content := some v.content, media_url := v.media_url,
    media_type := v.media_type, timestamp := v.timestamp, is_read := some v.is_read,
    sender_name := some v.sender_name }

/-! ## HTTP handlers of the admin controller (adminChatController.js, lines 50-478) -/

/-- A row of the HTTP message queries: `m.*` with `u.username as sender_name`. -/
structure HttpMessageRow where
  msg : Message
  sender_name : Option String
deriving DecidableEq, Repr

/-- The JSON body of a response, by shape: the soft error
`{status: "error", success: false, message}`, the upload error `{error}`, and
the bodies of the successful answers. -/
inductive HttpBody where
  | softError (message : String)
  | uploadError (error : String)
  | fileUrl (file_url : String)
  | conversations (conversations : Listing)
  | messages (messages : Option HttpMessageRow)
  | count (count : Nat)
  | success
deriving DecidableEq, Repr

/-- A response: the status given to `res.status(...)`, 200 when `res.json` is
called alone, and the body. -/
structure HttpResponse where
  status : Nat
  body : HttpBody
deriving DecidableEq, Repr

/-- Whether a body has the shape `{status: "error", success: false, message}`. -/
def HttpBody.isSoftError : HttpBody → Bool
  | HttpBody.softError _ => true
  | _ => false

/-- Whether a response reports an error: either error shape, or a status other
than 200. -/
def HttpResponse.isError (r : HttpResponse) : Bool :=
  match r.body with
  | HttpBody.softError _ => true
  | HttpBody.uploadError _ => true
  | _ => r.status != 200

/-- The listing rows of the HTTP queries, whose select list has no `is_online`
column: the field is left `false`. -/
def httpListingRows (db : Store) (keep : Conversation → User → Bool) : List ConversationRow :=
  (listingRows db keep).map (fun r => { r with is_online := false })

namespace Admin

/-- Function `uploadFile` (lines 50-64) as a function of what the upload
middleware reports: its error message, if any, and the stored file name. -/
def uploadFile (err : Option String) (filename : Option String) : HttpResponse :=
  match err with
  | some message => { status := 400, body := HttpBody.uploadError message }
  | none =>
    match filename with
    | none => { status := 400, body := HttpBody.uploadError "No file uploaded" }
    | some name => { status := 200, body := HttpBody.fileUrl ("/uploads/chat/" ++ name) }

/-- Function `getConversations` (lines 67-113). -/
def getConversations (fault : Nat → Bool) (db : Store) : HttpResponse :=
  if fault 0 then { status := 200, body := HttpBody.softError "Failed to get conversations" }
  else
    { status := 200,
      body := HttpBody.conversations
        (Listing.rows (orderByLastMessageTimeDesc (httpListingRows db (fun _ _ => true)))) }

/-- Function `getChatHistory` (lines 116-152); `query` is destructured, which
leaves the first row. -/
def getChatHistory (fault : Nat → Bool) (db : Store) (conversationId : Option String) :
    HttpResponse :=
  if !truthyStr conversationId then
    { status := 200, body := HttpBody.softError "Conversation ID is required" }
  else if fault 0 then { status := 200, body := HttpBody.softError "Failed to get chat history" }
  else
    let rows := orderByTimestampAsc (db.chat_messages.filter (fun m =>
      decide ((m.conversation_id : Int) = sqlNumber (conversationId.getD ""))))
    { status := 200,
      body := HttpBody.messages (rows.head?.map (fun m =>
        { msg := m,
          sender_name := (db.users.find? (fun u => u.id == m.sender_id)).bind
            (fun u => u.username) })) }

/-- Function `getUnreadCount` (lines 155-179): `const [result] = ...` binds the
first row object and `result[0].count` then reads a property of `undefined`,
which throws into the `catch`. -/
def getUnreadCount (fault : Nat → Bool) (db : Store) : HttpResponse :=
  if fault 0 then { status := 200, body := HttpBody.softError "Failed to get unread count" }
  else
    let rows : List CountRow :=
      [{ count := (db.chat_messages.filter
          (fun m => m.sender_type == "user" && m.is_read == 0)).length }]
    match rows.head?.bind CountRow.index0 with
    | some r0 => { status := 200, body := HttpBody.count r0.count }
    | none => { status := 200, body := HttpBody.softError "Failed to get unread count" }

/-- Function `markMessageAsRead` (lines 182-213). -/
def markMessageAsRead (fault : Nat → Bool) (db : Store) (messageId : Option String) :
    HttpResponse × Store :=
  if !truthyStr messageId then
    ({ status := 200, body := HttpBody.softError "Message ID is required" }, db)
  else if fault 0 then
    ({ status := 200, body := HttpBody.softError "Failed to mark message as read" }, db)
  else
    ({ status := 200, body := HttpBody.success },
      { db with
        chat_messages := db.chat_messages.map (fun m =>
          if (m.id : Int) = sqlNumber (messageId.getD "") then { m with is_read := 1 }
          else m) })

/-- Function `createMessage` (lines 216-267). A bind parameter that is
`undefined` makes the `INSERT` throw. When the `INSERT` succeeds, `query`
resolves to its result header, which is not iterable, so
`const [result] = ...` throws after the row has been written. -/
def createMessage (env : Env) (db : Store) (body : Frame) : HttpResponse × Store :=
  if !truthyId body.sender_id || !truthyStr body.sender_type
      || !truthyId body.conversation_id then
    ({ status := 200, body := HttpBody.softError "Missing required fields" }, db)
  else
    match body.content, body.media_url with
    | some content, some media_url =>
      if env.fault 0 then
        ({ status := 200, body := HttpBody.softError "Failed to create message" }, db)
      else
        ({ status := 200, body := HttpBody.softError "Failed to create message" },
          { db with
            chat_messages := db.chat_messages ++
              [{ id := nextMessageId db, conversation_id := body.conversation_id.getD 0,
                 sender_id := body.sender_id.getD 0, sender_type := body.sender_type.getD "",
                 content := content, media_url := some media_url, media_type := none,
                 timestamp := env.dbNow, is_read := 0 }] })
    | _, _ => ({ status := 200, body := HttpBody.softError "Failed to create message" }, db)

/-- Function `updatePriority` (lines 270-314). -/
def updatePriority (fault : Nat → Bool) (db : Store) (conversationId : Option String)
    (priority : Option String) : HttpResponse × Store :=
  if !truthyStr conversationId then
    ({ status := 200, body := HttpBody.softError "Conversation ID is required" }, db)
  else if !(priority == some "high" || priority == some "medium" || priority == some "low") then
    ({ status := 200, body := HttpBody.softError "Invalid priority level" }, db)
  else if fault 0 then
    ({ status := 200, body := HttpBody.softError "Failed to update priority" }, db)
  else
    ({ status := 200, body := HttpBody.success },
      { db with
        chat_conversations := db.chat_conversations.map (fun c =>
          if (c.id : Int) = sqlNumber (conversationId.getD "") then
            { c with priority := priority.getD "" }
          else c) })

/-- Function `filterConversations` (lines 317-401). The `today` and `yesterday`
clauses are the ones of `filterConversationsByType` and throw in the same way;
`query` is destructured, which leaves the first row. -/
def filterConversations (fault : Nat → Bool) (db : Store) (filter : Option String) :
    HttpResponse :=
  if filter = some "today" ∨ filter = some "yesterday" then
    { status := 200, body := HttpBody.softError "Failed to filter conversations" }
  else if fault 0 then
    { status := 200, body := HttpBody.softError "Failed to filter conversations" }
  else
    let keep : Conversation → Bool := fun c =>
      if filter = some "unread" then
        decide ((db.chat_messages.filter (fun m =>
          m.conversation_id == c.id && m.sender_type == "user" && m.is_read == 0)).length > 0)
      else if filter = some "high" then c.priority == "high"
      else if filter = some "medium" then c.priority == "medium"
      else if filter = some "low" then c.priority == "low"
      else true
    { status := 200,
      body := HttpBody.conversations
        (firstOfRows (orderByLastMessageTimeDesc (httpListingRows db (fun c _ => keep c)))) }

/-- Function `searchConversations` (lines 404-478). -/
def searchConversations (fault : Nat → Bool) (db : Store) (searchQuery : Option String) :
    HttpResponse :=
  if !truthyStr searchQuery then
    { status := 200, body := HttpBody.softError "Search query is required" }
  else if fault 0 then
    { status := 200, body := HttpBody.softError "Failed to search conversations" }
  else
    let term := searchQuery.getD ""
    let hits := (db.chat_messages.filter (fun m => sqlLike (some m.content) term)).map
      (fun m => m.conversation_id)
    { status := 200,
      body := HttpBody.conversations (Listing.rows (orderByLastMessageTimeDesc
        (httpListingRows db (fun c u => sqlLike u.username term || decide (c.id ∈ hits))))) }

end Admin

/-! ## Counts as the claims word them -/

/-- The test "sent by an admin, unread, in a conversation owned by the
customer" on one message. -/
def isUnreadAdminMessageOf (db : Store) (customer : Int) (m : Message) : Bool :=
  m.sender_type == "admin" && m.is_read == 0
    && db.chat_conversations.any
        (fun c => c.id == m.conversation_id && decide ((c.customer_id : Int) = customer))

/-- The number of messages with `sender_type` `admin` and `is_read` 0 in
conversations owned by the customer. -/
def unreadAdminMessagesOwnedBy (db : Store) (customer : Int) : Nat :=
  db.chat_messages.countP (isUnreadAdminMessageOf db customer)

/-- The number of messages, across all conversations, with `sender_type` `user`
and `is_read` 0. -/
def unreadUserMessages (db : Store) : Nat :=
  db.chat_messages.countP (fun m => m.sender_type == "user" && m.is_read == 0)

/-! ## Predicates used to state the store invariants -/

/-- The row `after` is the row `before`: same id, conversation, sender, sender
type, content, media fields and timestamp, and a read flag that is unchanged or
has gone from 0 to 1. -/
def sameButRead (before after : Message) : Prop :=
  after.id = before.id ∧ after.conversation_id = before.conversation_id
    ∧ after.sender_id = before.sender_id ∧ after.sender_type = before.sender_type
    ∧ after.content = before.content ∧ after.media_url = before.media_url
    ∧ after.media_type = before.media_type ∧ after.timestamp = before.timestamp
    ∧ (after.is_read = before.is_read ∨ (before.is_read = 0 ∧ after.is_read = 1))

/-- Every row of `before` is kept, in place, up to `sameButRead`; rows may have
been appended after them. -/
def messagesKept (before after : List Message) : Prop :=
  ∃ kept added, after = kept ++ added ∧ List.Forall₂ sameButRead before kept

/-! ## Concrete inputs at which the theorems are instantiated -/

/-- A moment at which the database accepts every statement. -/
def quietEnv : Env := { now := 2000, date := 2001, dbNow := 2002, fault := fun _ => false }

/-- The frame of the end-to-end scenario: customer 42 says Hello. -/
def helloFrame : Frame :=
  { type := some "chat_message", content := some "Hello", media_url := none,
    sender_id := some 42, sender_type := some "user", sender_name := none,
    conversation_id := none, customer_id := some 42, message_id := none,
    priority := none, filter := none, query := none }

/-- A database in which customer 42 owns no conversation but is the sender of a
message in conversation 7, which customer 99 owns. -/
def strayStore : Store :=
  { users := [{ id := 42, username := some "bob" }, { id := 99, username := some "al" }],
    users_online := [],
    chat_conversations := [{ id := 7, customer_id := 99, priority := "high", created_at := 5 }],
    chat_messages :=
      [{ id := 1, conversation_id := 7, sender_id := 42, sender_type := "user",
         content := "hi", media_url := none, media_type := none, timestamp := 10,
         is_read := 0 }] }

/-- One open admin socket (1) and one open customer socket (2, customer 42). -/
def twoClients : List Client :=
  [{ sock := 1, userId := none, adminId := some "a", isAdmin := true, isAlive := true,
     readyState := OPEN },
   { sock := 2, userId := some "42", adminId := none, isAdmin := false, isAlive := true,
     readyState := OPEN }]

/-- A state in which customer 42 has used up the window. -/
def fullWindowState : State :=
  { wsRateLimits := [("ws:42", List.replicate 20 1000)], db := strayStore,
    clients := twoClients }

/-- A database in which conversation 7 holds three messages stored out of
time order, next to a message of conversation 8. -/
def shuffledStore : Store :=
  { users := [{ id := 42, username := some "bob" }],
    users_online := [],
    chat_conversations :=
      [{ id := 7, customer_id := 42, priority := "medium", created_at := 5 },
       { id := 8, customer_id := 43, priority := "low", created_at := 6 }],
    chat_messages :=
      [{ id := 1, conversation_id := 7, sender_id := 42, sender_type := "user",
         content := "c", media_url := none, media_type := none, timestamp := 30, is_read := 0 },
       { id := 2, conversation_id := 8, sender_id := 43, sender_type := "user",
         content := "x", media_url := none, media_type := none, timestamp := 10, is_read := 0 },
       { id := 3, conversation_id := 7, sender_id := 1, sender_type := "admin",
         content := "a", media_url := none, media_type := none, timestamp := 10, is_read := 1 },
       { id := 4, conversation_id := 7, sender_id := 42, sender_type := "user",
         content := "b", media_url := none, media_type := none, timestamp := 20,
         is_read := 0 }] }

/-- The database before anybody has written to it. -/
def emptyStore : Store :=
  { users := [], users_online := [], chat_conversations := [], chat_messages := [] }

/-- A `mark_read` frame for message 1. -/
def readFrame : Frame :=
  { type := some "mark_read", content := none, media_url := none, sender_id := none,
    sender_type := none, sender_name := none, conversation_id := none, customer_id := none,
    message_id := some 1, priority := none, filter := none, query := none }

/-- A state over `shuffledStore` with nothing rate limited. -/
def shuffledState : State :=
  { wsRateLimits := [], db := shuffledStore, clients := twoClients }

/-- A registry built by five upgrades: admins `a` (socket 1) and `b` (socket 2),
customer 42 on two sockets (3 and 4) and customer 43 (socket 5). -/
def liveRegistry : List Client :=
  (onUpgrade (onUpgrade (onUpgrade (onUpgrade (onUpgrade [] 1 "/ws/admin/chat/a").1
    2 "/ws/admin/chat/b").1 3 "/ws/customer/chat/42").1 4 "/ws/customer/chat/42").1
    5 "/ws/customer/chat/43").1

/-- A state over `strayStore` with the five sockets of `liveRegistry`. -/
def liveState : State :=
  { wsRateLimits := [], db := strayStore, clients := liveRegistry }

/-- A `set_priority` frame: conversation 7 becomes `low`. -/
def priorityFrame : Frame :=
  { type := some "set_priority", content := none, media_url := none, sender_id := none,
    sender_type := none, sender_name := none, conversation_id := some 7, customer_id := none,
    message_id := none, priority := some "low", filter := none, query := none }

/-- An admin `chat_message` frame: admin 1 answers customer 42 in conversation 7. -/
def replyFrame : Frame :=
  { type := some "chat_message", content := some "Welcome", media_url := none,
    sender_id := some 1, sender_type := some "admin", sender_name := none,
    conversation_id := some 7, customer_id := some 42, message_id := none,
    priority := none, filter := none, query := none }

/-- A database in which customer 42 owns conversation 7, still without messages. -/
def ownedStore : Store :=
  { users := [{ id := 42, username := some "bob" }], users_online := [],
    chat_conversations := [{ id := 7, customer_id := 42, priority := "medium", created_at := 5 }],
    chat_messages := [] }

/-- Three unread messages written by an admin into conversation 7. -/
def threeReplies : List Message :=
  [{ id := 1, conversation_id := 7, sender_id := 1, sender_type := "admin", content := "a",
     media_url := none, media_type := none, timestamp := 10, is_read := 0 },
   { id := 2, conversation_id := 7, sender_id := 1, sender_type := "admin", content := "b",
     media_url := none, media_type := none, timestamp := 11, is_read := 0 },
   { id := 3, conversation_id := 7, sender_id := 1, sender_type := "admin", content := "c",
     media_url := none, media_type := none, timestamp := 12, is_read := 0 }]

/-- A frame that carries only its type. -/
def bareFrame (type : String) : Frame :=
  { type := some type, content := none, media_url := none, sender_id := none,
    sender_type := none, sender_name := none, conversation_id := none, customer_id := none,
    message_id := none, priority := none, filter := none, query := none }

/-- A queue of three conversations: 7 (bob, high), 8 (bobby, high) and 9 (al,
low), each with one unread message of its customer. -/
def queueStore : Store :=
  { users := [{ id := 42, username := some "bob" }, { id := 43, username := some "bobby" },
      { id := 44, username := some "al" }],
    users_online := [],
    chat_conversations :=
      [{ id := 7, customer_id := 42, priority := "high", created_at := 5 },
       { id := 8, customer_id := 43, priority := "high", created_at := 6 },
       { id := 9, customer_id := 44, priority := "low", created_at := 7 }],
    chat_messages :=
      [{ id := 1, conversation_id := 7, sender_id := 42, sender_type := "user",
         content := "hello", media_url := none, media_type := none, timestamp := 10,
         is_read := 0 },
       { id := 2, conversation_id := 8, sender_id := 43, sender_type := "user",
         content := "hi there", media_url := none, media_type := none, timestamp := 20,
         is_read := 0 },
       { id := 3, conversation_id := 9, sender_id := 44, sender_type := "user",
         content := "bye", media_url := none, media_type := none, timestamp := 30,
         is_read := 0 }] }

/-- A state over `queueStore` with the five sockets of `liveRegistry`. -/
def queueState : State :=
  { wsRateLimits := [], db := queueStore, clients := liveRegistry }

/-- The conversation ids that an outbound `conversations` event lists, in order. -/
def listedIds : Event → List Nat
  | Event.conversations rows => rows.map (fun r => r.id)
  | _ => []

/-- The `i`-th message of a long conversation: id and timestamp `i + 1`, written
by customer 42 into conversation 7. -/
def longMessage (i : Nat) : Message :=
  { id := i + 1, conversation_id := 7, sender_id := 42, sender_type := "user", content := "",
    media_url := none, media_type := none, timestamp := (i : Int) + 1, is_read := 0 }

/-- A database in which conversation 7, owned by customer 42, holds `n`
messages with the timestamps 1 to `n`. -/
def longStoreOf (n : Nat) : Store :=
  { users := [{ id := 42, username := some "bob" }], users_online := [],
    chat_conversations := [{ id := 7, customer_id := 42, priority := "medium", created_at := 0 }],
    chat_messages := (List.range n).map longMessage }

/-- A conversation of 501 messages. -/
def longStore : Store := longStoreOf 501

/-- A moment at which the database rejects every statement. -/
def outageEnv : Env := { now := 2000, date := 2001, dbNow := 2002, fault := fun _ => true }

/-- A customer `chat_message` frame whose payload names somebody else: sender 7
of type `admin` under the name Eve, for customer 99. -/
def spoofFrame : Frame :=
  { type := some "chat_message", content := some "Hi", media_url := none,
    sender_id := some 7, sender_type := some "admin", sender_name := some "Eve",
    conversation_id := none, customer_id := some 99, message_id := none,
    priority := none, filter := none, query := none }

/-- A database in which the user 42 has the empty username and has written one
message into their conversation 7. -/
def blankNameStore : Store :=
  { users := [{ id := 42, username := some "" }], users_online := [],
    chat_conversations := [{ id := 7, customer_id := 42, priority := "medium", created_at := 5 }],
    chat_messages :=
      [{ id := 1, conversation_id := 7, sender_id := 42, sender_type := "user",
         content := "hi", media_url := none, media_type := none, timestamp := 10,
         is_read := 0 }] }

/-- The row object that the history query yields for the message of
`blankNameStore`: its `sender_name` is present and empty. -/
def blankNameRow : RawRow :=
  { id := 1, conversation_id := 7, sender_id := 42, sender_type := "user",
    content := some "hi", media_url := none, media_type := none, timestamp := 10,
    is_read := some 0, sender_name := some "" }

/-- The admin reply of `replyFrame`, sent under the name Eve. -/
def namedReplyFrame : Frame := { replyFrame with sender_name := some "Eve" }

/-- The message object that the admin handler returns for `namedReplyFrame` on
`strayStore`. -/
def welcomeMessage : MessageView :=
  { id := 2, conversation_id := 7, sender_id := 1, sender_type := "admin",
    content := "Welcome", media_url := none, media_type := none, timestamp := 2002,
    is_read := 0, sender_name := "Admin" }

/-! ## Theorems -/

theorem mapGet_mapSet_same (m : WsRateLimits) (key : String) (v : List Int) :
    mapGet (mapSet m key v) key = some v := by
  induction m with
  | nil => simp [mapSet, mapGet]
  | cons e rest ih =>
    obtain ⟨k, w⟩ := e
    by_cases h : k = key
    · simp [mapSet, mapGet, h]
    · simp [mapSet, mapGet, h, ih]

theorem mapGet_mapSet_of_ne (m : WsRateLimits) (key key2 : String) (v : List Int)
    (hne : key2 ≠ key) : mapGet (mapSet m key v) key2 = mapGet m key2 := by
  induction m with
  | nil => simp [mapSet, mapGet, Ne.symm hne]
  | cons e rest ih =>
    obtain ⟨k, w⟩ := e
    by_cases h : k = key
    · subst h
      simp [mapSet, mapGet, Ne.symm hne]
    · by_cases h2 : k = key2
      · subst h2
        simp [mapSet, mapGet, h]
      · simp [mapSet, mapGet, h, h2, ih]

theorem mem_mapSet (m : WsRateLimits) (key : String) (v : List Int) (e : String × List Int)
    (he : e ∈ mapSet m key v) : e ∈ m ∨ e = (key, v) := by
  induction m with
  | nil => simpa [mapSet] using he
  | cons e0 rest ih =>
    obtain ⟨k, w⟩ := e0
    by_cases h : k = key
    · simp only [mapSet, h, if_true, List.mem_cons] at he
      rcases he with he | he
      · exact Or.inr he
      · exact Or.inl (List.mem_cons_of_mem _ he)
    · simp only [mapSet, h, if_false, List.mem_cons] at he
      rcases he with he | he
      · exact Or.inl (by simp [he])
      · rcases ih he with h1 | h1
        · exact Or.inl (List.mem_cons_of_mem _ h1)
        · exact Or.inr h1

theorem wsKey_injective (u v : String) (h : wsKey u = wsKey v) : u = v := by
  have h1 := congrArg String.data h
  simp only [wsKey, String.data_append] at h1
  exact String.ext (List.append_cancel_left h1)

theorem pruneFront_length_le (now : Int) (l : List Int) :
    (pruneFront now l).length ≤ l.length := by
  induction l with
  | nil => simp [pruneFront]
  | cons t rest ih =>
    by_cases h : t ≤ now - WS_WINDOW_MS
    · simp only [pruneFront, h, if_true, List.length_cons]; omega
    · simp [pruneFront, h]

/-- On a non-decreasing list the front loop removes exactly the entries at or
before `now - WS_WINDOW_MS`. -/
theorem pruneFront_eq_filter (now : Int) (l : List Int) (hs : l.Pairwise (· ≤ ·)) :
    pruneFront now l = l.filter (fun x => decide (now - WS_WINDOW_MS < x)) := by
  induction l with
  | nil => simp [pruneFront]
  | cons t rest ih =>
    rw [List.pairwise_cons] at hs
    by_cases h : t ≤ now - WS_WINDOW_MS
    · have h2 : ¬ (now - WS_WINDOW_MS < t) := by omega
      simp only [pruneFront, h, if_true, List.filter_cons, h2, decide_False]
      simpa using ih hs.2
    · have h2 : now - WS_WINDOW_MS < t := by omega
      simp only [pruneFront, h, if_false, List.filter_cons, h2, decide_True, if_true]
      congr 1
      symm
      rw [List.filter_eq_self]
      intro x hx
      have := hs.1 x hx
      simp only [decide_eq_true_eq]
      omega

/-- What one call does to the caller's entry, to the verdict and to the other entries. -/
theorem checkWsRateLimit_spec (m : WsRateLimits) (now : Int) (u : String) :
    (checkWsRateLimit m now u).1
        = decide ((pruneFront now ((mapGet m (wsKey u)).getD [])).length < WS_MESSAGE_LIMIT)
    ∧ mapGet (checkWsRateLimit m now u).2 (wsKey u)
        = some (if (pruneFront now ((mapGet m (wsKey u)).getD [])).length ≥ WS_MESSAGE_LIMIT
            then pruneFront now ((mapGet m (wsKey u)).getD [])
            else pruneFront now ((mapGet m (wsKey u)).getD []) ++ [now])
    ∧ ∀ k, k ≠ wsKey u → mapGet (checkWsRateLimit m now u).2 k = mapGet m k := by
  have hstored : (mapGet (if !(mapHas m (wsKey u)) then mapSet m (wsKey u) [] else m)
      (wsKey u)).getD [] = (mapGet m (wsKey u)).getD [] := by
    cases hg : mapGet m (wsKey u) with
    | none => simp [mapHas, hg, mapGet_mapSet_same]
    | some l => simp [mapHas, hg]
  have hother : ∀ k, k ≠ wsKey u →
      mapGet (if !(mapHas m (wsKey u)) then mapSet m (wsKey u) [] else m) k = mapGet m k := by
    intro k hk
    split
    · exact mapGet_mapSet_of_ne _ _ _ _ hk
    · rfl
  unfold checkWsRateLimit
  simp only [hstored]
  by_cases hlen : (pruneFront now ((mapGet m (wsKey u)).getD [])).length ≥ WS_MESSAGE_LIMIT
  · simp only [hlen, if_true]
    refine ⟨?_, mapGet_mapSet_same _ _ _, ?_⟩
    · simp only [ge_iff_le] at hlen
      simp [Nat.not_lt.mpr hlen]
    · intro k hk
      rw [mapGet_mapSet_of_ne _ _ _ _ hk]
      exact hother k hk
  · simp only [hlen, if_false]
    refine ⟨?_, mapGet_mapSet_same _ _ _, ?_⟩
    · simp only [ge_iff_le, not_le] at hlen
      simp [hlen]
    · intro k hk
      rw [mapGet_mapSet_of_ne _ _ _ _ hk, mapGet_mapSet_of_ne _ _ _ _ hk]
      exact hother k hk

theorem pruneFront_of_all_inside (now : Int) (l : List Int)
    (h : ∀ x ∈ l, now - WS_WINDOW_MS < x) : pruneFront now l = l := by
  cases l with
  | nil => rfl
  | cons t rest =>
    have h1 : ¬ (t ≤ now - WS_WINDOW_MS) := by
      have := h t (List.mem_cons_self _ _)
      omega
    simp [pruneFront, h1]

theorem pruneFront_of_all_outside (now : Int) (l : List Int)
    (h : ∀ x ∈ l, x ≤ now - WS_WINDOW_MS) : pruneFront now l = [] := by
  induction l with
  | nil => rfl
  | cons t rest ih =>
    have h1 : t ≤ now - WS_WINDOW_MS := h t (List.mem_cons_self _ _)
    simp only [pruneFront, h1, if_true]
    exact ih (fun x hx => h x (List.mem_cons_of_mem _ hx))

theorem sorted_split_at (c : Int) (l : List Int) (hs : l.Pairwise (· ≤ ·)) :
    l = l.filter (fun x => decide (x ≤ c)) ++ l.filter (fun x => decide (c < x)) := by
  induction l with
  | nil => rfl
  | cons t rest ih =>
    rw [List.pairwise_cons] at hs
    by_cases h : t ≤ c
    · have h2 : ¬ (c < t) := by omega
      simp only [List.filter_cons, h, h2, decide_True, decide_False, if_true, List.cons_append]
      congr 1
      simpa using ih hs.2
    · have h2 : c < t := by omega
      have hnone : rest.filter (fun x => decide (x ≤ c)) = [] := by
        rw [List.filter_eq_nil_iff]
        intro x hx
        have := hs.1 x hx
        simp only [decide_eq_true_eq]
        omega
      have hall : rest.filter (fun x => decide (c < x)) = rest := by
        rw [List.filter_eq_self]
        intro x hx
        have := hs.1 x hx
        simp only [decide_eq_true_eq]
        omega
      simp [List.filter_cons, h, h2, hnone, hall]

/-- C1. For a sender whose stored timestamps are in non-decreasing order,
`checkWsRateLimit` does the three steps of the contract. (a) The stored list is
`dropped ++ kept`, where `dropped` are exactly the stored timestamps that lie
before the window, `t ≤ now - 60000`, and `kept` exactly those inside it,
`now - 60000 < t`; the loop removes `dropped` from the front and nothing else.
(b) If `kept` has 20 or more entries the call returns `false` and the sender's
entry is `kept`: `now` is not recorded. (c) Otherwise it returns `true` and the
entry is `kept ++ [now]`. No other sender's entry changes. The clock need not
be later than the stored timestamps for this. -/
theorem checkWsRateLimit_contract (m : WsRateLimits) (now : Int) (userId : String)
    (stored : List Int) (hstored : (mapGet m (wsKey userId)).getD [] = stored)
    (hsorted : stored.Pairwise (· ≤ ·)) :
    stored = stored.filter (fun t => decide (t ≤ now - WS_WINDOW_MS))
        ++ stored.filter (fun t => decide (now - WS_WINDOW_MS < t))
    ∧ pruneFront now stored = stored.filter (fun t => decide (now - WS_WINDOW_MS < t))
    ∧ (WS_MESSAGE_LIMIT ≤ (stored.filter (fun t => decide (now - WS_WINDOW_MS < t))).length →
        (checkWsRateLimit m now userId).1 = false
        ∧ mapGet (checkWsRateLimit m now userId).2 (wsKey userId)
            = some (stored.filter (fun t => decide (now - WS_WINDOW_MS < t))))
    ∧ ((stored.filter (fun t => decide (now - WS_WINDOW_MS < t))).length < WS_MESSAGE_LIMIT →
        (checkWsRateLimit m now userId).1 = true
        ∧ mapGet (checkWsRateLimit m now userId).2 (wsKey userId)
            = some (stored.filter (fun t => decide (now - WS_WINDOW_MS < t)) ++ [now]))
    ∧ ∀ k, k ≠ wsKey userId → mapGet (checkWsRateLimit m now userId).2 k = mapGet m k := by
  obtain ⟨h1, h2, h3⟩ := checkWsRateLimit_spec m now userId
  rw [hstored, pruneFront_eq_filter now stored hsorted] at h1 h2
  refine ⟨sorted_split_at _ stored hsorted, pruneFront_eq_filter now stored hsorted, ?_, ?_, h3⟩
  · intro hge
    have hnot : ¬ ((stored.filter (fun t => decide (now - WS_WINDOW_MS < t))).length
        < WS_MESSAGE_LIMIT) := by omega
    refine ⟨?_, ?_⟩
    · rw [h1]; simp [hnot]
    · rw [h2]; simp [hge]
  · intro hlt
    have hnot : ¬ ((stored.filter (fun t => decide (now - WS_WINDOW_MS < t))).length
        ≥ WS_MESSAGE_LIMIT) := by omega
    refine ⟨?_, ?_⟩
    · rw [h1]; simp [hlt]
    · rw [h2]; simp only [hnot, if_false]

theorem checkWsRateLimit_contract_witness :
    [1000, 2000, 61000].Pairwise (fun (a b : Int) => a ≤ b)
    ∧ (checkWsRateLimit [("ws:7", [1000, 2000, 61000])] 61500 "7").1 = true
    ∧ mapGet (checkWsRateLimit [("ws:7", [1000, 2000, 61000])] 61500 "7").2 (wsKey "7")
        = some ([2000, 61000] ++ [61500]) :=
  ⟨by decide,
   ((checkWsRateLimit_contract [("ws:7", [1000, 2000, 61000])] 61500 "7" [1000, 2000, 61000]
      (by decide) (by decide)).2.2.2.1 (by decide)).1,
   ((checkWsRateLimit_contract [("ws:7", [1000, 2000, 61000])] 61500 "7" [1000, 2000, 61000]
      (by decide) (by decide)).2.2.2.1 (by decide)).2⟩

/-- A burst: while fewer than 20 timestamps are stored and every stored and new
timestamp lies inside the window of every call, each call is admitted and
appends its timestamp. -/
theorem runWsCalls_burst (u : String) (t0 : Int) (ts : List Int) :
    ∀ (m : WsRateLimits) (l : List Int), (mapGet m (wsKey u)).getD [] = l →
      (∀ x ∈ l, t0 ≤ x) → (∀ t ∈ ts, t0 ≤ t ∧ t < t0 + WS_WINDOW_MS) →
      l.length + ts.length ≤ WS_MESSAGE_LIMIT →
      (runWsCalls m (ts.map (fun t => (u, t)))).1 = List.replicate ts.length true
      ∧ (mapGet (runWsCalls m (ts.map (fun t => (u, t)))).2 (wsKey u)).getD [] = l ++ ts := by
  induction ts with
  | nil =>
    intro m l hl _ _ _
    simp [runWsCalls, hl]
  | cons t rest ih =>
    intro m l hl hlo hin hlen
    obtain ⟨h1, h2, -⟩ := checkWsRateLimit_spec m t u
    have hkeep : pruneFront t l = l := by
      apply pruneFront_of_all_inside
      intro x hx
      have := hlo x hx
      have := (hin t (List.mem_cons_self _ _)).2
      omega
    rw [hl, hkeep] at h1 h2
    simp only [List.length_cons] at hlen
    have hlt : l.length < WS_MESSAGE_LIMIT := by omega
    have hnot : ¬ (l.length ≥ WS_MESSAGE_LIMIT) := by omega
    simp only [hlt, decide_True] at h1
    simp only [hnot, if_false] at h2
    have hrec := ih (checkWsRateLimit m t u).2 (l ++ [t]) (by rw [h2]; rfl)
      (by
        intro x hx
        rcases List.mem_append.mp hx with hx | hx
        · exact hlo x hx
        · simp only [List.mem_singleton] at hx
          rw [hx]
          exact (hin t (List.mem_cons_self _ _)).1)
      (fun x hx => hin x (List.mem_cons_of_mem _ hx))
      (by simp only [List.length_append, List.length_singleton]; omega)
    simp only [List.map_cons, runWsCalls, h1, List.length_cons, List.replicate_succ]
    refine ⟨by rw [hrec.1], ?_⟩
    rw [hrec.2]
    simp

/-- C2. For a sender with no rate-limit state and any `t0`: 20 calls at times
in `[t0, t0 + 1000]` are all admitted; a 21st call made right afterwards (at any
time before `t0 + 60000`) is rejected; and a later call made more than 60000 ms
after the latest of the 20 admitted calls is admitted. -/
theorem rate_limiter_boundary (m : WsRateLimits) (userId : String) (t0 t21 t22 : Int)
    (ts : List Int) (hfresh : mapGet m (wsKey userId) = none) (hlen : ts.length = 20)
    (hin : ∀ t ∈ ts, t0 ≤ t ∧ t ≤ t0 + 1000) (h21 : t21 < t0 + WS_WINDOW_MS)
    (h22 : ∀ t ∈ ts, t + WS_WINDOW_MS < t22) :
    (runWsCalls m (ts.map (fun t => (userId, t)))).1 = List.replicate 20 true
    ∧ (checkWsRateLimit (runWsCalls m (ts.map (fun t => (userId, t)))).2 t21 userId).1 = false
    ∧ (checkWsRateLimit
        (checkWsRateLimit (runWsCalls m (ts.map (fun t => (userId, t)))).2 t21 userId).2
        t22 userId).1 = true := by
  have hburst := runWsCalls_burst userId t0 ts m [] (by simp [hfresh]) (by simp)
    (fun t ht => ⟨(hin t ht).1, by have := (hin t ht).2; simp only [WS_WINDOW_MS]; omega⟩)
    (by simp [hlen, WS_MESSAGE_LIMIT])
  simp only [List.nil_append] at hburst
  obtain ⟨hok, hst⟩ := hburst
  rw [hlen] at hok
  obtain ⟨a1, a2, -⟩ := checkWsRateLimit_spec
    (runWsCalls m (ts.map (fun t => (userId, t)))).2 t21 userId
  have hkeep : pruneFront t21 ts = ts := by
    apply pruneFront_of_all_inside
    intro x hx
    have := (hin x hx).1
    omega
  rw [hst, hkeep] at a1 a2
  have hge : ts.length ≥ WS_MESSAGE_LIMIT := by simp [hlen, WS_MESSAGE_LIMIT]
  have hnlt : ¬ (ts.length < WS_MESSAGE_LIMIT) := by omega
  simp only [hnlt, decide_False] at a1
  simp only [hge, if_true] at a2
  obtain ⟨b1, -, -⟩ := checkWsRateLimit_spec
    (checkWsRateLimit (runWsCalls m (ts.map (fun t => (userId, t)))).2 t21 userId).2 t22 userId
  have hdrop : pruneFront t22 ts = [] := by
    apply pruneFront_of_all_outside
    intro x hx
    have := h22 x hx
    omega
  rw [a2] at b1
  simp only [Option.getD_some, hdrop, List.length_nil] at b1
  refine ⟨hok, a1, ?_⟩
  rw [b1]
  simp [WS_MESSAGE_LIMIT]

theorem rate_limiter_boundary_witness :
    (runWsCalls [] ((List.replicate 20 (5000 : Int)).map (fun t => ("42", t)))).1
        = List.replicate 20 true
    ∧ (checkWsRateLimit
        (runWsCalls [] ((List.replicate 20 (5000 : Int)).map (fun t => ("42", t)))).2
        5000 "42").1 = false
    ∧ (checkWsRateLimit (checkWsRateLimit
        (runWsCalls [] ((List.replicate 20 (5000 : Int)).map (fun t => ("42", t)))).2
        5000 "42").2 65001 "42").1 = true :=
  rate_limiter_boundary [] "42" 5000 5000 65001 (List.replicate 20 5000) (by rfl) (by rfl)
    (by intro t ht; rw [List.eq_of_mem_replicate ht]; decide) (by decide)
    (by intro t ht; rw [List.eq_of_mem_replicate ht]; decide)

theorem countInWindow_append (t : Int) (a b : List Int) :
    countInWindow t (a ++ b) = countInWindow t a + countInWindow t b := by
  simp [countInWindow]

/-- The number of entries of a list inside the window ending at `t` is at most
the number of its entries later than `now - WS_WINDOW_MS`, when `now ≤ t`. -/
theorem countInWindow_le_kept (t now : Int) (l : List Int) (h : now ≤ t) :
    countInWindow t l ≤ (l.filter (fun x => decide (now - WS_WINDOW_MS < x))).length := by
  induction l with
  | nil => simp [countInWindow]
  | cons x rest ih =>
    simp only [countInWindow] at ih ⊢
    by_cases h1 : t - WS_WINDOW_MS < x ∧ x ≤ t
    · have h2 : now - WS_WINDOW_MS < x := by omega
      simp only [List.filter_cons, h1, h2, and_self, decide_True, if_true, List.length_cons]
      omega
    · by_cases h2 : now - WS_WINDOW_MS < x
      · simp only [List.filter_cons, h1, h2, decide_True, decide_False, if_true, if_false,
          List.length_cons]
        exact Nat.le_succ_of_le ih
      · simp only [List.filter_cons, h1, h2, decide_False, if_false]
        exact ih

/-- The sliding-window invariant, for the calls still to come: `adm` are the
timestamps of `u` admitted so far, `b` the latest clock value seen, `p` the clock
value of the last call of `u`. -/
theorem window_invariant (u : String) (calls : List (String × Int)) :
    ∀ (m : WsRateLimits) (adm : List Int) (b p : Int), p ≤ b →
      (mapGet m (wsKey u)).getD [] = adm.filter (fun x => decide (p - WS_WINDOW_MS < x)) →
      adm.Pairwise (· ≤ ·) → (∀ x ∈ adm, x ≤ b) →
      (∀ t, countInWindow t adm ≤ WS_MESSAGE_LIMIT) →
      (∀ c ∈ calls, b ≤ c.2) → (calls.map Prod.snd).Pairwise (· ≤ ·) →
      ∀ t, countInWindow t (adm ++ admittedStamps u calls (runWsCalls m calls).1)
        ≤ WS_MESSAGE_LIMIT := by
  induction calls with
  | nil =>
    intro m adm b p _ _ _ _ hcount _ _ t
    simpa [admittedStamps] using hcount t
  | cons c rest ih =>
    obtain ⟨v, now⟩ := c
    intro m adm b p hpb hstored hsorted hle hcount hafter hmono t
    have hbnow : b ≤ now := hafter (v, now) (List.mem_cons_self _ _)
    simp only [List.map_cons, List.pairwise_cons] at hmono
    have hrest : ∀ c ∈ rest, now ≤ c.2 := by
      intro c hc
      exact hmono.1 c.2 (List.mem_map_of_mem _ hc)
    obtain ⟨h1, h2, h3⟩ := checkWsRateLimit_spec m now v
    simp only [runWsCalls, admittedStamps]
    by_cases hv : v = u
    · subst hv
      have hprune : pruneFront now (adm.filter (fun x => decide (p - WS_WINDOW_MS < x)))
          = adm.filter (fun x => decide (now - WS_WINDOW_MS < x)) := by
        rw [pruneFront_eq_filter _ _ (hsorted.filter _), List.filter_filter]
        apply List.filter_congr
        intro x _
        by_cases hx : now - WS_WINDOW_MS < x
        · have hx2 : p - WS_WINDOW_MS < x := by omega
          simp [hx, hx2]
        · simp [hx]
      rw [hstored, hprune] at h1 h2
      by_cases hfull :
          (adm.filter (fun x => decide (now - WS_WINDOW_MS < x))).length ≥ WS_MESSAGE_LIMIT
      · have hnlt : ¬ ((adm.filter (fun x => decide (now - WS_WINDOW_MS < x))).length
            < WS_MESSAGE_LIMIT) := by omega
        simp only [hnlt, decide_False] at h1
        simp only [hfull, if_true] at h2
        simp only [h1, true_and, Bool.false_eq_true, if_false]
        exact ih (checkWsRateLimit m now v).2 adm now now (le_refl _) (by rw [h2]; rfl) hsorted
          (fun x hx => le_trans (hle x hx) hbnow) hcount hrest hmono.2 t
      · have hlt : (adm.filter (fun x => decide (now - WS_WINDOW_MS < x))).length
            < WS_MESSAGE_LIMIT := by omega
        simp only [hlt, decide_True] at h1
        simp only [hfull, if_false] at h2
        simp only [h1, and_self, if_true]
        have hw : now - WS_WINDOW_MS < now := by simp only [WS_WINDOW_MS]; omega
        have key := ih (checkWsRateLimit m now v).2 (adm ++ [now]) now now (le_refl _)
          (by rw [h2]; simp [List.filter_append, hw])
          (by
            rw [List.pairwise_append]
            refine ⟨hsorted, List.pairwise_singleton _ _, ?_⟩
            intro x hx y hy
            simp only [List.mem_singleton] at hy
            rw [hy]
            exact le_trans (hle x hx) hbnow)
          (by
            intro x hx
            rcases List.mem_append.mp hx with hx | hx
            · exact le_trans (hle x hx) hbnow
            · simp only [List.mem_singleton] at hx
              rw [hx])
          (by
            intro t2
            rw [countInWindow_append]
            by_cases hin : t2 - WS_WINDOW_MS < now ∧ now ≤ t2
            · have := countInWindow_le_kept t2 now adm hin.2
              have h1 : countInWindow t2 [now] = 1 := by simp [countInWindow, hin]
              omega
            · have h1 : countInWindow t2 [now] = 0 := by simp [countInWindow, hin]
              have := hcount t2
              omega)
          hrest hmono.2 t
        simpa using key
    · have hk : wsKey u ≠ wsKey v := fun h => hv (wsKey_injective _ _ h).symm
      simp only [hv, false_and, if_false]
      exact ih (checkWsRateLimit m now v).2 adm now p (le_trans hpb hbnow)
        (by rw [h3 _ hk]; exact hstored) hsorted
        (fun x hx => le_trans (hle x hx) hbnow) hcount hrest hmono.2 t

/-- C3. Sliding-window cap: for every sequence of `checkWsRateLimit` calls, by
any senders, made at non-decreasing clock values from the empty map, for every
sender and every time `t`, at most 20 of that sender's admitted calls have a
timestamp in the trailing interval `(t - 60000, t]`. -/
theorem sliding_window_cap (calls : List (String × Int)) (userId : String) (t : Int)
    (hmono : (calls.map Prod.snd).Pairwise (· ≤ ·)) :
    countInWindow t (admittedStamps userId calls (runWsCalls [] calls).1)
      ≤ WS_MESSAGE_LIMIT := by
  cases calls with
  | nil => simp [admittedStamps, countInWindow]
  | cons c rest =>
    have h := window_invariant userId (c :: rest) [] [] c.2 c.2 (le_refl _)
      (by simp [mapGet]) List.Pairwise.nil (by simp) (by simp [countInWindow])
      (by
        intro d hd
        rcases List.mem_cons.mp hd with hd | hd
        · rw [hd]
        · simp only [List.map_cons, List.pairwise_cons] at hmono
          exact hmono.1 d.2 (List.mem_map_of_mem _ hd))
      hmono t
    simpa using h

theorem sliding_window_cap_witness :
    countInWindow 61000
      (admittedStamps "42" [("42", 1000), ("9", 1000), ("42", 61000)]
        (runWsCalls [] [("42", 1000), ("9", 1000), ("42", 61000)]).1) ≤ WS_MESSAGE_LIMIT :=
  sliding_window_cap [("42", 1000), ("9", 1000), ("42", 61000)] "42" 61000 (by decide)

theorem mem_of_mapGet (m : WsRateLimits) (key : String) (l : List Int)
    (h : mapGet m key = some l) : (key, l) ∈ m := by
  induction m with
  | nil => simp [mapGet] at h
  | cons e rest ih =>
    obtain ⟨k, w⟩ := e
    by_cases hk : k = key
    · simp only [mapGet, hk, if_true, Option.some.injEq] at h
      simp [hk, h]
    · simp only [mapGet, hk, if_false] at h
      exact List.mem_cons_of_mem _ (ih h)

/-- The length bound is kept by one call, whatever the sender and the clock value. -/
theorem checkWsRateLimit_length_le (m : WsRateLimits) (now : Int) (u : String)
    (h : ∀ e ∈ m, e.2.length ≤ WS_MESSAGE_LIMIT) :
    ∀ e ∈ (checkWsRateLimit m now u).2, e.2.length ≤ WS_MESSAGE_LIMIT := by
  intro e he
  unfold checkWsRateLimit at he
  simp only at he
  generalize hm1 : (if !(mapHas m (wsKey u)) then mapSet m (wsKey u) [] else m) = m1 at he
  have h1 : ∀ e ∈ m1, e.2.length ≤ WS_MESSAGE_LIMIT := by
    intro e he
    subst hm1
    split at he
    · rcases mem_mapSet _ _ _ _ he with he | he
      · exact h e he
      · simp [he]
    · exact h e he
  have hst : ((mapGet m1 (wsKey u)).getD []).length ≤ WS_MESSAGE_LIMIT := by
    cases hg : mapGet m1 (wsKey u) with
    | none => simp
    | some l => exact h1 _ (mem_of_mapGet _ _ _ hg)
  have hpl := pruneFront_length_le now ((mapGet m1 (wsKey u)).getD [])
  generalize hpr : pruneFront now ((mapGet m1 (wsKey u)).getD []) = pruned at he hpl
  by_cases hfull : pruned.length ≥ WS_MESSAGE_LIMIT
  · rw [if_pos hfull] at he
    rcases mem_mapSet _ _ _ _ he with he | he
    · exact h1 e he
    · rw [he]
      exact le_trans hpl hst
  · rw [if_neg hfull] at he
    rcases mem_mapSet _ _ _ _ he with he | he
    · rcases mem_mapSet _ _ _ _ he with he | he
      · exact h1 e he
      · rw [he]
        exact le_trans hpl hst
    · rw [he]
      simp only [List.length_append, List.length_singleton]
      omega

/-- C4. Starting from the empty map, after every call of `checkWsRateLimit` (any
senders, any clock values, admitted or rejected) every stored timestamp list has
length at most 20: the bound holds for the map reached by every finite run of
calls, hence after each call of a run. -/
theorem rate_map_length_invariant (calls : List (String × Int)) :
    ∀ e ∈ (runWsCalls [] calls).2, e.2.length ≤ WS_MESSAGE_LIMIT := by
  have gen : ∀ (cs : List (String × Int)) (m : WsRateLimits),
      (∀ e ∈ m, e.2.length ≤ WS_MESSAGE_LIMIT) →
      ∀ e ∈ (runWsCalls m cs).2, e.2.length ≤ WS_MESSAGE_LIMIT := by
    intro cs
    induction cs with
    | nil => intro m hm; simpa [runWsCalls] using hm
    | cons c rest ih =>
      obtain ⟨v, now⟩ := c
      intro m hm
      simp only [runWsCalls]
      exact ih _ (checkWsRateLimit_length_le m now v hm)
  exact gen calls [] (by simp)

theorem rate_map_length_invariant_witness :
    (("ws:42", [90000]) : String × List Int) ∈
        (runWsCalls [] [("42", 5000), ("9", 100), ("42", 90000)]).2
    ∧ [(90000 : Int)].length ≤ WS_MESSAGE_LIMIT :=
  ⟨by decide,
   rate_map_length_invariant [("42", 5000), ("9", 100), ("42", 90000)] ("ws:42", [90000])
     (by decide)⟩

/-- C5. A customer `chat_message` frame that the rate limiter rejects: the
handler makes exactly one `send` call, an `error` event on the originating
socket, so no other connection (admin or customer) receives anything; the
database is unchanged (no conversation or message row inserted or changed);
and the set of live sockets is unchanged, so the connection is not closed. -/
theorem rejected_chat_message_is_local (env : Env) (st : State) (ws : Nat) (userId : String)
    (data : Frame) (htype : data.type = some "chat_message")
    (hrej : (checkWsRateLimit st.wsRateLimits env.now userId).1 = false) :
    (Customer.onMessage env st ws userId (some data)).2
        = [(ws, Event.error "Rate limit exceeded. Please wait before sending more messages.")]
    ∧ (∀ s ∈ (Customer.onMessage env st ws userId (some data)).2, s.1 = ws)
    ∧ (Customer.onMessage env st ws userId (some data)).1.db = st.db
    ∧ (Customer.onMessage env st ws userId (some data)).1.clients = st.clients := by
  have hsend : (Customer.onMessage env st ws userId (some data)).2
      = [(ws, Event.error "Rate limit exceeded. Please wait before sending more messages.")] := by
    simp [Customer.onMessage, htype, hrej]
  refine ⟨hsend, ?_, ?_, ?_⟩
  · rw [hsend]
    intro s hs
    simp only [List.mem_singleton] at hs
    rw [hs]
  · simp [Customer.onMessage, htype, hrej]
  · simp [Customer.onMessage, htype, hrej]

theorem rejected_chat_message_is_local_witness :
    (checkWsRateLimit fullWindowState.wsRateLimits quietEnv.now "42").1 = false
    ∧ (Customer.onMessage quietEnv fullWindowState 2 "42" (some helloFrame)).2
        = [(2, Event.error "Rate limit exceeded. Please wait before sending more messages.")]
    ∧ (Customer.onMessage quietEnv fullWindowState 2 "42" (some helloFrame)).1.db = strayStore :=
  ⟨by decide,
   (rejected_chat_message_is_local quietEnv fullWindowState 2 "42" helloFrame rfl
      (by decide)).1,
   (rejected_chat_message_is_local quietEnv fullWindowState 2 "42" helloFrame rfl
      (by decide)).2.2.1⟩

theorem setRead_setRead (db : Store) (id : Nat) : setRead (setRead db id) id = setRead db id := by
  simp only [setRead, List.map_map]
  congr 1
  apply List.map_congr_left
  intro m _
  by_cases h : m.id = id
  · simp [h]
  · simp [h]

theorem setRead_is_read (db : Store) (id : Nat) :
    ∀ m ∈ (setRead db id).chat_messages, m.id = id → m.is_read = 1 := by
  intro m hm hid
  simp only [setRead, List.mem_map] at hm
  obtain ⟨m0, _, rfl⟩ := hm
  by_cases h : m0.id = id
  · simp [h]
  · simp only [h, if_false] at hid

/-- C8. `markMessageRead` is idempotent, in the customer and in the admin
controller: when a call on `messageId` succeeds and leaves the store `db1`, a
second call on the same id (the database accepting its statement) succeeds too
and leaves exactly `db1`, in which every message with that id has `is_read = 1`. -/
theorem markMessageRead_idempotent (fault fault2 : Nat → Bool) (db db1 : Store)
    (messageId : Option Nat) (hdb : fault2 0 = false) :
    (Customer.markMessageRead fault db messageId = (true, db1) →
      Customer.markMessageRead fault2 db1 messageId = (true, db1)
      ∧ ∀ m ∈ db1.chat_messages, some m.id = messageId → m.is_read = 1)
    ∧ (Admin.markMessageRead fault db messageId = (some true, db1) →
      Admin.markMessageRead fault2 db1 messageId = (some true, db1)
      ∧ ∀ m ∈ db1.chat_messages, some m.id = messageId → m.is_read = 1) := by
  constructor
  · intro h
    unfold Customer.markMessageRead at h ⊢
    by_cases ht : truthyId messageId = true
    · by_cases hf : fault 0 = true
      · simp [ht, hf] at h
      · simp only [ht, hf, Bool.not_true, Bool.false_eq_true, if_false, Prod.mk.injEq,
          true_and] at h
        subst h
        simp only [ht, hdb, Bool.not_true, Bool.false_eq_true, if_false, setRead_setRead,
          true_and]
        intro m hm hid
        refine setRead_is_read db _ m hm ?_
        rw [← hid]
        rfl
    · simp [ht] at h
  · intro h
    unfold Admin.markMessageRead at h ⊢
    cases messageId with
    | none => simp at h
    | some id =>
      by_cases hf : fault 0 = true
      · simp [hf] at h
      · simp only [hf, Bool.false_eq_true, if_false, Prod.mk.injEq, true_and] at h
        subst h
        simp only [hdb, Bool.false_eq_true, if_false, setRead_setRead, true_and]
        intro m hm hid
        refine setRead_is_read db _ m hm ?_
        simpa using hid

theorem markMessageRead_idempotent_witness :
    (Customer.markMessageRead quietEnv.fault strayStore (some 1) = (true, setRead strayStore 1)
      ∧ Customer.markMessageRead quietEnv.fault (setRead strayStore 1) (some 1)
          = (true, setRead strayStore 1))
    ∧ (Admin.markMessageRead quietEnv.fault strayStore (some 1)
          = (some true, setRead strayStore 1)
      ∧ Admin.markMessageRead quietEnv.fault (setRead strayStore 1) (some 1)
          = (some true, setRead strayStore 1)) :=
  ⟨⟨by decide,
    ((markMessageRead_idempotent quietEnv.fault quietEnv.fault strayStore
      (setRead strayStore 1) (some 1) rfl).1 (by decide)).1⟩,
   ⟨by decide,
    ((markMessageRead_idempotent quietEnv.fault quietEnv.fault strayStore
      (setRead strayStore 1) (some 1) rfl).2 (by decide)).1⟩⟩

theorem orderByTimestampAsc_perm (rows : List Message) :
    (orderByTimestampAsc rows).Perm rows :=
  List.perm_insertionSort _ rows

theorem orderByTimestampAsc_sorted (rows : List Message) :
    (orderByTimestampAsc rows).Pairwise (fun a b => a.timestamp ≤ b.timestamp) := by
  haveI : IsTotal Message (fun a b => a.timestamp ≤ b.timestamp) :=
    ⟨fun a b => le_total a.timestamp b.timestamp⟩
  haveI : IsTrans Message (fun a b => a.timestamp ≤ b.timestamp) :=
    ⟨fun _ _ _ h1 h2 => le_trans h1 h2⟩
  exact List.sorted_insertionSort (fun a b : Message => a.timestamp ≤ b.timestamp) rows

/-- With pairwise distinct timestamps the ordering is strict. -/
theorem orderByTimestampAsc_strict (rows : List Message)
    (hd : rows.Pairwise (fun a b => a.timestamp ≠ b.timestamp)) :
    (orderByTimestampAsc rows).Pairwise (fun a b => a.timestamp < b.timestamp) := by
  have hne : (orderByTimestampAsc rows).Pairwise (fun a b => a.timestamp ≠ b.timestamp) :=
    (orderByTimestampAsc_perm rows).symm.pairwise hd (fun h => Ne.symm h)
  exact ((orderByTimestampAsc_sorted rows).and hne).imp
    (fun h => lt_of_le_of_ne h.1 h.2)

/-- Two strictly ordered lists with the same rows are the same list. -/
theorem eq_of_perm_of_strict (l1 l2 : List Message) (hp : l1.Perm l2)
    (h1 : l1.Pairwise (fun a b => a.timestamp < b.timestamp))
    (h2 : l2.Pairwise (fun a b => a.timestamp < b.timestamp)) : l1 = l2 := by
  haveI : IsAntisymm Message (fun a b => a.timestamp < b.timestamp) :=
    ⟨fun _ _ hab hba => absurd hab (not_lt.mpr (le_of_lt hba))⟩
  exact List.eq_of_perm_of_sorted hp h1 h2

theorem selectWithSenderName_users (db db2 : Store) (hu : db2.users = db.users) (m : Message) :
    selectWithSenderName db2 m = selectWithSenderName db m := by
  simp [selectWithSenderName, senderNameOf, hu]

/-- C10. For a conversation whose messages have pairwise distinct timestamps,
`getChatHistoryForConversation` returns at most 500 messages, each the view of
a stored message of that conversation, in strictly ascending timestamp order;
and the result does not depend on the order in which the rows are stored: any
database holding the same message rows in another order gives the same list.
When the query does not fail the conversation's messages are returned: the
result has as many entries as the conversation has messages, up to 500; every
message of the conversation is in the result, unless the result already holds
500 messages that are all older than it; and a conversation of at most 500
messages is returned whole, the result being a rearrangement of the views of
its stored rows. -/
theorem history_ascending (fault : Nat → Bool) (db : Store) (convId : Nat)
    (hd : (db.chat_messages.filter (fun m => m.conversation_id == convId)).Pairwise
      (fun a b => a.timestamp ≠ b.timestamp)) :
    (Admin.getChatHistoryForConversation fault db (some convId)).length ≤ 500
    ∧ (∀ v ∈ Admin.getChatHistoryForConversation fault db (some convId),
        v.conversation_id = convId
        ∧ ∃ m ∈ db.chat_messages, m.conversation_id = convId ∧ v = selectWithSenderName db m)
    ∧ (Admin.getChatHistoryForConversation fault db (some convId)).Pairwise
        (fun a b => a.timestamp < b.timestamp)
    ∧ (∀ db2 : Store, db2.chat_messages.Perm db.chat_messages → db2.users = db.users →
        Admin.getChatHistoryForConversation fault db2 (some convId)
          = Admin.getChatHistoryForConversation fault db (some convId))
    ∧ (fault 0 = false →
        (Admin.getChatHistoryForConversation fault db (some convId)).length
          = min 500 (db.chat_messages.filter (fun m => m.conversation_id == convId)).length
        ∧ (∀ m ∈ db.chat_messages, m.conversation_id = convId →
            selectWithSenderName db m ∈ Admin.getChatHistoryForConversation fault db (some convId)
            ∨ ((Admin.getChatHistoryForConversation fault db (some convId)).length = 500
              ∧ ∀ v ∈ Admin.getChatHistoryForConversation fault db (some convId),
                  v.timestamp < m.timestamp))
        ∧ ((db.chat_messages.filter (fun m => m.conversation_id == convId)).length ≤ 500 →
            (Admin.getChatHistoryForConversation fault db (some convId)).Perm
              ((db.chat_messages.filter (fun m => m.conversation_id == convId)).map
                (selectWithSenderName db)))) := by
  unfold Admin.getChatHistoryForConversation
  by_cases hf : fault 0 = true
  · simp [hf]
  · simp only [hf, Bool.false_eq_true, if_false]
    refine ⟨?_, ?_, ?_, ?_, ?_⟩
    · simp only [List.length_map, List.length_take]
      exact Nat.min_le_left _ _
    · intro v hv
      simp only [List.mem_map] at hv
      obtain ⟨m, hm, rfl⟩ := hv
      have hm2 : m ∈ orderByTimestampAsc
          (db.chat_messages.filter (fun m => m.conversation_id == convId)) :=
        List.mem_of_mem_take hm
      have hm3 := (orderByTimestampAsc_perm _).mem_iff.mp hm2
      simp only [List.mem_filter, beq_iff_eq] at hm3
      exact ⟨hm3.2, m, hm3.1, hm3.2, rfl⟩
    · rw [List.pairwise_map]
      exact ((orderByTimestampAsc_strict _ hd).sublist (List.take_sublist _ _)).imp
        (fun h => h)
    · intro db2 hp hu
      have hpf : (db2.chat_messages.filter (fun m => m.conversation_id == convId)).Perm
          (db.chat_messages.filter (fun m => m.conversation_id == convId)) := hp.filter _
      have hd2 : (db2.chat_messages.filter (fun m => m.conversation_id == convId)).Pairwise
          (fun a b => a.timestamp ≠ b.timestamp) :=
        hpf.symm.pairwise hd (fun h => Ne.symm h)
      have heq : orderByTimestampAsc
            (db2.chat_messages.filter (fun m => m.conversation_id == convId))
          = orderByTimestampAsc
            (db.chat_messages.filter (fun m => m.conversation_id == convId)) :=
        eq_of_perm_of_strict _ _
          (((orderByTimestampAsc_perm _).trans hpf).trans (orderByTimestampAsc_perm _).symm)
          (orderByTimestampAsc_strict _ hd2) (orderByTimestampAsc_strict _ hd)
      rw [heq]
      apply List.map_congr_left
      intro m _
      exact selectWithSenderName_users db db2 hu m
    · intro _
      have hperm := orderByTimestampAsc_perm
        (db.chat_messages.filter (fun m => m.conversation_id == convId))
      have hstrict := orderByTimestampAsc_strict _ hd
      generalize orderByTimestampAsc
        (db.chat_messages.filter (fun m => m.conversation_id == convId)) = sorted
        at hperm hstrict
      refine ⟨?_, ?_, ?_⟩
      · simp only [List.length_map, List.length_take, hperm.length_eq]
      · intro m hm hconv
        have hmem : m ∈ sorted :=
          hperm.mem_iff.mpr (List.mem_filter.mpr ⟨hm, by simp [hconv]⟩)
        rw [← List.take_append_drop 500 sorted] at hmem hstrict
        rcases List.mem_append.mp hmem with h | h
        · exact Or.inl (List.mem_map_of_mem _ h)
        · right
          have hlen : 500 < sorted.length := by
            by_contra hle
            rw [List.drop_of_length_le (not_lt.mp hle)] at h
            simp at h
          constructor
          · simp only [List.length_map, List.length_take]
            omega
          · intro v hv
            obtain ⟨x, hx, rfl⟩ := List.mem_map.mp hv
            exact (List.pairwise_append.mp hstrict).2.2 x hx m h
      · intro hle
        rw [← hperm.length_eq] at hle
        rw [List.take_of_length_le hle]
        exact hperm.map _

theorem history_ascending_witness :
    (shuffledStore.chat_messages.filter (fun m => m.conversation_id == 7)).Pairwise
      (fun a b => a.timestamp ≠ b.timestamp)
    ∧ (Admin.getChatHistoryForConversation quietEnv.fault shuffledStore (some 7)).Pairwise
        (fun a b => a.timestamp < b.timestamp)
    ∧ (Admin.getChatHistoryForConversation quietEnv.fault shuffledStore (some 7)).map
        (fun v => v.timestamp) = [10, 20, 30]
    ∧ (Admin.getChatHistoryForConversation quietEnv.fault shuffledStore (some 7)).Perm
        ((shuffledStore.chat_messages.filter (fun m => m.conversation_id == 7)).map
          (selectWithSenderName shuffledStore)) :=
  ⟨by decide, (history_ascending quietEnv.fault shuffledStore 7 (by decide)).2.2.1, by decide,
   ((history_ascending quietEnv.fault shuffledStore 7 (by decide)).2.2.2.2 rfl).2.2
      (by decide)⟩

/-- The first row of `ORDER BY id DESC` is a row of greatest id. -/
theorem orderByIdDesc_head (rows : List Message) (hne : rows ≠ []) :
    ∃ m, (orderByIdDesc rows).head? = some m ∧ m ∈ rows ∧ ∀ x ∈ rows, x.id ≤ m.id := by
  haveI : IsTotal Message (fun a b => a.id ≥ b.id) := ⟨fun a b => le_total b.id a.id⟩
  haveI : IsTrans Message (fun a b => a.id ≥ b.id) := ⟨fun _ _ _ h1 h2 => le_trans h2 h1⟩
  have hs : (orderByIdDesc rows).Pairwise (fun a b => a.id ≥ b.id) :=
    List.sorted_insertionSort (fun a b : Message => a.id ≥ b.id) rows
  have hp : (orderByIdDesc rows).Perm rows := List.perm_insertionSort _ rows
  cases hso : orderByIdDesc rows with
  | nil =>
    rw [hso] at hp
    exact absurd hp.symm.eq_nil hne
  | cons m rest =>
    rw [hso] at hs hp
    refine ⟨m, rfl, hp.mem_iff.mp (List.mem_cons_self _ _), ?_⟩
    intro x hx
    rcases List.mem_cons.mp (hp.mem_iff.mpr hx) with h | h
    · rw [h]
    · exact (List.pairwise_cons.mp hs).1 x h

/-- Step one of the resolver: a stored `user` message of the customer decides. -/
theorem resolve_of_userMsgs (fault : Nat → Bool) (dbNow : Int) (db : Store) (customerId : Nat)
    (h0 : fault 0 = false) (hmsg : ∀ m ∈ db.chat_messages, m.conversation_id ≠ 0)
    (hne : db.chat_messages.filter
      (fun m => m.sender_id == customerId && m.sender_type == "user") ≠ []) :
    ∃ m, (orderByIdDesc (db.chat_messages.filter
          (fun m => m.sender_id == customerId && m.sender_type == "user"))).head? = some m
      ∧ m ∈ db.chat_messages.filter
          (fun m => m.sender_id == customerId && m.sender_type == "user")
      ∧ (∀ x ∈ db.chat_messages.filter
          (fun m => m.sender_id == customerId && m.sender_type == "user"), x.id ≤ m.id)
      ∧ Customer.resolveConversation fault dbNow db customerId
          = (some m.conversation_id, db) := by
  obtain ⟨m, hhead, hmem, hmax⟩ := orderByIdDesc_head _ hne
  refine ⟨m, hhead, hmem, hmax, ?_⟩
  have hz : m.conversation_id ≠ 0 := hmsg m (List.mem_of_mem_filter hmem)
  unfold Customer.resolveConversation
  simp only [h0, Bool.false_eq_true, if_false, List.head?_take, hhead]
  simp [truthyId, hz]

/-- Step two of the resolver: without such a message, an owned conversation decides. -/
theorem resolve_of_owned (fault : Nat → Bool) (dbNow : Int) (db : Store) (customerId : Nat)
    (h0 : fault 0 = false) (h1 : fault 1 = false)
    (hnone : db.chat_messages.filter
      (fun m => m.sender_id == customerId && m.sender_type == "user") = [])
    (c : Conversation) (rest : List Conversation)
    (hown : db.chat_conversations.filter (fun c => c.customer_id == customerId) = c :: rest) :
    Customer.resolveConversation fault dbNow db customerId = (some c.id, db) := by
  unfold Customer.resolveConversation
  simp [h0, h1, hnone, hown, truthyId, orderByIdDesc]

/-- Step three of the resolver: otherwise one conversation is inserted. -/
theorem resolve_create (fault : Nat → Bool) (dbNow : Int) (db : Store) (customerId : Nat)
    (h0 : fault 0 = false) (h1 : fault 1 = false) (h2 : fault 2 = false)
    (hnone : db.chat_messages.filter
      (fun m => m.sender_id == customerId && m.sender_type == "user") = [])
    (hown : db.chat_conversations.filter (fun c => c.customer_id == customerId) = []) :
    Customer.resolveConversation fault dbNow db customerId
      = (some (nextConversationId db),
          { db with
            chat_conversations := db.chat_conversations ++
              [{ id := nextConversationId db, customer_id := customerId,
                 priority := DEFAULT_PRIORITY, created_at := dbNow }] }) := by
  unfold Customer.resolveConversation
  simp [h0, h1, h2, hnone, hown, truthyId, orderByIdDesc]

theorem foldr_max_ge (l : List Nat) : ∀ x ∈ l, x ≤ l.foldr max 0 := by
  induction l with
  | nil => simp
  | cons a rest ih =>
    intro x hx
    simp only [List.foldr_cons]
    rcases List.mem_cons.mp hx with h | h
    · rw [h]; exact le_max_left _ _
    · exact le_trans (ih x h) (le_max_right _ _)

theorem nextConversationId_fresh (db : Store) :
    ∀ c ∈ db.chat_conversations, c.id < nextConversationId db := by
  intro c hc
  have := foldr_max_ge (db.chat_conversations.map (fun c => c.id)) c.id
    (List.mem_map_of_mem _ hc)
  simp only [nextConversationId]
  omega

theorem nextMessageId_fresh (db : Store) :
    ∀ m ∈ db.chat_messages, m.id < nextMessageId db := by
  intro m hm
  have := foldr_max_ge (db.chat_messages.map (fun m => m.id)) m.id
    (List.mem_map_of_mem _ hm)
  simp only [nextMessageId]
  omega

/-- C7. The customer resolver, entered for a frame without `conversation_id`,
follows the two-step fallback in order, the database accepting its statements
and every stored message carrying a non-zero conversation id. (1) If a message
with `sender_id` the customer and `sender_type` `user` exists, the resolver
returns the `conversation_id` of the one with the greatest id and leaves the
database unchanged. (2) Otherwise, if a conversation owned by the customer
exists, it returns the id of such a conversation and leaves the database
unchanged. (3) Otherwise it appends exactly one conversation row, owned by the
customer and with a fresh id, and returns that id; the messages are untouched. -/
theorem resolver_fallback (fault : Nat → Bool) (dbNow : Int) (db : Store) (customerId : Nat)
    (hdb : ∀ k, fault k = false) (hmsg : ∀ m ∈ db.chat_messages, m.conversation_id ≠ 0) :
    (db.chat_messages.filter
        (fun m => m.sender_id == customerId && m.sender_type == "user") ≠ [] →
      ∃ m ∈ db.chat_messages, m.sender_id = customerId ∧ m.sender_type = "user"
        ∧ (∀ x ∈ db.chat_messages, x.sender_id = customerId → x.sender_type = "user" →
            x.id ≤ m.id)
        ∧ Customer.resolveConversation fault dbNow db customerId
            = (some m.conversation_id, db))
    ∧ (db.chat_messages.filter
        (fun m => m.sender_id == customerId && m.sender_type == "user") = [] →
      db.chat_conversations.filter (fun c => c.customer_id == customerId) ≠ [] →
      ∃ c ∈ db.chat_conversations, c.customer_id = customerId
        ∧ Customer.resolveConversation fault dbNow db customerId = (some c.id, db))
    ∧ (db.chat_messages.filter
        (fun m => m.sender_id == customerId && m.sender_type == "user") = [] →
      db.chat_conversations.filter (fun c => c.customer_id == customerId) = [] →
      ∃ newId, (∀ c ∈ db.chat_conversations, c.id ≠ newId)
        ∧ Customer.resolveConversation fault dbNow db customerId
            = (some newId,
                { db with
                  chat_conversations := db.chat_conversations ++
                    [{ id := newId, customer_id := customerId, priority := DEFAULT_PRIORITY,
                       created_at := dbNow }] })) := by
  refine ⟨?_, ?_, ?_⟩
  · intro hne
    obtain ⟨m, -, hmem, hmax, hres⟩ :=
      resolve_of_userMsgs fault dbNow db customerId (hdb 0) hmsg hne
    simp only [List.mem_filter, Bool.and_eq_true, beq_iff_eq] at hmem hmax
    refine ⟨m, hmem.1, hmem.2.1, hmem.2.2, ?_, hres⟩
    intro x hx hs ht
    exact hmax x ⟨hx, hs, ht⟩
  · intro hnone hown
    cases hf : db.chat_conversations.filter (fun c => c.customer_id == customerId) with
    | nil => exact absurd hf hown
    | cons c rest =>
      have hc : c ∈ db.chat_conversations.filter (fun c => c.customer_id == customerId) := by
        rw [hf]; exact List.mem_cons_self _ _
      simp only [List.mem_filter, beq_iff_eq] at hc
      exact ⟨c, hc.1, hc.2,
        resolve_of_owned fault dbNow db customerId (hdb 0) (hdb 1) hnone c rest hf⟩
  · intro hnone hown
    refine ⟨nextConversationId db, ?_,
      resolve_create fault dbNow db customerId (hdb 0) (hdb 1) (hdb 2) hnone hown⟩
    intro c hc
    exact Nat.ne_of_lt (nextConversationId_fresh db c hc)

theorem resolver_fallback_witness :
    (∀ m ∈ strayStore.chat_messages, m.conversation_id ≠ 0)
    ∧ ∃ m ∈ strayStore.chat_messages, m.sender_id = 42 ∧ m.sender_type = "user"
        ∧ (∀ x ∈ strayStore.chat_messages, x.sender_id = 42 → x.sender_type = "user" →
            x.id ≤ m.id)
        ∧ Customer.resolveConversation quietEnv.fault 2002 strayStore 42
            = (some m.conversation_id, strayStore) :=
  ⟨by decide,
   (resolver_fallback quietEnv.fault 2002 strayStore 42 (fun _ => rfl) (by decide)).1
     (by decide)⟩

/-- A send whose resolver yields a non-zero conversation id inserts one message
row into that conversation and returns the message object. -/
theorem createNewMessage_of_resolved (env : Env) (db db2 : Store) (data : Frame)
    (customerId cid : Nat) (hcust : data.customer_id = some customerId) (hX : customerId ≠ 0)
    (hs : truthyId data.sender_id = true) (ht : truthyStr data.sender_type = true)
    (hnc : truthyId data.conversation_id = false) (h3 : env.fault 3 = false)
    (hres : Customer.resolveConversation env.fault env.dbNow db customerId = (some cid, db2))
    (hcid : cid ≠ 0) :
    Customer.createNewMessage env db data
      = (some (Customer.returnedMessage env.date data cid (nextMessageId db2)),
          { db2 with
            chat_messages := db2.chat_messages
              ++ [Customer.insertedRow env.dbNow data cid (nextMessageId db2)] }) := by
  have hc : truthyId data.customer_id = true := by simp [hcust, truthyId, hX]
  have hg : data.customer_id.getD 0 = customerId := by simp [hcust]
  unfold Customer.createNewMessage
  simp [hc, hg, hs, ht, hnc, hres, hcid, h3]

/-- After a message of the customer with a fresh greatest id has been appended,
the resolver returns that message's conversation. -/
theorem resolve_after_own_message (fault : Nat → Bool) (dbNow : Int) (db : Store)
    (customerId : Nat) (row : Message) (h0 : fault 0 = false)
    (hmsg : ∀ m ∈ db.chat_messages, m.conversation_id ≠ 0) (hrow : row.conversation_id ≠ 0)
    (hid : ∀ m ∈ db.chat_messages, m.id < row.id)
    (hp : (row.sender_id == customerId && row.sender_type == "user") = true) :
    Customer.resolveConversation fault dbNow
        { db with chat_messages := db.chat_messages ++ [row] } customerId
      = (some row.conversation_id, { db with chat_messages := db.chat_messages ++ [row] }) := by
  have hmsg1 : ∀ m ∈ ({ db with chat_messages := db.chat_messages ++ [row] } : Store).chat_messages,
      m.conversation_id ≠ 0 := by
    intro m hm
    rcases List.mem_append.mp hm with h | h
    · exact hmsg m h
    · simp only [List.mem_singleton] at h
      rw [h]; exact hrow
  have hne : ({ db with chat_messages := db.chat_messages ++ [row] } : Store).chat_messages.filter
      (fun m => m.sender_id == customerId && m.sender_type == "user") ≠ [] := by
    simp only [List.filter_append, List.filter_cons, hp, if_true, List.filter_nil]
    simp
  obtain ⟨m, -, hmem, hmax, hres⟩ := resolve_of_userMsgs fault dbNow _ customerId h0 hmsg1 hne
  have hrowmem : row ∈ ({ db with chat_messages := db.chat_messages ++ [row] } :
      Store).chat_messages.filter
      (fun m => m.sender_id == customerId && m.sender_type == "user") := by
    simp only [List.mem_filter, List.mem_append, List.mem_singleton, or_true, true_and]
    exact hp
  have hm : m = row := by
    have h1 := List.mem_of_mem_filter hmem
    rcases List.mem_append.mp h1 with h | h
    · have := hid m h
      have := hmax row hrowmem
      omega
    · simpa using h
  rw [hres, hm]

/-- A message that is not a `user` message of the customer does not change what
the first step of the resolver finds. -/
theorem resolve_after_other_message (fault : Nat → Bool) (dbNow : Int) (db : Store)
    (customerId cid : Nat) (row : Message) (h0 : fault 0 = false)
    (hmsg : ∀ m ∈ db.chat_messages, m.conversation_id ≠ 0) (hrow : row.conversation_id ≠ 0)
    (hp : (row.sender_id == customerId && row.sender_type == "user") = false)
    (hne : db.chat_messages.filter
      (fun m => m.sender_id == customerId && m.sender_type == "user") ≠ [])
    (hres : Customer.resolveConversation fault dbNow db customerId = (some cid, db)) :
    Customer.resolveConversation fault dbNow
        { db with chat_messages := db.chat_messages ++ [row] } customerId
      = (some cid, { db with chat_messages := db.chat_messages ++ [row] }) := by
  have hmsg1 : ∀ m ∈ ({ db with chat_messages := db.chat_messages ++ [row] } : Store).chat_messages,
      m.conversation_id ≠ 0 := by
    intro m hm
    rcases List.mem_append.mp hm with h | h
    · exact hmsg m h
    · simp only [List.mem_singleton] at h
      rw [h]; exact hrow
  have hsame : ({ db with chat_messages := db.chat_messages ++ [row] } : Store).chat_messages.filter
      (fun m => m.sender_id == customerId && m.sender_type == "user")
      = db.chat_messages.filter
        (fun m => m.sender_id == customerId && m.sender_type == "user") := by
    simp only [List.filter_append, List.filter_cons, hp, List.filter_nil]
    simp
  obtain ⟨m, hhead, -, -, hr⟩ := resolve_of_userMsgs fault dbNow db customerId h0 hmsg hne
  obtain ⟨m2, hhead2, -, -, hr2⟩ := resolve_of_userMsgs fault dbNow
    { db with chat_messages := db.chat_messages ++ [row] } customerId h0 hmsg1
    (by rw [hsame]; exact hne)
  rw [hsame, hhead] at hhead2
  have hmm : m = m2 := by simpa using hhead2
  rw [hr] at hres
  have hc : m.conversation_id = cid := by simpa using hres
  rw [hr2, ← hmm, hc]

/-- The first resolution of a customer, together with what a second resolution
finds once a message has been inserted into the resolved conversation. -/
theorem resolve_then_resolve (f1 f2 : Nat → Bool) (t1 t2 : Int) (db : Store) (customerId : Nat)
    (hdb1 : ∀ k, f1 k = false) (hdb2 : ∀ k, f2 k = false)
    (hmsg : ∀ m ∈ db.chat_messages, m.conversation_id ≠ 0)
    (hconv : ∀ c ∈ db.chat_conversations, c.id ≠ 0)
    (hone : (db.chat_conversations.filter (fun c => c.customer_id == customerId)).length ≤ 1) :
    ∃ cid db2, Customer.resolveConversation f1 t1 db customerId = (some cid, db2)
      ∧ cid ≠ 0 ∧ db2.chat_messages = db.chat_messages
      ∧ (∀ row : Message, row.conversation_id = cid →
          (∀ m ∈ db2.chat_messages, m.id < row.id) →
          Customer.resolveConversation f2 t2
              { db2 with chat_messages := db2.chat_messages ++ [row] } customerId
            = (some cid, { db2 with chat_messages := db2.chat_messages ++ [row] }))
      ∧ (db2.chat_conversations.filter (fun c => c.customer_id == customerId)).length ≤ 1
      ∧ ((db2.chat_conversations.filter (fun c => c.customer_id == customerId)).length = 1
          ↔ (db.chat_conversations.filter (fun c => c.customer_id == customerId) ≠ []
            ∨ db.chat_messages.filter
                (fun m => m.sender_id == customerId && m.sender_type == "user") = [])) := by
  by_cases hU : db.chat_messages.filter
      (fun m => m.sender_id == customerId && m.sender_type == "user") = []
  · cases hO : db.chat_conversations.filter (fun c => c.customer_id == customerId) with
    | nil =>
      have hnz : nextConversationId db ≠ 0 := by simp [nextConversationId]
      refine ⟨nextConversationId db, _,
        resolve_create f1 t1 db customerId (hdb1 0) (hdb1 1) (hdb1 2) hU hO, hnz, rfl, ?_, ?_, ?_⟩
      · intro row hrow hid
        by_cases hp : (row.sender_id == customerId && row.sender_type == "user") = true
        · have h := resolve_after_own_message f2 t2
            { db with
              chat_conversations := db.chat_conversations ++
                [{ id := nextConversationId db, customer_id := customerId,
                   priority := DEFAULT_PRIORITY, created_at := t1 }] }
            customerId row (hdb2 0) hmsg (by rw [hrow]; exact hnz) hid hp
          rw [hrow] at h
          exact h
        · have hp2 : (row.sender_id == customerId && row.sender_type == "user") = false := by
            simpa using hp
          refine resolve_of_owned f2 t2 _ customerId (hdb2 0) (hdb2 1) ?_
            { id := nextConversationId db, customer_id := customerId,
              priority := DEFAULT_PRIORITY, created_at := t1 } [] ?_
          · simp only [List.filter_append, hU, List.filter_cons, hp2, List.filter_nil]
            simp
          · simp only [List.filter_append, hO, List.filter_cons, beq_self_eq_true, if_true,
              List.filter_nil, List.nil_append]
      · simp only [List.filter_append, hO, List.filter_cons, beq_self_eq_true, if_true,
          List.filter_nil, List.nil_append, List.length_singleton, le_refl]
      · simp only [List.filter_append, hO, List.filter_cons, beq_self_eq_true, if_true,
          List.filter_nil, List.nil_append, List.length_singleton, true_iff]
        exact Or.inr hU
    | cons c rest =>
      have hc : c ∈ db.chat_conversations.filter (fun c => c.customer_id == customerId) := by
        rw [hO]; exact List.mem_cons_self _ _
      have hcz : c.id ≠ 0 := hconv c (List.mem_of_mem_filter hc)
      refine ⟨c.id, db, resolve_of_owned f1 t1 db customerId (hdb1 0) (hdb1 1) hU c rest hO,
        hcz, rfl, ?_, ?_, ?_⟩
      · intro row hrow hid
        by_cases hp : (row.sender_id == customerId && row.sender_type == "user") = true
        · have h := resolve_after_own_message f2 t2 db customerId row (hdb2 0) hmsg
            (by rw [hrow]; exact hcz) hid hp
          rw [hrow] at h
          exact h
        · have hp2 : (row.sender_id == customerId && row.sender_type == "user") = false := by
            simpa using hp
          refine resolve_of_owned f2 t2 _ customerId (hdb2 0) (hdb2 1) ?_ c rest hO
          simp only [List.filter_append, hU, List.filter_cons, hp2, List.filter_nil]
          simp
      · rw [hO] at hone ⊢
        exact hone
      · rw [hO] at hone ⊢
        simp only [List.length_cons] at hone ⊢
        constructor
        · intro _
          exact Or.inl (by simp)
        · intro _
          omega
  · obtain ⟨m, -, hmem, -, hres⟩ := resolve_of_userMsgs f1 t1 db customerId (hdb1 0) hmsg hU
    have hmz : m.conversation_id ≠ 0 := hmsg m (List.mem_of_mem_filter hmem)
    refine ⟨m.conversation_id, db, hres, hmz, rfl, ?_, hone, ?_⟩
    · intro row hrow hid
      by_cases hp : (row.sender_id == customerId && row.sender_type == "user") = true
      · have h := resolve_after_own_message f2 t2 db customerId row (hdb2 0) hmsg
          (by rw [hrow]; exact hmz) hid hp
        rw [hrow] at h
        exact h
      · have hp2 : (row.sender_id == customerId && row.sender_type == "user") = false := by
          simpa using hp
        have hres2 : Customer.resolveConversation f2 t2 db customerId
            = (some m.conversation_id, db) := by
          obtain ⟨m2, hh2, -, -, hr2⟩ :=
            resolve_of_userMsgs f2 t2 db customerId (hdb2 0) hmsg hU
          obtain ⟨m1, hh1, -, -, hr1⟩ :=
            resolve_of_userMsgs f1 t1 db customerId (hdb1 0) hmsg hU
          rw [hh1] at hh2
          have hmm : m1 = m2 := by simpa using hh2
          rw [hr1] at hres
          have hc : m1.conversation_id = m.conversation_id := by simpa using hres
          rw [hr2, ← hmm, hc]
        exact resolve_after_other_message f2 t2 db customerId m.conversation_id row (hdb2 0)
          hmsg (by rw [hrow]; exact hmz) hp2 hU hres2
    · constructor
      · intro h1
        refine Or.inl ?_
        intro hnil
        rw [hnil] at h1
        simp at h1
      · intro h
        rcases h with h | h
        · have : (db.chat_conversations.filter
              (fun c => c.customer_id == customerId)).length ≠ 0 := by
            intro h0
            exact h (List.length_eq_zero.mp h0)
          omega
        · exact absurd h hU

/-- C6 (as stated, refuted). In `strayStore` customer 42 owns no conversation
(so at most one) but is the sender of a `user` message in conversation 7. Two
successive sends without `conversation_id` both resolve to conversation 7, and
afterwards no `chat_conversations` row has customer 42 as owner: not exactly one. -/
theorem find_or_create_counterexample :
    (strayStore.chat_conversations.filter (fun c => c.customer_id == 42)).length ≤ 1
    ∧ (Customer.createNewMessage quietEnv strayStore helloFrame).1.map
        (fun m => m.conversation_id) = some 7
    ∧ (Customer.createNewMessage quietEnv
        (Customer.createNewMessage quietEnv strayStore helloFrame).2 helloFrame).1.map
        (fun m => m.conversation_id) = some 7
    ∧ ¬ ((Customer.createNewMessage quietEnv
          (Customer.createNewMessage quietEnv strayStore helloFrame).2
          helloFrame).2.chat_conversations.filter (fun c => c.customer_id == 42)).length = 1 := by
  decide

/-- C6 (amended). For a customer who owns at most one conversation, in a
database whose stored conversation ids are non-zero and which accepts every
statement: two successive customer `chat_message` sends for that customer
without `conversation_id` both create a message, the two messages carry the
same conversation id, and afterwards at most one `chat_conversations` row has
that customer as owner. There is exactly one such row precisely when the
customer owned a conversation before, or had no stored `user` message as sender
(the resolver then finds or creates the owned row); when the customer owned
none but such a message existed, the resolver reuses that message's
conversation and no row is created. -/
theorem find_or_create_twice (env1 env2 : Env) (db : Store) (customerId : Nat)
    (data1 data2 : Frame) (hdb1 : ∀ k, env1.fault k = false) (hdb2 : ∀ k, env2.fault k = false)
    (hX : customerId ≠ 0) (hc1 : data1.customer_id = some customerId)
    (hc2 : data2.customer_id = some customerId)
    (hn1 : truthyId data1.conversation_id = false) (hn2 : truthyId data2.conversation_id = false)
    (hs1 : truthyId data1.sender_id = true ∧ truthyStr data1.sender_type = true)
    (hs2 : truthyId data2.sender_id = true ∧ truthyStr data2.sender_type = true)
    (hmsg : ∀ m ∈ db.chat_messages, m.conversation_id ≠ 0)
    (hconv : ∀ c ∈ db.chat_conversations, c.id ≠ 0)
    (hone : (db.chat_conversations.filter (fun c => c.customer_id == customerId)).length ≤ 1) :
    ∃ m1 db1 m2 db2,
      Customer.createNewMessage env1 db data1 = (some m1, db1)
      ∧ Customer.createNewMessage env2 db1 data2 = (some m2, db2)
      ∧ m1.conversation_id = m2.conversation_id
      ∧ (db2.chat_conversations.filter (fun c => c.customer_id == customerId)).length ≤ 1
      ∧ ((db2.chat_conversations.filter (fun c => c.customer_id == customerId)).length = 1
          ↔ (db.chat_conversations.filter (fun c => c.customer_id == customerId) ≠ []
            ∨ db.chat_messages.filter
                (fun m => m.sender_id == customerId && m.sender_type == "user") = [])) := by
  obtain ⟨cid, dbr, hres, hcid, -, hagain, hle, hiff⟩ :=
    resolve_then_resolve env1.fault env2.fault env1.dbNow env2.dbNow db customerId hdb1 hdb2
      hmsg hconv hone
  have hfirst := createNewMessage_of_resolved env1 db dbr data1 customerId cid hc1 hX hs1.1
    hs1.2 hn1 (hdb1 3) hres hcid
  have hsecond := createNewMessage_of_resolved env2 _ _ data2 customerId cid hc2 hX hs2.1
    hs2.2 hn2 (hdb2 3)
    (hagain (Customer.insertedRow env1.dbNow data1 cid (nextMessageId dbr)) rfl
      (nextMessageId_fresh dbr)) hcid
  exact ⟨_, _, _, _, hfirst, hsecond, rfl, hle, hiff⟩

theorem find_or_create_twice_witness :
    ∃ m1 db1 m2 db2,
      Customer.createNewMessage quietEnv emptyStore helloFrame = (some m1, db1)
      ∧ Customer.createNewMessage quietEnv db1 helloFrame = (some m2, db2)
      ∧ m1.conversation_id = m2.conversation_id
      ∧ (db2.chat_conversations.filter (fun c => c.customer_id == 42)).length ≤ 1
      ∧ ((db2.chat_conversations.filter (fun c => c.customer_id == 42)).length = 1
          ↔ (emptyStore.chat_conversations.filter (fun c => c.customer_id == 42) ≠ []
            ∨ emptyStore.chat_messages.filter
                (fun m => m.sender_id == 42 && m.sender_type == "user") = [])) :=
  find_or_create_twice quietEnv quietEnv emptyStore 42 helloFrame helloFrame (fun _ => rfl)
    (fun _ => rfl) (by decide) rfl rfl (by decide) (by decide) (by decide) (by decide)
    (by decide) (by decide) (by decide)

theorem sameButRead_refl (m : Message) : sameButRead m m :=
  ⟨rfl, rfl, rfl, rfl, rfl, rfl, rfl, rfl, Or.inl rfl⟩

theorem messagesKept_append (l added : List Message) : messagesKept l (l ++ added) :=
  ⟨l, added, rfl, List.forall₂_same.mpr (fun m _ => sameButRead_refl m)⟩

theorem messagesKept_setRead (db : Store) (id : Nat)
    (hflag : ∀ m ∈ db.chat_messages, m.is_read = 0 ∨ m.is_read = 1) :
    messagesKept db.chat_messages (setRead db id).chat_messages := by
  refine ⟨(setRead db id).chat_messages, [], by simp, ?_⟩
  simp only [setRead]
  rw [List.forall₂_map_right_iff, List.forall₂_same]
  intro m hm
  by_cases h : m.id = id
  · rw [if_pos h]
    refine ⟨rfl, rfl, rfl, rfl, rfl, rfl, rfl, rfl, ?_⟩
    rcases hflag m hm with h0 | h1
    · exact Or.inr ⟨h0, rfl⟩
    · exact Or.inl h1.symm
  · rw [if_neg h]
    exact sameButRead_refl m

theorem messagesKept_mem (before after : List Message) (h : messagesKept before after) :
    ∀ m ∈ before, ∃ m2 ∈ after, sameButRead m m2 := by
  obtain ⟨kept, added, rfl, hf⟩ := h
  intro m hm
  induction hf with
  | nil => simp at hm
  | cons hab _ ih =>
    rcases List.mem_cons.mp hm with h | h
    · subst h
      exact ⟨_, by simp, hab⟩
    · obtain ⟨m2, hm2, hs⟩ := ih h
      refine ⟨m2, ?_, hs⟩
      simp only [List.cons_append, List.mem_cons]
      exact Or.inr hm2

theorem Customer_resolveConversation_messages (fault : Nat → Bool) (dbNow : Int) (db : Store)
    (customerId : Nat) :
    (Customer.resolveConversation fault dbNow db customerId).2.chat_messages
      = db.chat_messages := by
  unfold Customer.resolveConversation
  simp only
  split_ifs <;> first | rfl | (split <;> rfl)

/-- The messages after `createNewMessage` of the customer controller: the old
rows, possibly followed by one new row. -/
theorem Customer_createNewMessage_messages (env : Env) (db : Store) (data : Frame) :
    (Customer.createNewMessage env db data).2.chat_messages = db.chat_messages
    ∨ ∃ row, row.is_read = 0 ∧ (Customer.createNewMessage env db data).2.chat_messages
        = db.chat_messages ++ [row] := by
  have hr : (if truthyId data.conversation_id then (data.conversation_id, db)
      else Customer.resolveConversation env.fault env.dbNow db
        (data.customer_id.getD 0)).2.chat_messages = db.chat_messages := by
    split_ifs
    · rfl
    · exact Customer_resolveConversation_messages _ _ _ _
  unfold Customer.createNewMessage
  simp only
  generalize (if truthyId data.conversation_id then (data.conversation_id, db)
      else Customer.resolveConversation env.fault env.dbNow db
        (data.customer_id.getD 0)) = r at hr ⊢
  repeat' split
  all_goals first
    | exact Or.inl rfl
    | exact Or.inl hr
    | exact Or.inr ⟨_, rfl, by rw [hr]⟩

/-- The messages after `createNewMessage` of the admin controller: the old
rows, possibly followed by one new row. -/
theorem Admin_createNewMessage_messages (env : Env) (db : Store) (data : Frame) :
    (Admin.createNewMessage env db data).2.chat_messages = db.chat_messages
    ∨ ∃ row, row.is_read = 0 ∧ (Admin.createNewMessage env db data).2.chat_messages
        = db.chat_messages ++ [row] := by
  unfold Admin.createNewMessage
  simp only
  generalize hrdef : (if truthyId data.conversation_id then (data.conversation_id, db)
      else
        match data.customer_id with
        | none => (none, db)
        | some customer_id =>
          if env.fault 0 then (none, db)
          else
            match (db.chat_conversations.filter
                (fun c => c.customer_id == customer_id)).take 1 with
            | c :: _ => (some c.id, db)
            | [] =>
              if env.fault 1 then (none, db)
              else
                (some (nextConversationId db),
                  { db with
                    chat_conversations := db.chat_conversations ++
                      [{ id := nextConversationId db, customer_id := customer_id,
                         priority := DEFAULT_PRIORITY, created_at := env.dbNow }] })) = r
  have hr : r.2.chat_messages = db.chat_messages := by
    rw [← hrdef]
    repeat' split
    all_goals rfl
  repeat' split
  all_goals first
    | exact Or.inl rfl
    | exact Or.inl hr
    | exact Or.inr ⟨_, rfl, by rw [hr]⟩

/-- What a socket event can do to `chat_messages`: nothing, append one row, or
set the read flag of the rows with one id. -/
theorem Customer_onMessage_messages (env : Env) (st : State) (ws : Nat) (userId : String)
    (message : Option Frame) :
    (Customer.onMessage env st ws userId message).1.db.chat_messages = st.db.chat_messages
    ∨ (∃ row, row.is_read = 0
        ∧ (Customer.onMessage env st ws userId message).1.db.chat_messages
          = st.db.chat_messages ++ [row])
    ∨ ∃ id, (Customer.onMessage env st ws userId message).1.db.chat_messages
        = (setRead st.db id).chat_messages := by
  have hc := Customer_createNewMessage_messages env st.db
  have hm : ∀ mid, (Customer.markMessageRead env.fault st.db mid).2 = st.db
      ∨ ∃ id, (Customer.markMessageRead env.fault st.db mid).2 = setRead st.db id := by
    intro mid
    unfold Customer.markMessageRead
    repeat' split
    all_goals first
      | exact Or.inl rfl
      | exact Or.inr ⟨_, rfl⟩
  cases message with
  | none => exact Or.inl rfl
  | some data =>
    unfold Customer.onMessage
    simp only
    repeat' split
    all_goals first
      | exact Or.inl rfl
      | (rcases hc data with h | ⟨row, h0, h⟩
         · exact Or.inl h
         · exact Or.inr (Or.inl ⟨row, h0, h⟩))
      | (rcases hm data.message_id with h | ⟨id, h⟩
         · exact Or.inl (by simp only [h])
         · exact Or.inr (Or.inr ⟨id, by simp only [h]⟩))

theorem Admin_onMessage_messages (env : Env) (st : State) (ws : Nat) (adminId : String)
    (message : Option Frame) :
    (Admin.onMessage env st ws adminId message).1.db.chat_messages = st.db.chat_messages
    ∨ (∃ row, row.is_read = 0
        ∧ (Admin.onMessage env st ws adminId message).1.db.chat_messages
          = st.db.chat_messages ++ [row])
    ∨ ∃ id, (Admin.onMessage env st ws adminId message).1.db.chat_messages
        = (setRead st.db id).chat_messages := by
  have hc := Admin_createNewMessage_messages env st.db
  have hm : ∀ mid, (Admin.markMessageRead env.fault st.db mid).2 = st.db
      ∨ ∃ id, (Admin.markMessageRead env.fault st.db mid).2 = setRead st.db id := by
    intro mid
    unfold Admin.markMessageRead
    repeat' split
    all_goals first
      | exact Or.inl rfl
      | exact Or.inr ⟨_, rfl⟩
  have hp : ∀ cid pr, (Admin.updateConversationPriority env.fault st.db cid pr).2.chat_messages
      = st.db.chat_messages := by
    intro cid pr
    unfold Admin.updateConversationPriority
    split <;> rfl
  suffices hgen : ∀ x, x = (Admin.onMessage env st ws adminId message).1.db.chat_messages →
      (x = st.db.chat_messages ∨ (∃ row, row.is_read = 0 ∧ x = st.db.chat_messages ++ [row])
        ∨ ∃ id, x = (setRead st.db id).chat_messages) from hgen _ rfl
  intro x hx
  cases message with
  | none => exact Or.inl hx
  | some data =>
    unfold Admin.onMessage at hx
    simp only at hx
    split_ifs at hx
    all_goals try (exact Or.inl hx)
    all_goals try split at hx
    all_goals try (exact Or.inl hx)
    all_goals try split_ifs at hx
    all_goals try (exact Or.inl hx)
    all_goals try split at hx
    all_goals first
      | exact Or.inl (hx.trans (hp _ _))
      | (rcases hc data with h | ⟨row, h0, h⟩
         · exact Or.inl (hx.trans h)
         · exact Or.inr (Or.inl ⟨row, h0, hx.trans h⟩))
      | (rcases hm data.message_id with h | ⟨id, h⟩
         · exact Or.inl (hx.trans (by simp only [h]))
         · exact Or.inr (Or.inr ⟨id, hx.trans (by simp only [h])⟩))

/-- The three possible effects on `chat_messages` keep every row and keep the
read flags in the range 0, 1. -/
theorem messagesKept_of_effect (db : Store) (after : List Message)
    (hflag : ∀ m ∈ db.chat_messages, m.is_read = 0 ∨ m.is_read = 1)
    (h : after = db.chat_messages
      ∨ (∃ row, row.is_read = 0 ∧ after = db.chat_messages ++ [row])
      ∨ ∃ id, after = (setRead db id).chat_messages) :
    messagesKept db.chat_messages after
    ∧ ∀ m ∈ after, m.is_read = 0 ∨ m.is_read = 1 := by
  rcases h with h | ⟨row, h0, h⟩ | ⟨id, h⟩
  · subst h
    refine ⟨?_, hflag⟩
    have := messagesKept_append db.chat_messages []
    simpa using this
  · subst h
    refine ⟨messagesKept_append _ _, ?_⟩
    intro m hm
    rcases List.mem_append.mp hm with h1 | h1
    · exact hflag m h1
    · simp only [List.mem_singleton] at h1
      subst h1
      exact Or.inl h0
  · subst h
    refine ⟨messagesKept_setRead db id hflag, ?_⟩
    intro m hm
    simp only [setRead, List.mem_map] at hm
    obtain ⟨m0, hm0, rfl⟩ := hm
    by_cases hid : m0.id = id
    · rw [if_pos hid]
      exact Or.inr rfl
    · rw [if_neg hid]
      exact hflag m0 hm0

/-- C9. Over every inbound socket event of the customer handler and of the
admin handler (any frame, also an unparsable one, any database faults), in a
store whose read flags are 0 or 1: every message row present before the event
is still present afterwards, at the same place, with the same id,
conversation_id, sender_id, sender_type, content, media_url, media_type and
timestamp, and its `is_read` is unchanged or has gone from 0 to 1, never from 1
to 0; and the read flags are still 0 or 1 afterwards. -/
theorem message_rows_monotone (env : Env) (st : State) (ws : Nat) (tag : String)
    (message : Option Frame)
    (hflag : ∀ m ∈ st.db.chat_messages, m.is_read = 0 ∨ m.is_read = 1) :
    (messagesKept st.db.chat_messages
        (Customer.onMessage env st ws tag message).1.db.chat_messages
      ∧ (∀ m ∈ st.db.chat_messages,
          ∃ m2 ∈ (Customer.onMessage env st ws tag message).1.db.chat_messages,
            sameButRead m m2)
      ∧ ∀ m ∈ (Customer.onMessage env st ws tag message).1.db.chat_messages,
          m.is_read = 0 ∨ m.is_read = 1)
    ∧ (messagesKept st.db.chat_messages
        (Admin.onMessage env st ws tag message).1.db.chat_messages
      ∧ (∀ m ∈ st.db.chat_messages,
          ∃ m2 ∈ (Admin.onMessage env st ws tag message).1.db.chat_messages,
            sameButRead m m2)
      ∧ ∀ m ∈ (Admin.onMessage env st ws tag message).1.db.chat_messages,
          m.is_read = 0 ∨ m.is_read = 1) := by
  constructor
  · obtain ⟨hk, hf⟩ := messagesKept_of_effect st.db _ hflag
      (Customer_onMessage_messages env st ws tag message)
    exact ⟨hk, messagesKept_mem _ _ hk, hf⟩
  · obtain ⟨hk, hf⟩ := messagesKept_of_effect st.db _ hflag
      (Admin_onMessage_messages env st ws tag message)
    exact ⟨hk, messagesKept_mem _ _ hk, hf⟩

theorem message_rows_monotone_witness :
    (∀ m ∈ shuffledState.db.chat_messages, m.is_read = 0 ∨ m.is_read = 1)
    ∧ (Customer.onMessage quietEnv shuffledState 2 "42" (some readFrame)).1.db.chat_messages
        = (setRead shuffledStore 1).chat_messages
    ∧ messagesKept shuffledState.db.chat_messages
        (Customer.onMessage quietEnv shuffledState 2 "42" (some readFrame)).1.db.chat_messages
    ∧ messagesKept shuffledState.db.chat_messages
        (Admin.onMessage quietEnv shuffledState 1 "a" (some readFrame)).1.db.chat_messages :=
  ⟨by decide, by decide,
   (message_rows_monotone quietEnv shuffledState 2 "42" (some readFrame) (by decide)).1.1,
   (message_rows_monotone quietEnv shuffledState 1 "a" (some readFrame) (by decide)).2.1⟩

/-- A fan-out over a registry without repeated sockets reaches a socket of the
registry exactly once when it passes the test, and not at all otherwise. -/
theorem sentTo_fanout (clients : List Client) (test : Client → Bool) (ev : Event)
    (hnd : (clients.map (fun c => c.sock)).Nodup) (c : Client) (hc : c ∈ clients) :
    sentTo ((clients.filter test).map (fun x => (x.sock, ev))) c.sock
      = if test c then [ev] else [] := by
  induction clients with
  | nil => simp at hc
  | cons a rest ih =>
    simp only [List.map_cons, List.nodup_cons, List.mem_map, not_exists, not_and] at hnd
    rcases List.mem_cons.mp hc with h | h
    · subst h
      have hrest : sentTo ((rest.filter test).map (fun x => (x.sock, ev))) c.sock = [] := by
        simp only [sentTo, List.map_eq_nil_iff, List.filter_eq_nil_iff, List.mem_map,
          List.mem_filter, beq_iff_eq]
        rintro s ⟨x, ⟨hx, -⟩, rfl⟩
        exact hnd.1 x hx
      by_cases ht : test c = true
      · simp only [List.filter_cons, ht, if_true, List.map_cons]
        simp only [sentTo, List.filter_cons, beq_self_eq_true, if_true, List.map_cons] at hrest ⊢
        rw [hrest]
      · simp only [Bool.not_eq_true] at ht
        simp only [List.filter_cons, ht, Bool.false_eq_true, if_false]
        exact hrest
    · have hne : a.sock ≠ c.sock := by
        intro heq
        exact hnd.1 c h heq.symm
      have hstep : sentTo (((a :: rest).filter test).map (fun x => (x.sock, ev))) c.sock
          = sentTo ((rest.filter test).map (fun x => (x.sock, ev))) c.sock := by
        by_cases ht : test a = true
        · simp [sentTo, List.filter_cons, ht, hne]
        · simp [sentTo, List.filter_cons, ht]
      rw [hstep]
      exact ih hnd.2 h

/-- A fan-out over a registry never reaches a socket that is not in it. -/
theorem sentTo_fanout_absent (clients : List Client) (test : Client → Bool) (ev : Event)
    (sock : Nat) (habs : ∀ c ∈ clients, c.sock ≠ sock) :
    sentTo ((clients.filter test).map (fun x => (x.sock, ev))) sock = [] := by
  simp only [sentTo, List.map_eq_nil_iff, List.filter_eq_nil_iff, List.mem_map,
    List.mem_filter, beq_iff_eq]
  rintro s ⟨x, ⟨hx, -⟩, rfl⟩
  exact habs x hx

theorem sentTo_append (a b : List Sent) (sock : Nat) :
    sentTo (a ++ b) sock = sentTo a sock ++ sentTo b sock := by
  simp [sentTo]

theorem routeUpgrade_customer_ne_empty (pathname userId : String)
    (h : routeUpgrade pathname = Routed.customer userId) : userId ≠ "" := by
  unfold routeUpgrade at h
  repeat' split at h
  all_goals first
    | (injection h with h1; subst h1; assumption)
    | exact absurd h (by simp)

theorem routeUpgrade_admin_ne_empty (pathname adminId : String)
    (h : routeUpgrade pathname = Routed.admin adminId) : adminId ≠ "" := by
  unfold routeUpgrade at h
  repeat' split at h
  all_goals first
    | (injection h with h1; subst h1; assumption)
    | exact absurd h (by simp)

theorem map_sock_of_same_sock (clients : List Client) (f : Client → Client)
    (hf : ∀ c, (f c).sock = c.sock) :
    (clients.map f).map (fun c => c.sock) = clients.map (fun c => c.sock) := by
  simp [List.map_map, Function.comp_def, hf]

/-- Every registry the connection handlers can produce holds each socket once,
and each socket is tagged either as an admin (no `userId`) or as a customer
(a `userId`, not `isAdmin`). -/
theorem reachable_wf (clients : List Client) (h : Reachable clients) :
    (clients.map (fun c => c.sock)).Nodup
    ∧ ∀ c ∈ clients, (c.isAdmin = true ∧ c.userId = none)
        ∨ (c.isAdmin = false ∧ c.userId ≠ none) := by
  induction h with
  | start => simp
  | upgrade clients sock pathname _ hfresh ih =>
    obtain ⟨hnd, htag⟩ := ih
    have hnd2 : ((clients ++ [freshSocket sock]).map (fun c => c.sock)).Nodup := by
      simp only [List.map_append, List.map_cons, List.map_nil, freshSocket]
      rw [List.nodup_append]
      refine ⟨hnd, List.nodup_singleton _, ?_⟩
      intro a ha hb
      simp only [List.mem_singleton] at hb
      simp only [List.mem_map] at ha
      obtain ⟨c, hc, rfl⟩ := ha
      exact hfresh c hc hb
    unfold onUpgrade
    cases hr : routeUpgrade pathname with
    | destroyed => exact ⟨hnd, htag⟩
    | customer userId =>
      have hne := routeUpgrade_customer_ne_empty pathname userId hr
      have ht : truthyStr (some userId) = true := by simp [truthyStr, hne]
      simp only [Customer.handleWebSocketConnection, ht, Bool.not_true, Bool.false_eq_true,
        if_false]
      constructor
      · rw [map_sock_of_same_sock]
        · exact hnd2
        · intro c
          split <;> rfl
      · intro c hc
        simp only [List.mem_map, List.mem_append, List.mem_singleton] at hc
        obtain ⟨c0, hc0, rfl⟩ := hc
        rcases hc0 with h0 | h0
        · have : c0.sock ≠ sock := hfresh c0 h0
          rw [if_neg this]
          exact htag c0 h0
        · subst h0
          simp [freshSocket]
    | admin adminId =>
      have hne := routeUpgrade_admin_ne_empty pathname adminId hr
      have ht : truthyStr (some adminId) = true := by simp [truthyStr, hne]
      simp only [Admin.handleWebSocketConnection, ht, Bool.not_true, Bool.false_eq_true,
        if_false]
      constructor
      · rw [map_sock_of_same_sock]
        · exact hnd2
        · intro c
          split <;> rfl
      · intro c hc
        simp only [List.mem_map, List.mem_append, List.mem_singleton] at hc
        obtain ⟨c0, hc0, rfl⟩ := hc
        rcases hc0 with h0 | h0
        · have : c0.sock ≠ sock := hfresh c0 h0
          rw [if_neg this]
          exact htag c0 h0
        · subst h0
          simp [freshSocket]
  | transport clients sock readyState isAlive _ ih =>
    obtain ⟨hnd, htag⟩ := ih
    constructor
    · rw [map_sock_of_same_sock]
      · exact hnd
      · intro c
        split <;> rfl
    · intro c hc
      simp only [List.mem_map] at hc
      obtain ⟨c0, hc0, rfl⟩ := hc
      have := htag c0 hc0
      split
      · exact this
      · exact this
  | removed clients sock _ ih =>
    obtain ⟨hnd, htag⟩ := ih
    constructor
    · exact hnd.sublist ((List.filter_sublist _).map _)
    · intro c hc
      exact htag c (List.mem_of_mem_filter hc)

theorem liveRegistry_reachable : Reachable liveRegistry :=
  Reachable.upgrade _ 5 "/ws/customer/chat/43"
    (Reachable.upgrade _ 4 "/ws/customer/chat/42"
      (Reachable.upgrade _ 3 "/ws/customer/chat/42"
        (Reachable.upgrade _ 2 "/ws/admin/chat/b"
          (Reachable.upgrade _ 1 "/ws/admin/chat/a" Reachable.start (by decide))
          (by decide))
        (by decide))
      (by decide))
    (by decide)

/-- C15. In every registry reachable through the customer and admin connection
handlers, `broadcastToCustomer(c, data)` sends `data` exactly once to each open
customer connection whose identity is `String(c)` (to all of them when there are
several), and sends nothing to an admin connection, to a connection with another
identity, to a connection that is not open, or to any other socket. -/
theorem broadcastToCustomer_targets (clients : List Client) (customerId : Option Nat)
    (data : Event) (hreach : Reachable clients) :
    (∀ c ∈ clients, c.isAdmin = false → c.userId = some (jsString customerId) →
        c.readyState = OPEN →
        sentTo (Admin.broadcastToCustomer clients customerId data) c.sock = [data])
    ∧ (∀ c ∈ clients, c.isAdmin = true →
        sentTo (Admin.broadcastToCustomer clients customerId data) c.sock = [])
    ∧ (∀ c ∈ clients, c.userId ≠ some (jsString customerId) →
        sentTo (Admin.broadcastToCustomer clients customerId data) c.sock = [])
    ∧ (∀ c ∈ clients, c.readyState ≠ OPEN →
        sentTo (Admin.broadcastToCustomer clients customerId data) c.sock = [])
    ∧ ∀ sock, (∀ c ∈ clients, c.sock ≠ sock) →
        sentTo (Admin.broadcastToCustomer clients customerId data) sock = [] := by
  obtain ⟨hnd, htag⟩ := reachable_wf clients hreach
  unfold Admin.broadcastToCustomer
  refine ⟨?_, ?_, ?_, ?_, ?_⟩
  · intro c hc _ hid hopen
    rw [sentTo_fanout clients _ data hnd c hc]
    simp [hid, hopen]
  · intro c hc hadmin
    rw [sentTo_fanout clients _ data hnd c hc]
    rcases htag c hc with h | h
    · simp [h.2]
    · rw [h.1] at hadmin
      exact absurd hadmin (by simp)
  · intro c hc hid
    rw [sentTo_fanout clients _ data hnd c hc]
    simp [hid]
  · intro c hc hopen
    rw [sentTo_fanout clients _ data hnd c hc]
    simp [hopen]
  · intro sock habs
    exact sentTo_fanout_absent clients _ data sock habs

theorem broadcastToCustomer_targets_witness :
    Reachable liveRegistry
    ∧ sentTo (Admin.broadcastToCustomer liveRegistry (some 42) (Event.message_read (some 1))) 3
        = [Event.message_read (some 1)]
    ∧ sentTo (Admin.broadcastToCustomer liveRegistry (some 42) (Event.message_read (some 1))) 4
        = [Event.message_read (some 1)]
    ∧ sentTo (Admin.broadcastToCustomer liveRegistry (some 42) (Event.message_read (some 1))) 1
        = [] :=
  ⟨liveRegistry_reachable,
   (broadcastToCustomer_targets liveRegistry (some 42) (Event.message_read (some 1))
      liveRegistry_reachable).1
      { sock := 3, userId := some "42", adminId := none, isAdmin := false, isAlive := true,
        readyState := OPEN } (by decide) rfl (by decide) rfl,
   (broadcastToCustomer_targets liveRegistry (some 42) (Event.message_read (some 1))
      liveRegistry_reachable).1
      { sock := 4, userId := some "42", adminId := none, isAdmin := false, isAlive := true,
        readyState := OPEN } (by decide) rfl (by decide) rfl,
   (broadcastToCustomer_targets liveRegistry (some 42) (Event.message_read (some 1))
      liveRegistry_reachable).2.1
      { sock := 1, userId := none, adminId := some "a", isAdmin := true, isAlive := true,
        readyState := OPEN } (by decide) rfl⟩

/-- The `send` calls of an admin `mark_read` frame that the store accepts. -/
theorem admin_mark_read_sends (env : Env) (st : State) (ws : Nat) (adminId : String)
    (data : Frame) (htype : data.type = some "mark_read")
    (hok : (Admin.markMessageRead env.fault st.db data.message_id).1 = some true) :
    (Admin.onMessage env st ws adminId (some data)).2
      = Admin.broadcastToAdmins st.clients (Event.message_read data.message_id)
          (some adminId) := by
  simp [Admin.onMessage, htype, hok]

/-- C13. For an admin `mark_read` frame from a connection tagged with admin
identity `a` that the store accepts, in a registry holding each socket once:
every open admin connection whose identity differs from `a` receives exactly one
event, the `message_read` carrying the frame's `message_id`; no connection tagged
`a` (the issuer included), no customer connection and no other socket receives
anything. -/
theorem admin_mark_read_fanout (env : Env) (st : State) (ws : Nat) (adminId : String)
    (data : Frame) (hnd : (st.clients.map (fun c => c.sock)).Nodup)
    (htype : data.type = some "mark_read")
    (hok : (Admin.markMessageRead env.fault st.db data.message_id).1 = some true) :
    (∀ c ∈ st.clients, c.isAdmin = true → c.readyState = OPEN → c.adminId ≠ some adminId →
        sentTo (Admin.onMessage env st ws adminId (some data)).2 c.sock
          = [Event.message_read data.message_id])
    ∧ (∀ c ∈ st.clients, c.adminId = some adminId →
        sentTo (Admin.onMessage env st ws adminId (some data)).2 c.sock = [])
    ∧ (∀ c ∈ st.clients, c.isAdmin = false →
        sentTo (Admin.onMessage env st ws adminId (some data)).2 c.sock = [])
    ∧ ∀ sock, (∀ c ∈ st.clients, c.sock ≠ sock) →
        sentTo (Admin.onMessage env st ws adminId (some data)).2 sock = [] := by
  rw [admin_mark_read_sends env st ws adminId data htype hok]
  unfold Admin.broadcastToAdmins
  refine ⟨?_, ?_, ?_, ?_⟩
  · intro c hc hadmin hopen hid
    rw [sentTo_fanout st.clients _ _ hnd c hc]
    simp [hadmin, hopen, hid]
  · intro c hc hid
    rw [sentTo_fanout st.clients _ _ hnd c hc]
    simp [hid]
  · intro c hc hadmin
    rw [sentTo_fanout st.clients _ _ hnd c hc]
    simp [hadmin]
  · intro sock habs
    exact sentTo_fanout_absent st.clients _ _ sock habs

theorem admin_mark_read_fanout_witness :
    (liveState.clients.map (fun c => c.sock)).Nodup
    ∧ sentTo (Admin.onMessage quietEnv liveState 1 "a" (some readFrame)).2 2
        = [Event.message_read (some 1)]
    ∧ sentTo (Admin.onMessage quietEnv liveState 1 "a" (some readFrame)).2 1 = []
    ∧ sentTo (Admin.onMessage quietEnv liveState 1 "a" (some readFrame)).2 3 = [] :=
  ⟨by decide,
   (admin_mark_read_fanout quietEnv liveState 1 "a" readFrame (by decide) rfl (by decide)).1
      { sock := 2, userId := none, adminId := some "b", isAdmin := true, isAlive := true,
        readyState := OPEN } (by decide) rfl rfl (by decide),
   (admin_mark_read_fanout quietEnv liveState 1 "a" readFrame (by decide) rfl (by decide)).2.1
      { sock := 1, userId := none, adminId := some "a", isAdmin := true, isAlive := true,
        readyState := OPEN } (by decide) rfl,
   (admin_mark_read_fanout quietEnv liveState 1 "a" readFrame (by decide) rfl
      (by decide)).2.2.1
      { sock := 3, userId := some "42", adminId := none, isAdmin := false, isAlive := true,
        readyState := OPEN } (by decide) rfl⟩

/-- C14. An admin `set_priority` frame. If `conversation_id` is missing (falsy)
or `priority` is not one of `high`, `medium`, `low`, the handler makes one `send`
call, an `error` event on the requesting socket, and leaves the whole state as
it was: no store write, no broadcast. Otherwise, the database accepting the
`UPDATE`, the new state differs from the old one only in the `priority` of the
conversation rows with that id, which is the given value; the `send` calls are
the `priority_updated` broadcast (conversation id and new priority) with no
excluded identity, so that in a registry holding each socket once every open
admin connection, the sender included, receives it exactly once and nobody else
receives anything. -/
theorem set_priority_contract (env : Env) (st : State) (ws : Nat) (adminId : String)
    (data : Frame) (htype : data.type = some "set_priority") :
    ((truthyId data.conversation_id = false
        ∨ (data.priority ≠ some "high" ∧ data.priority ≠ some "medium"
            ∧ data.priority ≠ some "low")) →
      Admin.onMessage env st ws adminId (some data)
        = (st, [(ws, Event.error "Invalid priority update request")]))
    ∧ (∀ cid p, data.conversation_id = some cid → cid ≠ 0 → data.priority = some p →
        (p = "high" ∨ p = "medium" ∨ p = "low") → env.fault 0 = false →
        (Admin.onMessage env st ws adminId (some data)).1
          = { st with
              db := { st.db with
                chat_conversations := st.db.chat_conversations.map (fun c =>
                  if c.id = cid then { c with priority := p } else c) } }
        ∧ (Admin.onMessage env st ws adminId (some data)).2
          = Admin.broadcastToAdmins st.clients
              (Event.priority_updated (some cid) (some p)) none
        ∧ ((st.clients.map (fun c => c.sock)).Nodup →
            (∀ c ∈ st.clients,
              sentTo (Admin.onMessage env st ws adminId (some data)).2 c.sock
                = if c.isAdmin && c.readyState == OPEN then
                    [Event.priority_updated (some cid) (some p)]
                  else [])
            ∧ ∀ sock, (∀ c ∈ st.clients, c.sock ≠ sock) →
                sentTo (Admin.onMessage env st ws adminId (some data)).2 sock = [])) := by
  constructor
  · intro hbad
    cases hp : data.priority with
    | none => simp [Admin.onMessage, htype, hp]
    | some p =>
      rcases hbad with h | h
      · simp [Admin.onMessage, htype, hp, h]
      · rw [hp] at h
        have h1 : p ≠ "high" := fun e => h.1 (by rw [e])
        have h2 : p ≠ "medium" := fun e => h.2.1 (by rw [e])
        have h3 : p ≠ "low" := fun e => h.2.2 (by rw [e])
        simp [Admin.onMessage, htype, hp, h1, h2, h3]
  · intro cid p hcid hnz hp hvalid hdb
    have ht : truthyId (some cid) = true := by simp [truthyId, hnz]
    have hv : (p == "high" || p == "medium" || p == "low") = true := by
      rcases hvalid with h | h | h <;> simp [h]
    have hsend : (Admin.onMessage env st ws adminId (some data)).2
        = Admin.broadcastToAdmins st.clients
            (Event.priority_updated (some cid) (some p)) none := by
      simp [Admin.onMessage, htype, hp, ht, hv, Admin.updateConversationPriority, hdb, hcid]
    refine ⟨?_, hsend, ?_⟩
    · simp [Admin.onMessage, htype, hp, ht, hv, Admin.updateConversationPriority, hdb, hcid]
    · intro hnd
      rw [hsend]
      unfold Admin.broadcastToAdmins
      constructor
      · intro c hc
        rw [sentTo_fanout st.clients _ _ hnd c hc]
        simp
      · intro sock habs
        exact sentTo_fanout_absent st.clients _ _ sock habs

theorem set_priority_contract_witness :
    Admin.onMessage quietEnv liveState 1 "a"
        (some { priorityFrame with priority := some "urgent" })
      = (liveState, [(1, Event.error "Invalid priority update request")])
    ∧ (Admin.onMessage quietEnv liveState 1 "a" (some priorityFrame)).2
      = Admin.broadcastToAdmins liveState.clients
          (Event.priority_updated (some 7) (some "low")) none
    ∧ (Admin.onMessage quietEnv liveState 1 "a" (some priorityFrame)).1.db.chat_conversations
      = [{ id := 7, customer_id := 99, priority := "low", created_at := 5 }] :=
  ⟨(set_priority_contract quietEnv liveState 1 "a"
      { priorityFrame with priority := some "urgent" } rfl).1 (Or.inr (by decide)),
   ((set_priority_contract quietEnv liveState 1 "a" priorityFrame rfl).2 7 "low" rfl
      (by decide) rfl (Or.inr (Or.inr rfl)) rfl).2.1,
   by decide⟩

/-- The `send` calls of a successful admin `chat_message`: the customer
broadcast, the listing broadcast to the admins with no excluded identity, then
the echo. -/
theorem admin_chat_message_sends (env : Env) (st : State) (ws : Nat) (adminId : String)
    (data : Frame) (newMessage : MessageView) (htype : data.type = some "chat_message")
    (hok : (Admin.createNewMessage env st.db data).1 = some newMessage) :
    (Admin.onMessage env st ws adminId (some data)).2
      = Admin.broadcastToCustomer st.clients data.customer_id (Event.chat_message newMessage)
        ++ Admin.broadcastToAdmins st.clients
            (Event.conversations (coerceToArray
              (Admin.getAllConversations (env.fault 4)
                (Admin.createNewMessage env st.db data).2))) none
        ++ [(ws, Event.chat_message newMessage)] := by
  simp [Admin.onMessage, htype, hok]

/-- C12 (as stated, refuted). In `liveState` the admin on socket 1 sends a
`chat_message` that is stored; socket 1 itself is sent a `conversations` event,
before its echo. -/
theorem admin_chat_message_counterexample :
    (Admin.createNewMessage quietEnv liveState.db replyFrame).1.isSome = true
    ∧ (sentTo (Admin.onMessage quietEnv liveState 1 "a" (some replyFrame)).2 1).map
        Event.isConversations = [true, false] := by
  decide

/-- C12 (amended). For every registry reachable through the connection
handlers and every successful admin `chat_message` sent from admin connection
A: every open admin connection, A included, receives exactly one
`conversations` event, carrying the listing read after the insert (the empty list
when that query fails); the other admin connections receive nothing else, and A
receives after it exactly one `chat_message` echo. -/
theorem admin_chat_message_fanout (env : Env) (st : State) (ws : Nat) (adminId : String)
    (data : Frame) (newMessage : MessageView) (hreach : Reachable st.clients)
    (htype : data.type = some "chat_message")
    (hok : (Admin.createNewMessage env st.db data).1 = some newMessage) :
    (∀ c ∈ st.clients, c.isAdmin = true → c.readyState = OPEN → c.sock ≠ ws →
        sentTo (Admin.onMessage env st ws adminId (some data)).2 c.sock
          = [Event.conversations (coerceToArray
              (Admin.getAllConversations (env.fault 4)
                (Admin.createNewMessage env st.db data).2))])
    ∧ (∀ c ∈ st.clients, c.isAdmin = true → c.readyState = OPEN → c.sock = ws →
        sentTo (Admin.onMessage env st ws adminId (some data)).2 ws
          = [Event.conversations (coerceToArray
              (Admin.getAllConversations (env.fault 4)
                (Admin.createNewMessage env st.db data).2)),
             Event.chat_message newMessage]) := by
  obtain ⟨hnd, htag⟩ := reachable_wf st.clients hreach
  rw [admin_chat_message_sends env st ws adminId data newMessage htype hok]
  have hcust : ∀ c ∈ st.clients, c.isAdmin = true →
      sentTo (Admin.broadcastToCustomer st.clients data.customer_id
        (Event.chat_message newMessage)) c.sock = [] := by
    intro c hc hadmin
    unfold Admin.broadcastToCustomer
    rw [sentTo_fanout st.clients _ _ hnd c hc]
    rcases htag c hc with h | h
    · simp [h.2]
    · rw [h.1] at hadmin
      exact absurd hadmin (by simp)
  have hadm : ∀ (ev : Event), ∀ c ∈ st.clients, c.isAdmin = true → c.readyState = OPEN →
      sentTo (Admin.broadcastToAdmins st.clients ev none) c.sock = [ev] := by
    intro ev c hc hadmin hopen
    unfold Admin.broadcastToAdmins
    rw [sentTo_fanout st.clients _ _ hnd c hc]
    simp [hadmin, hopen]
  constructor
  · intro c hc hadmin hopen hne
    rw [sentTo_append, sentTo_append, hcust c hc hadmin, hadm _ c hc hadmin hopen]
    have hne2 : ws ≠ c.sock := fun e => hne e.symm
    simp [sentTo, hne2]
  · intro c hc hadmin hopen heq
    subst heq
    rw [sentTo_append, sentTo_append, hcust c hc hadmin, hadm _ c hc hadmin hopen]
    simp [sentTo]

theorem admin_chat_message_fanout_witness :
    Reachable liveState.clients
    ∧ (Admin.createNewMessage quietEnv liveState.db replyFrame).1.isSome = true
    ∧ (sentTo (Admin.onMessage quietEnv liveState 1 "a" (some replyFrame)).2 2).map
        Event.isConversations = [true]
    ∧ (sentTo (Admin.onMessage quietEnv liveState 1 "a" (some replyFrame)).2 2)
        = [Event.conversations (coerceToArray
            (Admin.getAllConversations (quietEnv.fault 4)
              (Admin.createNewMessage quietEnv liveState.db replyFrame).2))] :=
  ⟨liveRegistry_reachable, by decide, by decide,
   (admin_chat_message_fanout quietEnv liveState 1 "a" replyFrame
      ((Admin.createNewMessage quietEnv liveState.db replyFrame).1.get (by decide))
      liveRegistry_reachable rfl (by decide)).1
      { sock := 2, userId := none, adminId := some "b", isAdmin := true, isAlive := true,
        readyState := OPEN } (by decide) rfl rfl (by decide)⟩

/-- The `COUNT(*)` of `getUnreadCountForUser` is the count of the claim. -/
theorem getUnreadCountForUser_eq (fault : Nat → Bool) (db : Store) (userId : String)
    (hdb : fault 0 = false) :
    Customer.getUnreadCountForUser fault db userId
      = unreadAdminMessagesOwnedBy db (sqlNumber userId) := by
  simp only [Customer.getUnreadCountForUser, hdb, Bool.false_eq_true, if_false,
    unreadAdminMessagesOwnedBy, List.countP_eq_length_filter]
  congr 1
  apply List.filter_congr
  intro m _
  simp only [isUnreadAdminMessageOf]
  have hmem : decide (m.conversation_id ∈
        (db.chat_conversations.filter
          (fun c => decide ((c.customer_id : Int) = sqlNumber userId))).map (fun c => c.id))
      = db.chat_conversations.any
          (fun c => c.id == m.conversation_id
            && decide ((c.customer_id : Int) = sqlNumber userId)) := by
    rw [Bool.eq_iff_iff]
    simp only [decide_eq_true_eq, List.mem_map, List.mem_filter, List.any_eq_true,
      Bool.and_eq_true, beq_iff_eq]
    constructor
    · rintro ⟨c, ⟨hc, ho⟩, hid⟩
      exact ⟨c, hc, hid, ho⟩
    · rintro ⟨c, hc, hid, ho⟩
      exact ⟨c, ⟨hc, ho⟩, hid⟩
  rw [hmem]
  cases (m.sender_type == "admin") <;> cases (m.is_read == 0) <;> simp

/-- Marking one counted message read, in a table with pairwise distinct ids,
takes exactly that message out of the count. -/
theorem countP_setRead (test : Message → Bool) (id : Nat)
    (hread : ∀ x : Message, test { x with is_read := 1 } = false) (l : List Message) :
    (l.map (fun m => m.id)).Nodup → ∀ m ∈ l, m.id = id → test m = true →
      (l.map (fun m => if m.id = id then { m with is_read := 1 } else m)).countP test + 1
        = l.countP test := by
  induction l with
  | nil => intro _ m hm; simp at hm
  | cons a rest ih =>
    intro hnd m hm hid htest
    subst hid
    simp only [List.map_cons, List.nodup_cons, List.mem_map, not_exists, not_and] at hnd
    rcases List.mem_cons.mp hm with h | h
    · subst h
      have hsame : rest.map (fun x => if x.id = m.id then { x with is_read := 1 } else x)
          = rest := by
        conv_rhs => rw [← List.map_id rest]
        apply List.map_congr_left
        intro x hx
        have : x.id ≠ m.id := hnd.1 x hx
        simp [this]
      rw [List.map_cons, if_pos rfl, hsame, List.countP_cons, List.countP_cons, hread m, htest]
      simp
    · have hne : a.id ≠ m.id := by
        intro e
        exact hnd.1 m h e.symm
      rw [List.map_cons, if_neg hne, List.countP_cons, List.countP_cons]
      have := ih hnd.2 m h rfl htest
      omega

/-- C16. When the database accepts the query, `getUnreadCountForUser(X)` is the
number of messages with `sender_type` `admin` and `is_read` 0 in conversations
owned by X. Appending `k` such messages raises it by `k`; and, message ids being
pairwise distinct, marking one counted message read (`markMessageRead` on its id)
succeeds and lowers the count by exactly 1. -/
theorem unread_count_for_user (fault : Nat → Bool) (db : Store) (userId : String)
    (hdb : fault 0 = false) :
    Customer.getUnreadCountForUser fault db userId
      = unreadAdminMessagesOwnedBy db (sqlNumber userId)
    ∧ (∀ added : List Message,
        (∀ m ∈ added, isUnreadAdminMessageOf db (sqlNumber userId) m = true) →
        Customer.getUnreadCountForUser fault
            { db with chat_messages := db.chat_messages ++ added } userId
          = Customer.getUnreadCountForUser fault db userId + added.length)
    ∧ (∀ m ∈ db.chat_messages, (db.chat_messages.map (fun m => m.id)).Nodup → m.id ≠ 0 →
        isUnreadAdminMessageOf db (sqlNumber userId) m = true →
        (Customer.markMessageRead fault db (some m.id)).1 = true
        ∧ Customer.getUnreadCountForUser fault
            (Customer.markMessageRead fault db (some m.id)).2 userId + 1
          = Customer.getUnreadCountForUser fault db userId) := by
  refine ⟨getUnreadCountForUser_eq fault db userId hdb, ?_, ?_⟩
  · intro added hadded
    rw [getUnreadCountForUser_eq _ _ _ hdb, getUnreadCountForUser_eq _ _ _ hdb]
    simp only [unreadAdminMessagesOwnedBy, List.countP_append]
    congr 1
    rw [List.countP_eq_length]
    exact hadded
  · intro m hm hnd hnz htest
    have ht : truthyId (some m.id) = true := by simp [truthyId, hnz]
    have hmark : Customer.markMessageRead fault db (some m.id) = (true, setRead db m.id) := by
      simp [Customer.markMessageRead, ht, hdb]
    rw [hmark, getUnreadCountForUser_eq _ _ _ hdb, getUnreadCountForUser_eq _ _ _ hdb]
    refine ⟨rfl, ?_⟩
    simp only [unreadAdminMessagesOwnedBy, setRead]
    have hsame : isUnreadAdminMessageOf
          { db with
            chat_messages := db.chat_messages.map
              (fun x => if x.id = m.id then { x with is_read := 1 } else x) }
          (sqlNumber userId)
        = isUnreadAdminMessageOf db (sqlNumber userId) := by
      funext x
      simp [isUnreadAdminMessageOf]
    rw [hsame]
    exact countP_setRead _ m.id (by intro x; simp [isUnreadAdminMessageOf])
      db.chat_messages hnd m hm rfl htest

theorem unread_count_for_user_witness :
    Customer.getUnreadCountForUser quietEnv.fault
        { ownedStore with chat_messages := ownedStore.chat_messages ++ threeReplies } "42"
      = Customer.getUnreadCountForUser quietEnv.fault ownedStore "42" + 3
    ∧ Customer.getUnreadCountForUser quietEnv.fault
        { ownedStore with chat_messages := ownedStore.chat_messages ++ threeReplies } "42" = 3
    ∧ Customer.getUnreadCountForUser quietEnv.fault
        (Customer.markMessageRead quietEnv.fault
          { ownedStore with chat_messages := ownedStore.chat_messages ++ threeReplies }
          (some 2)).2 "42" + 1
      = Customer.getUnreadCountForUser quietEnv.fault
          { ownedStore with chat_messages := ownedStore.chat_messages ++ threeReplies } "42" :=
  ⟨(unread_count_for_user quietEnv.fault ownedStore "42" rfl).2.1 threeReplies (by decide),
   by decide,
   ((unread_count_for_user quietEnv.fault
      { ownedStore with chat_messages := ownedStore.chat_messages ++ threeReplies } "42"
      rfl).2.2
      { id := 2, conversation_id := 7, sender_id := 1, sender_type := "admin", content := "b",
        media_url := none, media_type := none, timestamp := 11, is_read := 0 }
      (by decide) (by decide) (by decide) (by decide)).2⟩

/-- Whatever the store holds, `getTotalUnreadCount` returns 0: it indexes the
first row object of the result with `0`. -/
theorem getTotalUnreadCount_eq_zero (fault : Nat → Bool) (db : Store) :
    Admin.getTotalUnreadCount fault db = 0 := by
  unfold Admin.getTotalUnreadCount
  split <;> rfl

/-- C17 (the code at the failing input). `queueStore` holds three messages with
`sender_type` `user` and `is_read` 0, and the admin `get_unread_count` frame is
answered with `unread_count` 0. -/
theorem admin_unread_count_answers_zero :
    unreadUserMessages queueStore = 3
    ∧ Admin.onMessage quietEnv queueState 1 "a" (some (bareFrame "get_unread_count"))
      = (queueState, [(1, Event.unread_count 0)]) := by
  decide

/-- C18 (the code at the failing input). `queueStore` holds two conversations of
priority `high`, 7 and 8; the answer to `filter_conversations` with filter `high`
is one `conversations` event that lists conversation 8 alone. -/
theorem filter_high_lists_one :
    (queueStore.chat_conversations.filter (fun c => c.priority == "high")).map
        (fun c => c.id) = [7, 8]
    ∧ (sentTo (Admin.onMessage quietEnv queueState 1 "a"
        (some { bareFrame "filter_conversations" with filter := some "high" })).2 1).map
        listedIds = [[8]] := by
  decide

/-- C19 (the code at the failing input). In `queueStore` the customers of
conversations 7 and 8 are called bob and bobby; the answer to
`search_conversations` with query `bob` is one `conversations` event that lists
conversation 8 alone. -/
theorem search_bob_lists_one :
    (listingRows queueStore (fun _ u => sqlLike u.username "bob")).map (fun r => r.id) = [7, 8]
    ∧ (sentTo (Admin.onMessage quietEnv queueState 1 "a"
        (some { bareFrame "search_conversations" with query := some "bob" })).2 1).map
        listedIds = [[8]] := by
  decide

/-- C20 (the code at the failing input). For the paths `/ws/customer/chat/` and
`/ws/admin/chat/`, whose last segment is empty, the socket is not destroyed: the
handler is invoked with the identity `chat`, and the socket stays in the
registry, open and tagged `chat`. -/
theorem empty_identity_is_routed :
    routeUpgrade "/ws/customer/chat/" = Routed.customer "chat"
    ∧ routeUpgrade "/ws/admin/chat/" = Routed.admin "chat"
    ∧ (onUpgrade [] 1 "/ws/customer/chat/").1
      = [{ sock := 1, userId := some "chat", adminId := none, isAdmin := false,
           isAlive := true, readyState := OPEN }] := by
  decide

theorem longMessages_sorted (n : Nat) :
    ((List.range n).map longMessage).Sorted (fun a b => a.timestamp ≤ b.timestamp) := by
  unfold List.Sorted
  rw [List.pairwise_map]
  refine (List.pairwise_lt_range n).imp ?_
  intro a b hab
  simp only [longMessage]
  omega

theorem longStoreOf_length (n : Nat) :
    ((longStoreOf n).chat_messages.filter (fun m => m.conversation_id == 7)).length = n := by
  have hmsgs : (longStoreOf n).chat_messages = (List.range n).map longMessage := rfl
  have hfilter : (longStoreOf n).chat_messages.filter (fun m => m.conversation_id == 7)
      = (List.range n).map longMessage := by
    rw [hmsgs, List.filter_eq_self]
    intro m hm
    simp only [List.mem_map] at hm
    obtain ⟨i, _, rfl⟩ := hm
    simp [longMessage]
  rw [hfilter]
  simp

/-- On a long conversation stored in time order the history queries return the
first 500 rows, that is the 500 oldest. -/
theorem longStore_history (n : Nat) (fault : Nat → Bool) (hdb : fault 0 = false) :
    (Admin.getChatHistoryForConversation fault (longStoreOf n) (some 7)).map
        (fun v => v.timestamp)
      = (List.range (min 500 n)).map (fun (i : Nat) => (i : Int) + 1)
    ∧ (Customer.getChatHistoryForUser fault (longStoreOf n) "42").map (fun v => v.timestamp)
      = (List.range (min 500 n)).map (fun (i : Nat) => (i : Int) + 1) := by
  have hsort : orderByTimestampAsc ((List.range n).map longMessage)
      = (List.range n).map longMessage :=
    List.Sorted.insertionSort_eq (longMessages_sorted n)
  have htake : ((((List.range n).map longMessage).take 500).map
      (selectWithSenderName (longStoreOf n))).map (fun v => v.timestamp)
      = (List.range (min 500 n)).map (fun (i : Nat) => (i : Int) + 1) := by
    rw [← List.map_take, List.take_range, List.map_map, List.map_map]
    apply List.map_congr_left
    intro i _
    simp [selectWithSenderName, longMessage]
  constructor
  · have hfilter : (longStoreOf n).chat_messages.filter (fun m => m.conversation_id == 7)
        = (List.range n).map longMessage := by
      have hmsgs : (longStoreOf n).chat_messages = (List.range n).map longMessage := rfl
      rw [hmsgs, List.filter_eq_self]
      intro m hm
      simp only [List.mem_map] at hm
      obtain ⟨i, _, rfl⟩ := hm
      simp [longMessage]
    simp only [Admin.getChatHistoryForConversation, hdb, Bool.false_eq_true, if_false, hfilter,
      hsort]
    exact htake
  · have hparse : parseInt "42" = some 42 := by decide
    have hfilter : (longStoreOf n).chat_messages.filter (fun m =>
          decide (m.conversation_id ∈
            ((longStoreOf n).chat_conversations.filter
              (fun c => decide ((c.customer_id : Int) = 42))).map (fun c => c.id))
          || (decide ((m.sender_id : Int) = 42) && m.sender_type == "user"))
        = (List.range n).map longMessage := by
      have hmsgs : (longStoreOf n).chat_messages = (List.range n).map longMessage := rfl
      rw [hmsgs, List.filter_eq_self]
      intro m hm
      simp only [List.mem_map] at hm
      obtain ⟨i, _, rfl⟩ := hm
      simp [longMessage, longStoreOf]
    simp only [Customer.getChatHistoryForUser, hparse, hdb, Bool.false_eq_true, if_false,
      hfilter, hsort]
    exact htake

/-- C11 (the code at the failing input). Conversation 7 of `longStore` holds 501
messages with the timestamps 1 to 501. Both history queries return the messages
with the timestamps 1 to 500: the most recent message, 501, is left out and the
oldest, 1, is kept. -/
theorem history_keeps_oldest :
    (longStore.chat_messages.filter (fun m => m.conversation_id == 7)).length = 501
    ∧ (Admin.getChatHistoryForConversation quietEnv.fault longStore (some 7)).map
        (fun v => v.timestamp) = (List.range 500).map (fun (i : Nat) => (i : Int) + 1)
    ∧ (Customer.getChatHistoryForUser quietEnv.fault longStore "42").map
        (fun v => v.timestamp) = (List.range 500).map (fun (i : Nat) => (i : Int) + 1)
    ∧ (501 : Int) ∉ (Admin.getChatHistoryForConversation quietEnv.fault longStore (some 7)).map
        (fun v => v.timestamp) := by
  have h := longStore_history 501 quietEnv.fault rfl
  have hmin : min 500 501 = 500 := by decide
  rw [hmin] at h
  refine ⟨?_, h.1, h.2, ?_⟩
  · exact longStoreOf_length 501
  · have h1 : (Admin.getChatHistoryForConversation quietEnv.fault longStore (some 7)).map
        (fun v => v.timestamp) = (List.range 500).map (fun (i : Nat) => (i : Int) + 1) := h.1
    rw [h1]
    simp only [List.mem_map, List.mem_range, not_exists, not_and]
    intro i hi
    omega

theorem splitSlash_ne_nil (l : List Char) : splitSlash l ≠ [] := by
  cases l with
  | nil => simp [splitSlash]
  | cons c rest =>
    simp only [splitSlash]
    split
    · simp
    · split <;> simp

theorem splitSlash_slash (rest : List Char) :
    splitSlash ('/' :: rest) = [] :: splitSlash rest := by
  have h := splitSlash_ne_nil rest
  simp only [splitSlash]
  split
  · next heq => exact absurd heq h
  · next seg segs heq => simp [heq]

theorem splitSlash_letter (c : Char) (rest : List Char) (hc : c ≠ '/') :
    ∃ seg segs, splitSlash rest = seg :: segs ∧ splitSlash (c :: rest) = (c :: seg) :: segs := by
  have h := splitSlash_ne_nil rest
  cases hs : splitSlash rest with
  | nil => exact absurd hs h
  | cons seg segs =>
    refine ⟨seg, segs, rfl, ?_⟩
    simp [splitSlash, hs, hc]

/-- The identity read from a path that holds a non-empty part is never empty,
so the test `!userId || userId === ""` of the listener cannot succeed. -/
theorem lastPathPart_of_part (pathname : String) (part : List Char) (hne : part ≠ [])
    (hmem : part ∈ splitSlash pathname.toList) :
    ∃ id, lastPathPart pathname = some id ∧ id ≠ "" := by
  have hmem2 : part ∈ (splitSlash pathname.toList).filter (fun p => p != []) :=
    List.mem_filter.mpr ⟨hmem, by simp [hne]⟩
  have hnn : (splitSlash pathname.toList).filter (fun p => p != []) ≠ [] :=
    List.ne_nil_of_mem hmem2
  refine ⟨String.mk (((splitSlash pathname.toList).filter (fun p => p != [])).getLast hnn),
    ?_, ?_⟩
  · unfold lastPathPart
    rw [List.getLast?_eq_getLast _ hnn]
    rfl
  · have hin := List.getLast_mem hnn
    simp only [List.mem_filter, bne_iff_ne, ne_eq] at hin
    intro heq
    have := congrArg String.data heq
    exact hin.2 this

/-- Every path that starts with `/ws/customer/chat/` is handed to the customer
handler with a non-empty identity, and every path that starts with
`/ws/admin/chat/` to the admin handler: `socket.destroy()` is never reached for
them. -/
theorem routeUpgrade_never_destroys (pathname : String) :
    (pathStartsWith pathname "/ws/customer/chat/" = true →
      ∃ id, id ≠ "" ∧ routeUpgrade pathname = Routed.customer id)
    ∧ (pathStartsWith pathname "/ws/admin/chat/" = true →
      ∃ id, id ≠ "" ∧ routeUpgrade pathname = Routed.admin id) := by
  have hparts : ∀ tail : List Char, pathname.toList = '/' :: 'w' :: 's' :: '/' :: tail →
      ∃ id, lastPathPart pathname = some id ∧ id ≠ "" := by
    intro tail htail
    apply lastPathPart_of_part pathname ['w', 's'] (by simp)
    rw [htail, splitSlash_slash]
    obtain ⟨seg, segs, hs, -⟩ := splitSlash_letter 's' ('/' :: tail) (by decide)
    rw [splitSlash_slash] at hs
    obtain ⟨seg2, segs2, hs2, h2⟩ := splitSlash_letter 's' ('/' :: tail) (by decide)
    rw [splitSlash_slash] at hs2
    obtain ⟨seg3, segs3, hs3, h3⟩ := splitSlash_letter 'w' ('s' :: '/' :: tail) (by decide)
    rw [h2] at hs3
    injection hs2 with e1 e2
    injection hs3 with e3 e4
    rw [h3, ← e3, ← e1]
    simp
  constructor
  · intro hstart
    have hpre : "/ws/customer/chat/".toList <+: pathname.toList := by
      simpa [pathStartsWith] using hstart
    obtain ⟨rest, hrest⟩ := hpre
    obtain ⟨id, hid, hne⟩ := hparts ("customer/chat/".toList ++ rest) (by rw [← hrest]; rfl)
    exact ⟨id, hne, by simp [routeUpgrade, hstart, hid, hne]⟩
  · intro hstart
    have hpre : "/ws/admin/chat/".toList <+: pathname.toList := by
      simpa [pathStartsWith] using hstart
    obtain ⟨rest, hrest⟩ := hpre
    obtain ⟨id, hid, hne⟩ := hparts ("admin/chat/".toList ++ rest) (by rw [← hrest]; rfl)
    have hnot : pathStartsWith pathname "/ws/customer/chat/" = false := by
      cases hc : pathStartsWith pathname "/ws/customer/chat/" with
      | false => rfl
      | true =>
        have hpre2 : "/ws/customer/chat/".toList <+: pathname.toList := by
          simpa [pathStartsWith] using hc
        obtain ⟨rest2, hrest2⟩ := hpre2
        rw [← hrest] at hrest2
        simp at hrest2
    exact ⟨id, hne, by simp [routeUpgrade, hstart, hnot, hid, hne]⟩

theorem coerceToArray_firstOfRows_length (rows : List ConversationRow) :
    (coerceToArray (firstOfRows rows)).length ≤ 1 := by
  cases rows <;> simp [firstOfRows, coerceToArray]

/-- Whatever the store and the filter, the answer to `filter_conversations`
lists at most one conversation. -/
theorem filter_lists_at_most_one (fault : Nat → Bool) (db : Store) (filter : Option String) :
    (coerceToArray (Admin.filterConversationsByType fault db filter)).length ≤ 1 := by
  unfold Admin.filterConversationsByType
  split
  · simp [coerceToArray]
  · split
    · simp [coerceToArray]
    · exact coerceToArray_firstOfRows_length _

/-- Whatever the store, the answer to `search_conversations` with a non-empty
term lists at most one conversation. -/
theorem search_lists_at_most_one (fault : Nat → Bool) (db : Store) (searchQuery : Option String)
    (hterm : truthyStr searchQuery = true) :
    (coerceToArray (Admin.searchConversationsByQuery fault db searchQuery)).length ≤ 1 := by
  unfold Admin.searchConversationsByQuery
  simp only [hterm, Bool.not_true, Bool.false_eq_true, if_false]
  split
  · simp [coerceToArray]
  · exact coerceToArray_firstOfRows_length _

/-! ## Unknown frames, heartbeat, row normalisation -/

/-- C27. A payload of a customer connection that is not valid JSON, or a frame
whose type is none of `get_history`, `chat_message`, `mark_read` and
`get_unread_count`, makes the handler return with no `send` call at all and with
the state (rate-limit map, store and registry) as it was. -/
theorem unknown_frame_is_ignored (env : Env) (st : State) (ws : Nat) (userId : String) :
    Customer.onMessage env st ws userId none = (st, [])
    ∧ ∀ data : Frame, data.type ≠ some "get_history" → data.type ≠ some "chat_message" →
        data.type ≠ some "mark_read" → data.type ≠ some "get_unread_count" →
        Customer.onMessage env st ws userId (some data) = (st, []) := by
  constructor
  · rfl
  · intro data h1 h2 h3 h4
    simp [Customer.onMessage, h1, h2, h3, h4]

theorem unknown_frame_is_ignored_witness :
    Customer.onMessage quietEnv liveState 3 "42" (some (bareFrame "typing")) = (liveState, []) :=
  (unknown_frame_is_ignored quietEnv liveState 3 "42").2 (bareFrame "typing")
    (by decide) (by decide) (by decide) (by decide)

/-- The pongs between two sweeps set the flag of exactly the sockets they name. -/
theorem onPongs_eq_map (pongs : List Nat) : ∀ clients : List Client,
    onPongs clients pongs
      = clients.map (fun ws => if ws.sock ∈ pongs then { ws with isAlive := true } else ws) := by
  induction pongs with
  | nil =>
    intro clients
    simp [onPongs]
  | cons p ps ih =>
    intro clients
    have h := ih (onPong clients p)
    simp only [onPongs, List.foldl_cons] at h ⊢
    rw [h]
    unfold onPong
    rw [List.map_map]
    apply List.map_congr_left
    intro ws _
    simp only [Function.comp]
    by_cases h1 : ws.sock = p
    · by_cases h2 : ws.sock ∈ ps
      · simp [h1, h2]
      · simp [h1]
    · simp [h1]

theorem heartbeatSweep_cleared (clients : List Client) :
    ∀ c ∈ heartbeatSweep clients, c.isAlive = false := by
  intro c hc
  unfold heartbeatSweep at hc
  obtain ⟨x, _, rfl⟩ := List.mem_map.mp hc
  rfl

/-- C28. Between two consecutive heartbeat sweeps, with the pongs `pongs`
arriving in between: after the first sweep every surviving connection has its
flag cleared; a survivor that gets no pong is terminated by the second sweep
and no connection with its socket survives it; a survivor that gets a pong is
not terminated by the second sweep and survives it, again with the flag
cleared. -/
theorem heartbeat_two_sweeps (clients : List Client) (pongs : List Nat) :
    (∀ c ∈ heartbeatSweep clients, c.isAlive = false)
    ∧ (∀ c ∈ heartbeatSweep clients, c.sock ∉ pongs →
        c.sock ∈ terminatedBySweep (onPongs (heartbeatSweep clients) pongs)
        ∧ ∀ d ∈ heartbeatSweep (onPongs (heartbeatSweep clients) pongs), d.sock ≠ c.sock)
    ∧ (∀ c ∈ heartbeatSweep clients, c.sock ∈ pongs →
        c.sock ∉ terminatedBySweep (onPongs (heartbeatSweep clients) pongs)
        ∧ ∃ d ∈ heartbeatSweep (onPongs (heartbeatSweep clients) pongs),
            d.sock = c.sock ∧ d.isAlive = false) := by
  have hclr := heartbeatSweep_cleared clients
  refine ⟨hclr, ?_, ?_⟩
  · intro c hc hno
    rw [onPongs_eq_map]
    constructor
    · unfold terminatedBySweep
      refine List.mem_map.mpr ⟨c, List.mem_filter.mpr ⟨?_, ?_⟩, rfl⟩
      · refine List.mem_map.mpr ⟨c, hc, ?_⟩
        simp [hno]
      · simp [hclr c hc]
    · intro d hd
      generalize heartbeatSweep clients = swept at hc hclr hd
      unfold heartbeatSweep at hd
      obtain ⟨e, he, rfl⟩ := List.mem_map.mp hd
      obtain ⟨he1, he2⟩ := List.mem_filter.mp he
      obtain ⟨s, hs, rfl⟩ := List.mem_map.mp he1
      by_cases hp : s.sock ∈ pongs
      · simp only [hp, if_true]
        intro heq
        exact hno (heq ▸ hp)
      · simp only [hp, if_false] at he2
        rw [hclr s hs] at he2
        exact absurd he2 (by simp)
  · intro c hc hyes
    rw [onPongs_eq_map]
    constructor
    · intro hterm
      generalize heartbeatSweep clients = swept at hc hclr hterm
      unfold terminatedBySweep at hterm
      obtain ⟨e, he, hsock⟩ := List.mem_map.mp hterm
      obtain ⟨he1, he2⟩ := List.mem_filter.mp he
      obtain ⟨s, hs, rfl⟩ := List.mem_map.mp he1
      by_cases hp : s.sock ∈ pongs
      · simp [hp] at he2
      · simp only [hp, if_false] at hsock
        exact hp (hsock ▸ hyes)
    · refine ⟨{ c with isAlive := false }, ?_, rfl, rfl⟩
      generalize heartbeatSweep clients = swept at hc hclr
      unfold heartbeatSweep
      refine List.mem_map.mpr ⟨{ c with isAlive := true }, List.mem_filter.mpr ⟨?_, rfl⟩, rfl⟩
      refine List.mem_map.mpr ⟨c, hc, ?_⟩
      simp [hyes]

theorem heartbeat_two_sweeps_witness :
    (3 ∈ terminatedBySweep (onPongs (heartbeatSweep liveRegistry) [1, 5])
      ∧ ∀ d ∈ heartbeatSweep (onPongs (heartbeatSweep liveRegistry) [1, 5]), d.sock ≠ 3)
    ∧ 5 ∉ terminatedBySweep (onPongs (heartbeatSweep liveRegistry) [1, 5]) :=
  ⟨(heartbeat_two_sweeps liveRegistry [1, 5]).2.1
      { sock := 3, userId := some "42", adminId := none, isAdmin := false, isAlive := false,
        readyState := OPEN } (by decide) (by decide),
   ((heartbeat_two_sweeps liveRegistry [1, 5]).2.2
      { sock := 5, userId := some "43", adminId := none, isAdmin := false, isAlive := false,
        readyState := OPEN } (by decide) (by decide)).1⟩

/-- The normalisation inside the handler models is the row function of the
source, applied to a row without missing properties. -/
theorem formatMessage_eq_formatRow (v : MessageView) :
    formatMessage v = Customer.formatRow (rawOfView v) := by
  cases v with
  | mk id cid sid st content mu mt ts ir sn =>
    by_cases h1 : content = "" <;> by_cases h2 : ir = 0 <;> by_cases h3 : sn = ""
      <;> simp [formatMessage, Customer.formatRow, rawOfView, orString, orNumber, h1, h2, h3]

/-- C26 (as stated, refuted). The history query over `blankNameStore` yields a
row whose `sender_name` is present and empty; both handlers turn it into `User`,
where the canonical shape of the claim copies the name that is there. -/
theorem formatRow_counterexample :
    rawOfView (selectWithSenderName blankNameStore
        { id := 1, conversation_id := 7, sender_id := 42, sender_type := "user",
          content := "hi", media_url := none, media_type := none, timestamp := 10,
          is_read := 0 }) = blankNameRow
    ∧ (Customer.formatRow blankNameRow).sender_name = "User"
    ∧ (Admin.formatRow blankNameRow).sender_name = "User"
    ∧ (canonicalShape blankNameRow).sender_name = ""
    ∧ Customer.formatRow blankNameRow ≠ canonicalShape blankNameRow := by
  decide

/-- C26 (amended). For every row, the `get_history` normalisation of the admin
handler and that of the customer handler produce the same object, which is the
canonical shape except that `sender_name` is replaced by the label of the role
(`Admin` for `admin`, `User` otherwise) when it is missing or empty; in
particular it is the canonical shape whenever `sender_name` is not the empty
string. -/
theorem formatRow_canonical (row : RawRow) :
    Admin.formatRow row = Customer.formatRow row
    ∧ Customer.formatRow row
        = { canonicalShape row with
            sender_name :=
              if row.sender_name = none ∨ row.sender_name = some "" then
                (if row.sender_type = "admin" then "Admin" else "User")
              else row.sender_name.getD "" }
    ∧ (row.sender_name ≠ some "" → Customer.formatRow row = canonicalShape row) := by
  cases row with
  | mk id cid sid st content mu mt ts ir sn =>
    have hc : orString content "" = content.getD "" := by
      cases content with
      | none => rfl
      | some s => by_cases h : s = "" <;> simp [orString, h]
    have hr : orNumber ir 0 = ir.getD 0 := by
      cases ir with
      | none => rfl
      | some n => by_cases h : n = 0 <;> simp [orNumber, h]
    have hs : ∀ fb : String, orString sn fb
        = if sn = none ∨ sn = some "" then fb else sn.getD "" := by
      intro fb
      cases sn with
      | none => simp [orString]
      | some s => by_cases h : s = "" <;> simp [orString, h]
    refine ⟨rfl, ?_, ?_⟩
    · simp only [Customer.formatRow, canonicalShape, hc, hr, hs]
    · intro hne
      have hs2 : ∀ fb : String, orString sn fb = sn.getD fb := by
        intro fb
        cases sn with
        | none => rfl
        | some s =>
          have h : s ≠ "" := fun e => hne (by rw [e])
          simp [orString, h]
      simp only [Customer.formatRow, canonicalShape, hc, hr, hs2]

theorem formatRow_canonical_witness :
    Customer.formatRow { blankNameRow with sender_name := none }
      = canonicalShape { blankNameRow with sender_name := none } :=
  (formatRow_canonical { blankNameRow with sender_name := none }).2.2 (by decide)

/-! ## Failures on the two sockets and on the HTTP handlers -/

/-- C30. Two runs of the customer `chat_message` branch on the same state, clock
and frame, from two connections with any two path identities that the rate
limiter both admits: the store after the frame is the one `createNewMessage`
computes from the frame alone, the same for both; both send the same events in
the same order; when a message is persisted its row is built from the payload
(`insertedRow`); the identity only selects the rate-limit entry. Identity `42`
can thereby persist a message of sender 7 with type `admin` in the conversation
of customer 99. -/
theorem chat_message_ignores_identity (env : Env) (st : State) (ws1 ws2 : Nat) (u1 u2 : String)
    (data : Frame) (htype : data.type = some "chat_message")
    (h1 : (checkWsRateLimit st.wsRateLimits env.now u1).1 = true)
    (h2 : (checkWsRateLimit st.wsRateLimits env.now u2).1 = true) :
    (Customer.onMessage env st ws1 u1 (some data)).1.db
        = (Customer.createNewMessage env st.db data).2
    ∧ (Customer.onMessage env st ws2 u2 (some data)).1.db
        = (Customer.onMessage env st ws1 u1 (some data)).1.db
    ∧ (Customer.onMessage env st ws2 u2 (some data)).2.map (fun s => s.2)
        = (Customer.onMessage env st ws1 u1 (some data)).2.map (fun s => s.2)
    ∧ (Customer.onMessage env st ws1 u1 (some data)).1.wsRateLimits
        = (checkWsRateLimit st.wsRateLimits env.now u1).2
    ∧ (∀ msg, (Customer.createNewMessage env st.db data).1 = some msg →
        (Customer.onMessage env st ws1 u1 (some data)).1.db.chat_messages
          = st.db.chat_messages
            ++ [Customer.insertedRow env.dbNow data msg.conversation_id msg.id])
    ∧ (Customer.onMessage quietEnv liveState 3 "42" (some spoofFrame)).1.db.chat_messages
        = strayStore.chat_messages
          ++ [{ id := 2, conversation_id := 7, sender_id := 7, sender_type := "admin",
                content := "Hi", media_url := none, media_type := none, timestamp := 2002,
                is_read := 0 }] := by
  have hdb : ∀ (ws : Nat) (u : String), (checkWsRateLimit st.wsRateLimits env.now u).1 = true →
      (Customer.onMessage env st ws u (some data)).1.db
        = (Customer.createNewMessage env st.db data).2 := by
    intro ws u hu
    simp only [Customer.onMessage, htype, hu]
    cases (Customer.createNewMessage env st.db data).1 <;> simp
  have hev : ∀ (ws : Nat) (u : String), (checkWsRateLimit st.wsRateLimits env.now u).1 = true →
      (Customer.onMessage env st ws u (some data)).2.map (fun s => s.2)
        = match (Customer.createNewMessage env st.db data).1 with
          | none => [Event.error "Failed to send message"]
          | some msg =>
            (Customer.broadcastToAdmins st.clients (Event.chat_message msg)).map (fun s => s.2)
              ++ [Event.chat_message msg] := by
    intro ws u hu
    simp only [Customer.onMessage, htype, hu]
    cases (Customer.createNewMessage env st.db data).1 <;> simp
  refine ⟨hdb ws1 u1 h1, ?_, ?_, ?_, ?_, by decide⟩
  · rw [hdb ws1 u1 h1, hdb ws2 u2 h2]
  · rw [hev ws1 u1 h1, hev ws2 u2 h2]
  · simp only [Customer.onMessage, htype, h1]
    cases (Customer.createNewMessage env st.db data).1 <;> simp
  · intro msg hmsg
    rw [hdb ws1 u1 h1]
    have hr : (if truthyId data.conversation_id then (data.conversation_id, st.db)
        else Customer.resolveConversation env.fault env.dbNow st.db
          (data.customer_id.getD 0)).2.chat_messages = st.db.chat_messages := by
      split_ifs
      · rfl
      · exact Customer_resolveConversation_messages _ _ _ _
    have h : ∀ x, x = Customer.createNewMessage env st.db data → x.1 = some msg →
        x.2.chat_messages = st.db.chat_messages
          ++ [Customer.insertedRow env.dbNow data msg.conversation_id msg.id] := by
      intro x hx
      unfold Customer.createNewMessage at hx
      simp only at hx
      generalize (if truthyId data.conversation_id then (data.conversation_id, st.db)
          else Customer.resolveConversation env.fault env.dbNow st.db
            (data.customer_id.getD 0)) = r at hr hx
      repeat' split at hx
      all_goals subst hx
      all_goals intro hsome
      all_goals first
        | (simp only [Option.some.injEq] at hsome
           subst hsome
           simp only [hr, Customer.returnedMessage])
        | exact absurd hsome (by simp)
    exact h _ rfl hmsg

theorem chat_message_ignores_identity_witness :
    (Customer.onMessage quietEnv liveState 5 "43" (some spoofFrame)).1.db
      = (Customer.onMessage quietEnv liveState 3 "42" (some spoofFrame)).1.db :=
  (chat_message_ignores_identity quietEnv liveState 3 5 "42" "43" spoofFrame rfl
    (by decide) (by decide)).2.1

/-- C21 (as stated, refuted). With every statement of the store failing, a
customer `get_unread_count` is answered with the count 0 and a customer
`get_history` with the empty history: no `error` event is sent. -/
theorem store_failure_counterexample :
    outageEnv.fault 0 = true
    ∧ (Customer.onMessage outageEnv liveState 3 "42" (some (bareFrame "get_unread_count"))).2
        = [(3, Event.unread_count 0)]
    ∧ (Customer.onMessage outageEnv liveState 3 "42" (some (bareFrame "get_history"))).2
        = [(3, Event.chat_history [])] := by
  decide

/-- C21 (amended). For every inbound frame of either handler, whatever store
calls fail, the handler returns and leaves the registry of connections as it
was. A `chat_message` whose `createNewMessage` yields `null` (as it does when the
`INSERT` of the message fails) sends the error `Failed to send message` to the
originating connection, on both handlers; a customer `mark_read` whose `UPDATE`
fails sends the error `Failed to mark message as read` and changes no row. A
read query whose statement fails is answered with the empty result instead of an
error: the empty history and the count 0 for the customer, the empty listing
(`get_conversations`, `filter_conversations`, `search_conversations`), the empty
history and the count 0 for the admin. -/
theorem store_failure_degrades (env : Env) (st : State) (ws : Nat) (id : String) (data : Frame) :
    (Customer.onMessage env st ws id (some data)).1.clients = st.clients
    ∧ (Admin.onMessage env st ws id (some data)).1.clients = st.clients
    ∧ (env.fault 3 = true → (Customer.createNewMessage env st.db data).1 = none)
    ∧ (env.fault 2 = true → (Admin.createNewMessage env st.db data).1 = none)
    ∧ (data.type = some "chat_message" →
        (checkWsRateLimit st.wsRateLimits env.now id).1 = true →
        (Customer.createNewMessage env st.db data).1 = none →
        (Customer.onMessage env st ws id (some data)).2
          = [(ws, Event.error "Failed to send message")])
    ∧ (data.type = some "chat_message" → (Admin.createNewMessage env st.db data).1 = none →
        (Admin.onMessage env st ws id (some data)).2
          = [(ws, Event.error "Failed to send message")])
    ∧ (data.type = some "mark_read" → env.fault 0 = true →
        Customer.onMessage env st ws id (some data)
          = (st, [(ws, Event.error "Failed to mark message as read")]))
    ∧ (env.fault 0 = true →
        (data.type = some "get_history" →
          Customer.onMessage env st ws id (some data) = (st, [(ws, Event.chat_history [])]))
        ∧ (data.type = some "get_unread_count" →
          Customer.onMessage env st ws id (some data) = (st, [(ws, Event.unread_count 0)]))
        ∧ (data.type = some "get_conversations" →
          Admin.onMessage env st ws id (some data) = (st, [(ws, Event.conversations [])]))
        ∧ (data.type = some "get_history" → truthyId data.conversation_id = true →
          Admin.onMessage env st ws id (some data) = (st, [(ws, Event.chat_history [])]))
        ∧ (data.type = some "get_unread_count" →
          Admin.onMessage env st ws id (some data) = (st, [(ws, Event.unread_count 0)]))
        ∧ (data.type = some "filter_conversations" →
          Admin.onMessage env st ws id (some data) = (st, [(ws, Event.conversations [])]))
        ∧ (data.type = some "search_conversations" →
          Admin.onMessage env st ws id (some data) = (st, [(ws, Event.conversations [])]))) := by
  refine ⟨?_, ?_, ?_, ?_, ?_, ?_, ?_, ?_⟩
  · have h : ∀ x, x = Customer.onMessage env st ws id (some data) → x.1.clients = st.clients := by
      intro x hx
      unfold Customer.onMessage at hx
      simp only at hx
      repeat' split at hx
      all_goals (subst hx; rfl)
    exact h _ rfl
  · have h : ∀ x, x = Admin.onMessage env st ws id (some data) → x.1.clients = st.clients := by
      intro x hx
      unfold Admin.onMessage at hx
      simp only at hx
      repeat' split at hx
      all_goals (subst hx; rfl)
    exact h _ rfl
  · intro h3
    have h : ∀ x, x = Customer.createNewMessage env st.db data → x.1 = none := by
      intro x hx
      unfold Customer.createNewMessage at hx
      simp only [h3, if_true] at hx
      repeat' split at hx
      all_goals (subst hx; rfl)
    exact h _ rfl
  · intro h2
    have h : ∀ x, x = Admin.createNewMessage env st.db data → x.1 = none := by
      intro x hx
      unfold Admin.createNewMessage at hx
      simp only [h2, if_true] at hx
      repeat' split at hx
      all_goals (subst hx; rfl)
    exact h _ rfl
  · intro htype hadm hnull
    simp [Customer.onMessage, htype, hadm, hnull]
  · intro htype hnull
    simp [Admin.onMessage, htype, hnull]
  · intro htype h0
    by_cases hid : truthyId data.message_id = true
    · simp [Customer.onMessage, htype, hid, Customer.markMessageRead, h0]
    · simp [Customer.onMessage, htype, hid]
  · intro h0
    refine ⟨?_, ?_, ?_, ?_, ?_, ?_, ?_⟩
    · intro htype
      have hh : Customer.getChatHistoryForUser env.fault st.db id = [] := by
        unfold Customer.getChatHistoryForUser
        cases parseInt id <;> simp [h0]
      simp [Customer.onMessage, htype, hh]
    · intro htype
      simp [Customer.onMessage, htype, Customer.getUnreadCountForUser, h0]
    · intro htype
      simp [Admin.onMessage, htype, Admin.getAllConversations, h0, coerceToArray]
    · intro htype hcid
      have hh : Admin.getChatHistoryForConversation env.fault st.db data.conversation_id = [] := by
        unfold Admin.getChatHistoryForConversation
        cases data.conversation_id <;> simp [h0]
      simp [Admin.onMessage, htype, hcid, hh]
    · intro htype
      simp [Admin.onMessage, htype, Admin.getTotalUnreadCount, h0]
    · intro htype
      have hh : Admin.filterConversationsByType env.fault st.db data.filter = Listing.rows [] := by
        unfold Admin.filterConversationsByType
        simp [h0]
      simp [Admin.onMessage, htype, hh, coerceToArray]
    · intro htype
      have hh : Admin.searchConversationsByQuery env.fault st.db data.query
          = Listing.rows [] := by
        unfold Admin.searchConversationsByQuery
        simp [h0, Admin.getAllConversations]
      simp [Admin.onMessage, htype, hh, coerceToArray]

theorem store_failure_degrades_witness :
    (Customer.onMessage outageEnv liveState 3 "42" (some helloFrame)).2
      = [(3, Event.error "Failed to send message")]
    ∧ (Admin.onMessage outageEnv liveState 1 "a" (some replyFrame)).2
      = [(1, Event.error "Failed to send message")]
    ∧ Customer.onMessage outageEnv liveState 3 "42" (some readFrame)
      = (liveState, [(3, Event.error "Failed to mark message as read")])
    ∧ Admin.onMessage outageEnv liveState 1 "a" (some (bareFrame "get_conversations"))
      = (liveState, [(1, Event.conversations [])]) :=
  ⟨(store_failure_degrades outageEnv liveState 3 "42" helloFrame).2.2.2.2.1 rfl (by decide)
      ((store_failure_degrades outageEnv liveState 3 "42" helloFrame).2.2.1 rfl),
   (store_failure_degrades outageEnv liveState 1 "a" replyFrame).2.2.2.2.2.1 rfl
      ((store_failure_degrades outageEnv liveState 1 "a" replyFrame).2.2.2.1 rfl),
   (store_failure_degrades outageEnv liveState 3 "42" readFrame).2.2.2.2.2.2.1 rfl rfl,
   ((store_failure_degrades outageEnv liveState 1 "a"
      (bareFrame "get_conversations")).2.2.2.2.2.2.2 rfl).2.2.1 rfl⟩

/-- C22 (as stated, refuted). The file upload answers its failures with status
400 and a body whose only property is `error`: a request without a file, and an
upload that the middleware rejects. -/
theorem upload_error_counterexample :
    Admin.uploadFile none none
      = { status := 400, body := HttpBody.uploadError "No file uploaded" }
    ∧ Admin.uploadFile (some "Only image and video files are allowed") none
      = { status := 400,
          body := HttpBody.uploadError "Only image and video files are allowed" }
    ∧ (Admin.uploadFile none none).isError = true
    ∧ (Admin.uploadFile none none).body.isSoftError = false := by
  decide

/-- C22 (amended). The eight JSON handlers of the admin chat (conversations,
history, unread, read, message, priority, filter, search) answer every request
with status 200, and a response of theirs that reports an error has a body of
the soft-error form (`status: "error"`, `success: false`, `message`); a failing
store statement makes each of them report an error. The file upload answers an
upload failure and a missing file with status 400 and a body whose only
property is `error`, holding the middleware's message or `No file uploaded`. -/
theorem http_error_shape (env : Env) (db : Store) (p q : Option String) (body : Frame) :
    (∀ r ∈ [Admin.getConversations env.fault db, Admin.getChatHistory env.fault db p,
          Admin.getUnreadCount env.fault db, (Admin.markMessageAsRead env.fault db p).1,
          (Admin.createMessage env db body).1, (Admin.updatePriority env.fault db p q).1,
          Admin.filterConversations env.fault db p, Admin.searchConversations env.fault db p],
        r.status = 200
        ∧ (r.isError = true → r.body.isSoftError = true)
        ∧ (env.fault 0 = true → r.isError = true))
    ∧ ((Admin.uploadFile p q).isError = true →
        (Admin.uploadFile p q).status = 400
        ∧ (Admin.uploadFile p q).body
            = HttpBody.uploadError (p.getD "No file uploaded")) := by
  constructor
  · intro r hr
    simp only [List.mem_cons, List.mem_singleton, List.not_mem_nil, or_false] at hr
    rcases hr with h | h | h | h | h | h | h | h
    · subst h
      unfold Admin.getConversations
      split <;> simp_all [HttpResponse.isError, HttpBody.isSoftError]
    · subst h
      unfold Admin.getChatHistory
      repeat' split
      all_goals simp_all [HttpResponse.isError, HttpBody.isSoftError]
    · subst h
      unfold Admin.getUnreadCount
      by_cases h0 : env.fault 0 = true <;>
        simp [HttpResponse.isError, HttpBody.isSoftError, Admin.CountRow.index0, h0]
    · subst h
      unfold Admin.markMessageAsRead
      repeat' split
      all_goals simp_all [HttpResponse.isError, HttpBody.isSoftError]
    · subst h
      unfold Admin.createMessage
      repeat' split
      all_goals simp_all [HttpResponse.isError, HttpBody.isSoftError]
    · subst h
      unfold Admin.updatePriority
      repeat' split
      all_goals simp_all [HttpResponse.isError, HttpBody.isSoftError]
    · subst h
      unfold Admin.filterConversations
      repeat' split
      all_goals simp_all [HttpResponse.isError, HttpBody.isSoftError]
    · subst h
      unfold Admin.searchConversations
      repeat' split
      all_goals simp_all [HttpResponse.isError, HttpBody.isSoftError]
  · intro herr
    cases p with
    | some message => simp [Admin.uploadFile]
    | none =>
      cases q with
      | none => simp [Admin.uploadFile]
      | some name => simp [Admin.uploadFile, HttpResponse.isError] at herr

theorem http_error_shape_witness :
    (Admin.getConversations outageEnv.fault queueStore).status = 200
    ∧ (Admin.getConversations outageEnv.fault queueStore).isError = true
    ∧ (Admin.getConversations outageEnv.fault queueStore).body.isSoftError = true
    ∧ (Admin.uploadFile none none).status = 400 :=
  ⟨((http_error_shape outageEnv queueStore none none helloFrame).1 _
      (List.mem_cons_self _ _)).1,
   ((http_error_shape outageEnv queueStore none none helloFrame).1 _
      (List.mem_cons_self _ _)).2.2 rfl,
   ((http_error_shape outageEnv queueStore none none helloFrame).1 _
      (List.mem_cons_self _ _)).2.1 (by decide),
   ((http_error_shape outageEnv queueStore none none helloFrame).2 (by decide)).1⟩

/-! ## What an admin frame decides about its row -/

/-- The conversation step of the admin `createNewMessage` keeps the messages, and
with a `conversation_id` in the frame it runs no statement. -/
theorem Admin_createNewMessage_effect (env : Env) (db : Store) (data : Frame) :
    ∀ x, x = Admin.createNewMessage env db data →
      x.2.chat_messages ≠ db.chat_messages →
      ∃ row, x.2.chat_messages = db.chat_messages ++ [row]
        ∧ data.sender_type = some row.sender_type
        ∧ data.sender_id = some row.sender_id
        ∧ row.is_read = 0
        ∧ (truthyId data.conversation_id = true →
            data.conversation_id = some row.conversation_id
            ∧ x.2.chat_conversations = db.chat_conversations) := by
  intro x hx
  unfold Admin.createNewMessage at hx
  simp only at hx
  generalize hrdef : (if truthyId data.conversation_id then (data.conversation_id, db)
      else
        match data.customer_id with
        | none => (none, db)
        | some customer_id =>
          if env.fault 0 then (none, db)
          else
            match (db.chat_conversations.filter
                (fun c => c.customer_id == customer_id)).take 1 with
            | c :: _ => (some c.id, db)
            | [] =>
              if env.fault 1 then (none, db)
              else
                (some (nextConversationId db),
                  { db with
                    chat_conversations := db.chat_conversations ++
                      [{ id := nextConversationId db, customer_id := customer_id,
                         priority := DEFAULT_PRIORITY, created_at := env.dbNow }] })) = r at hx
  have hr1 : r.2.chat_messages = db.chat_messages := by
    rw [← hrdef]
    repeat' split
    all_goals rfl
  have hr2 : truthyId data.conversation_id = true → r = (data.conversation_id, db) := by
    intro ht
    rw [← hrdef, if_pos ht]
  generalize (if truthyStr data.media_url then data.media_url else none) = mu at hx
  repeat' split at hx
  all_goals subst hx
  all_goals intro hpersist
  all_goals first
    | exact absurd hr1 hpersist
    | (refine ⟨_, by rw [hr1], by assumption, by assumption, by rfl, ?_⟩
       intro ht
       have hrr := hr2 ht
       subst hrr
       simp_all)

/-- C24 (as stated, refuted). An admin `chat_message` frame whose payload says
`sender_type: "user"` is persisted by the admin handler with that sender type. -/
theorem admin_sender_type_counterexample :
    (Admin.onMessage quietEnv liveState 1 "a"
        (some { replyFrame with sender_type := some "user" })).1.db.chat_messages
      = strayStore.chat_messages
        ++ [{ id := 2, conversation_id := 7, sender_id := 1, sender_type := "user",
              content := "Welcome", media_url := none, media_type := none,
              timestamp := 2002, is_read := 0 }] := by
  decide

/-- C24 (amended). For every admin `chat_message` frame that the admin handler
persists, exactly one message row is appended, unread, whose `sender_type` and
`sender_id` are the ones the frame carries; and when the frame supplies a
`conversation_id` the row is inserted into exactly that conversation and the
table of conversations is left as it was. -/
theorem admin_row_from_frame (env : Env) (st : State) (ws : Nat) (adminId : String)
    (data : Frame) (htype : data.type = some "chat_message")
    (hpersist : (Admin.onMessage env st ws adminId (some data)).1.db.chat_messages
      ≠ st.db.chat_messages) :
    ∃ row, (Admin.onMessage env st ws adminId (some data)).1.db.chat_messages
        = st.db.chat_messages ++ [row]
      ∧ data.sender_type = some row.sender_type
      ∧ data.sender_id = some row.sender_id
      ∧ row.is_read = 0
      ∧ (truthyId data.conversation_id = true →
          data.conversation_id = some row.conversation_id
          ∧ (Admin.onMessage env st ws adminId (some data)).1.db.chat_conversations
              = st.db.chat_conversations) := by
  have hdb : (Admin.onMessage env st ws adminId (some data)).1.db
      = (Admin.createNewMessage env st.db data).2 := by
    simp only [Admin.onMessage, htype]
    cases (Admin.createNewMessage env st.db data).1 <;> simp
  rw [hdb] at hpersist ⊢
  exact Admin_createNewMessage_effect env st.db data _ rfl hpersist

theorem admin_row_from_frame_witness :
    ∃ row, (Admin.onMessage quietEnv liveState 1 "a" (some replyFrame)).1.db.chat_messages
        = liveState.db.chat_messages ++ [row]
      ∧ replyFrame.sender_type = some row.sender_type
      ∧ replyFrame.sender_id = some row.sender_id
      ∧ row.is_read = 0
      ∧ (truthyId replyFrame.conversation_id = true →
          replyFrame.conversation_id = some row.conversation_id
          ∧ (Admin.onMessage quietEnv liveState 1 "a" (some replyFrame)).1.db.chat_conversations
              = liveState.db.chat_conversations) :=
  admin_row_from_frame quietEnv liveState 1 "a" replyFrame rfl (by decide)

/-- The `SELECT` by the fresh id finds the row just inserted. -/
theorem filter_fresh_id (db : Store) (row : Message) (hid : row.id = nextMessageId db) :
    ((db.chat_messages ++ [row]).filter (fun m => m.id == nextMessageId db)).head?
      = some row := by
  have hnil : db.chat_messages.filter (fun m => m.id == nextMessageId db) = [] := by
    apply List.filter_eq_nil_iff.mpr
    intro m hm
    have := nextMessageId_fresh db m hm
    simp only [beq_iff_eq]
    omega
  rw [List.filter_append, hnil]
  simp [hid]

/-- C25 (as stated, refuted). Through the customer handler a frame with
`sender_type: "admin"` and `sender_name: "Eve"` yields a message whose
`sender_name` is `Eve`. -/
theorem sender_name_counterexample :
    spoofFrame.sender_type = some "admin"
    ∧ (Customer.createNewMessage quietEnv strayStore spoofFrame).1.map (fun m => m.sender_name)
        = some "Eve"
    ∧ (sentTo (Customer.onMessage quietEnv liveState 3 "42" (some spoofFrame)).2 3)
        = [Event.chat_message
            { id := 2, conversation_id := 7, sender_id := 7, sender_type := "admin",
              content := "Hi", media_url := none, media_type := none, timestamp := 2001,
              is_read := 0, sender_name := "Eve" }] := by
  decide

/-- C25 (amended). A message created with `sender_type` `admin` through the
admin handler is returned with the `sender_name` `Admin`, whatever name the
frame supplies and whatever name the identity store holds for the sender;
created through the customer handler it is returned with the frame's
`sender_name` when that is a non-empty string, and with `Admin` otherwise. -/
theorem admin_sender_name (env : Env) (db : Store) (data : Frame) (msg : MessageView)
    (hadmin : data.sender_type = some "admin") :
    ((Admin.createNewMessage env db data).1 = some msg → msg.sender_name = "Admin")
    ∧ ((Customer.createNewMessage env db data).1 = some msg →
        msg.sender_name
          = if truthyStr data.sender_name then data.sender_name.getD "" else "Admin") := by
  constructor
  · have h : ∀ x, x = Admin.createNewMessage env db data → x.1 = some msg →
        msg.sender_name = "Admin" := by
      intro x hx
      unfold Admin.createNewMessage at hx
      simp only at hx
      generalize (if truthyId data.conversation_id then (data.conversation_id, db)
          else
            match data.customer_id with
            | none => (none, db)
            | some customer_id =>
              if env.fault 0 then (none, db)
              else
                match (db.chat_conversations.filter
                    (fun c => c.customer_id == customer_id)).take 1 with
                | c :: _ => (some c.id, db)
                | [] =>
                  if env.fault 1 then (none, db)
                  else
                    (some (nextConversationId db),
                      { db with
                        chat_conversations := db.chat_conversations ++
                          [{ id := nextConversationId db, customer_id := customer_id,
                             priority := DEFAULT_PRIORITY, created_at := env.dbNow }] })) = r
        at hx
      generalize (if truthyStr data.media_url then data.media_url else none) = mu at hx
      repeat' split at hx
      all_goals subst hx
      all_goals intro hsome
      all_goals first
        | (simp at hsome; done)
        | (rename_i hty _ _ _ m hfound
           rw [filter_fresh_id r.2 _ rfl] at hfound
           simp only [Option.some.injEq] at hfound hsome
           subst hfound
           subst hsome
           rw [hadmin] at hty
           simp only [Option.some.injEq] at hty
           subst hty
           simp [selectWithSenderName, senderNameOf])
    exact h _ rfl
  · have h : ∀ x, x = Customer.createNewMessage env db data → x.1 = some msg →
        msg.sender_name
          = if truthyStr data.sender_name then data.sender_name.getD "" else "Admin" := by
      intro x hx
      unfold Customer.createNewMessage at hx
      simp only at hx
      repeat' split at hx
      all_goals subst hx
      all_goals intro hsome
      all_goals first
        | (simp at hsome; done)
        | (simp only [Option.some.injEq] at hsome
           subst hsome
           simp [Customer.returnedMessage, hadmin])
    exact h _ rfl

theorem admin_sender_name_witness :
    (Admin.createNewMessage quietEnv strayStore namedReplyFrame).1 = some welcomeMessage
    ∧ welcomeMessage.sender_name = "Admin" :=
  ⟨by decide,
   (admin_sender_name quietEnv strayStore namedReplyFrame welcomeMessage rfl).1 (by decide)⟩

/-! ## A failed send still counts against the window -/

/-- After a customer `chat_message` frame, admitted or not, the rate-limit map
is the one the limiter leaves. -/
theorem Customer_onMessage_chat_limits (env : Env) (st : State) (ws : Nat) (u : String)
    (data : Frame) (htype : data.type = some "chat_message") :
    (Customer.onMessage env st ws u (some data)).1.wsRateLimits
      = (checkWsRateLimit st.wsRateLimits env.now u).2 := by
  simp only [Customer.onMessage, htype]
  cases (checkWsRateLimit st.wsRateLimits env.now u).1
  · simp
  · cases (Customer.createNewMessage env st.db data).1 <;> simp

/-- A send that `createNewMessage` answers with `null` has written no message. -/
theorem Customer_createNewMessage_null (env : Env) (db : Store) (data : Frame)
    (hnull : (Customer.createNewMessage env db data).1 = none) :
    (Customer.createNewMessage env db data).2.chat_messages = db.chat_messages := by
  have hr : (if truthyId data.conversation_id then (data.conversation_id, db)
      else Customer.resolveConversation env.fault env.dbNow db
        (data.customer_id.getD 0)).2.chat_messages = db.chat_messages := by
    split_ifs
    · rfl
    · exact Customer_resolveConversation_messages _ _ _ _
  have h : ∀ x, x = Customer.createNewMessage env db data → x.1 = none →
      x.2.chat_messages = db.chat_messages := by
    intro x hx
    unfold Customer.createNewMessage at hx
    simp only at hx
    generalize (if truthyId data.conversation_id then (data.conversation_id, db)
        else Customer.resolveConversation env.fault env.dbNow db
          (data.customer_id.getD 0)) = r at hr hx
    repeat' split at hx
    all_goals subst hx
    all_goals intro hnone
    all_goals first
      | rfl
      | exact hr
      | simp at hnone
  exact h _ rfl hnull

/-- One admitted `chat_message` frame that `createNewMessage` rejects. -/
theorem Customer_onMessage_failed_send (env : Env) (st : State) (ws : Nat) (u : String)
    (data : Frame) (htype : data.type = some "chat_message")
    (hadm : (checkWsRateLimit st.wsRateLimits env.now u).1 = true)
    (hnull : (Customer.createNewMessage env st.db data).1 = none) :
    (Customer.onMessage env st ws u (some data)).2 = [(ws, Event.error "Failed to send message")]
    ∧ (Customer.onMessage env st ws u (some data)).1.db.chat_messages = st.db.chat_messages
    ∧ (Customer.onMessage env st ws u (some data)).1.clients = st.clients := by
  have hm := Customer_createNewMessage_null env st.db data hnull
  simp [Customer.onMessage, htype, hadm, hnull, hm]

/-- A run of `chat_message` frames that `createNewMessage` rejects whatever the
store: the map follows the limiter, no message is written, and each frame is
answered by one error, the failure of the send when it was admitted. -/
theorem runMessages_rejected (ws : Nat) (u : String) :
    ∀ (fs : List (Env × Frame)) (st : State),
      (∀ f ∈ fs, f.2.type = some "chat_message"
        ∧ ∀ db, (Customer.createNewMessage f.1 db f.2).1 = none) →
      (Customer.runMessages st ws u fs).1.wsRateLimits
          = (runWsCalls st.wsRateLimits (fs.map (fun f => (u, f.1.now)))).2
      ∧ (Customer.runMessages st ws u fs).1.db.chat_messages = st.db.chat_messages
      ∧ (Customer.runMessages st ws u fs).2
          = (runWsCalls st.wsRateLimits (fs.map (fun f => (u, f.1.now)))).1.map
              (fun ok => [(ws, Event.error
                (if ok then "Failed to send message"
                 else "Rate limit exceeded. Please wait before sending more messages."))]) := by
  intro fs
  induction fs with
  | nil =>
    intro st _
    simp [Customer.runMessages, runWsCalls]
  | cons f rest ih =>
    intro st hfs
    obtain ⟨env, data⟩ := f
    have hf := hfs (env, data) (List.mem_cons_self _ _)
    have htype : data.type = some "chat_message" := hf.1
    have hnull := hf.2 st.db
    have hrest := ih (Customer.onMessage env st ws u (some data)).1
      (fun g hg => hfs g (List.mem_cons_of_mem _ hg))
    have hlim := Customer_onMessage_chat_limits env st ws u data htype
    simp only [Customer.runMessages, List.map_cons, runWsCalls]
    rw [hlim] at hrest
    refine ⟨hrest.1, ?_, ?_⟩
    · rw [hrest.2.1]
      cases hadm : (checkWsRateLimit st.wsRateLimits env.now u).1
      · simp [Customer.onMessage, htype, hadm]
      · exact (Customer_onMessage_failed_send env st ws u data htype hadm hnull).2.1
    · rw [hrest.2.2]
      cases hadm : (checkWsRateLimit st.wsRateLimits env.now u).1
      · simp [Customer.onMessage, htype, hadm]
      · simp [(Customer_onMessage_failed_send env st ws u data htype hadm hnull).1]

/-- The causes of a rejected send that the handler names: a missing
`customer_id`, `sender_id` or `sender_type`, or a failing `INSERT` of the
message, make `createNewMessage` return `null` on every store. -/
theorem Customer_createNewMessage_rejects (env : Env) (data : Frame)
    (hcause : truthyId data.customer_id = false ∨ truthyId data.sender_id = false
      ∨ truthyStr data.sender_type = false ∨ env.fault 3 = true) :
    ∀ db, (Customer.createNewMessage env db data).1 = none := by
  intro db
  have h : ∀ x, x = Customer.createNewMessage env db data → x.1 = none := by
    intro x hx
    unfold Customer.createNewMessage at hx
    simp only at hx
    rcases hcause with hc | hc | hc | hc
    · simp only [hc, Bool.not_false, if_true] at hx
      subst hx
      rfl
    · simp only [hc, Bool.not_false, Bool.true_or, if_true] at hx
      split at hx <;> (subst hx; rfl)
    · simp only [hc, Bool.not_false, Bool.or_true, if_true] at hx
      split at hx <;> (subst hx; rfl)
    · simp only [hc, if_true] at hx
      repeat' split at hx
      all_goals (subst hx; rfl)
  exact h _ rfl

/-- C29. On a customer connection, a `chat_message` frame that the rate limiter
admits and `createNewMessage` rejects still appends its timestamp to the
sender's list (after pruning), is answered by `Failed to send message`, and
writes no message. Hence, for a sender without stored timestamps, 20 such frames
inside one 60 s window are all admitted and all fail, leave 20 timestamps and
no message, and the next `chat_message` frame of that connection inside the
window, well formed or not, is answered by the rate-limit error and leaves the
store as it was. A frame without `customer_id`, `sender_id` or `sender_type`,
and a frame whose message `INSERT` fails, are such frames. -/
theorem failed_sends_consume_slots (st : State) (ws : Nat) (u : String) (t0 : Int)
    (fs : List (Env × Frame)) (env : Env) (data : Frame)
    (hfresh : (mapGet st.wsRateLimits (wsKey u)).getD [] = [])
    (hlen : fs.length = WS_MESSAGE_LIMIT)
    (hfs : ∀ f ∈ fs, f.2.type = some "chat_message"
      ∧ (∀ db, (Customer.createNewMessage f.1 db f.2).1 = none)
      ∧ t0 ≤ f.1.now ∧ f.1.now < t0 + WS_WINDOW_MS)
    (htype : data.type = some "chat_message")
    (hnow : t0 ≤ env.now ∧ env.now < t0 + WS_WINDOW_MS) :
    (∀ (env1 : Env) (st1 : State) (d1 : Frame), d1.type = some "chat_message" →
        (checkWsRateLimit st1.wsRateLimits env1.now u).1 = true →
        (Customer.createNewMessage env1 st1.db d1).1 = none →
        mapGet (Customer.onMessage env1 st1 ws u (some d1)).1.wsRateLimits (wsKey u)
          = some (pruneFront env1.now ((mapGet st1.wsRateLimits (wsKey u)).getD [])
              ++ [env1.now])
        ∧ (Customer.onMessage env1 st1 ws u (some d1)).1.db.chat_messages
            = st1.db.chat_messages
        ∧ (Customer.onMessage env1 st1 ws u (some d1)).2
            = [(ws, Event.error "Failed to send message")])
    ∧ (Customer.runMessages st ws u fs).2
        = List.replicate WS_MESSAGE_LIMIT [(ws, Event.error "Failed to send message")]
    ∧ (mapGet (Customer.runMessages st ws u fs).1.wsRateLimits (wsKey u)).getD []
        = fs.map (fun f => f.1.now)
    ∧ (Customer.runMessages st ws u fs).1.db.chat_messages = st.db.chat_messages
    ∧ (Customer.onMessage env (Customer.runMessages st ws u fs).1 ws u (some data)).2
        = [(ws, Event.error "Rate limit exceeded. Please wait before sending more messages.")]
    ∧ (Customer.onMessage env (Customer.runMessages st ws u fs).1 ws u (some data)).1.db
        = (Customer.runMessages st ws u fs).1.db
    ∧ (∀ (env1 : Env) (d1 : Frame),
        (truthyId d1.customer_id = false ∨ truthyId d1.sender_id = false
          ∨ truthyStr d1.sender_type = false ∨ env1.fault 3 = true) →
        ∀ db, (Customer.createNewMessage env1 db d1).1 = none) := by
  have hrun := runMessages_rejected ws u fs st (fun f hf => ⟨(hfs f hf).1, (hfs f hf).2.1⟩)
  have hmap : fs.map (fun f => (u, f.1.now))
      = (fs.map (fun f => f.1.now)).map (fun t => (u, t)) := by
    rw [List.map_map]
    rfl
  have hburst := runWsCalls_burst u t0 (fs.map (fun f => f.1.now)) st.wsRateLimits [] hfresh
    (by simp)
    (by
      intro t ht
      obtain ⟨f, hf, rfl⟩ := List.mem_map.mp ht
      exact (hfs f hf).2.2)
    (by simp [hlen])
  rw [← hmap] at hburst
  have hstamps : (mapGet (Customer.runMessages st ws u fs).1.wsRateLimits (wsKey u)).getD []
      = fs.map (fun f => f.1.now) := by
    rw [hrun.1, hburst.2]
    rfl
  refine ⟨?_, ?_, hstamps, hrun.2.1, ?_, ?_,
    fun env1 d1 hcause => Customer_createNewMessage_rejects env1 d1 hcause⟩
  · intro env1 st1 d1 ht1 hadm1 hnull1
    have hspec := checkWsRateLimit_spec st1.wsRateLimits env1.now u
    have hlt : (pruneFront env1.now ((mapGet st1.wsRateLimits (wsKey u)).getD [])).length
        < WS_MESSAGE_LIMIT := by
      rw [hspec.1] at hadm1
      exact of_decide_eq_true hadm1
    have hfail := Customer_onMessage_failed_send env1 st1 ws u d1 ht1 hadm1 hnull1
    refine ⟨?_, hfail.2.1, hfail.1⟩
    rw [Customer_onMessage_chat_limits env1 st1 ws u d1 ht1, hspec.2.1]
    have hnot : ¬ ((pruneFront env1.now ((mapGet st1.wsRateLimits (wsKey u)).getD [])).length
        ≥ WS_MESSAGE_LIMIT) := by omega
    rw [if_neg hnot]
  · rw [hrun.2.2, hburst.1]
    simp [hlen]
  · have hspec := checkWsRateLimit_spec (Customer.runMessages st ws u fs).1.wsRateLimits
      env.now u
    have hprune : pruneFront env.now (fs.map (fun f => f.1.now)) = fs.map (fun f => f.1.now) := by
      apply pruneFront_of_all_inside
      intro x hx
      obtain ⟨f, hf, rfl⟩ := List.mem_map.mp hx
      have := (hfs f hf).2.2
      omega
    have hrej : (checkWsRateLimit (Customer.runMessages st ws u fs).1.wsRateLimits
        env.now u).1 = false := by
      rw [hspec.1, hstamps, hprune]
      simp [hlen]
    simp [Customer.onMessage, htype, hrej]
  · have hspec := checkWsRateLimit_spec (Customer.runMessages st ws u fs).1.wsRateLimits
      env.now u
    have hprune : pruneFront env.now (fs.map (fun f => f.1.now)) = fs.map (fun f => f.1.now) := by
      apply pruneFront_of_all_inside
      intro x hx
      obtain ⟨f, hf, rfl⟩ := List.mem_map.mp hx
      have := (hfs f hf).2.2
      omega
    have hrej : (checkWsRateLimit (Customer.runMessages st ws u fs).1.wsRateLimits
        env.now u).1 = false := by
      rw [hspec.1, hstamps, hprune]
      simp [hlen]
    simp [Customer.onMessage, htype, hrej]

theorem failed_sends_consume_slots_witness :
    (Customer.onMessage quietEnv
        (Customer.runMessages liveState 3 "42"
          (List.replicate 20 (quietEnv, bareFrame "chat_message"))).1 3 "42"
        (some helloFrame)).2
      = [(3, Event.error "Rate limit exceeded. Please wait before sending more messages.")]
    ∧ (Customer.runMessages liveState 3 "42"
          (List.replicate 20 (quietEnv, bareFrame "chat_message"))).1.db.chat_messages
      = liveState.db.chat_messages :=
  ⟨(failed_sends_consume_slots liveState 3 "42" 2000
      (List.replicate 20 (quietEnv, bareFrame "chat_message")) quietEnv helloFrame
      (by decide) (by decide)
      (fun f hf => by
        rw [List.eq_of_mem_replicate hf]
        exact ⟨rfl, fun db => rfl, by decide, by decide⟩)
      rfl (by decide)).2.2.2.2.1,
   (failed_sends_consume_slots liveState 3 "42" 2000
      (List.replicate 20 (quietEnv, bareFrame "chat_message")) quietEnv helloFrame
      (by decide) (by decide)
      (fun f hf => by
        rw [List.eq_of_mem_replicate hf]
        exact ⟨rfl, fun db => rfl, by decide, by decide⟩)
      rfl (by decide)).2.2.2.1⟩

/-! ## The customer `chat_message` path end to end -/

theorem truthyId_some (o : Option Nat) (h : truthyId o = true) : ∃ n, o = some n ∧ n ≠ 0 := by
  cases o with
  | none => simp [truthyId] at h
  | some n =>
    refine ⟨n, rfl, ?_⟩
    simpa [truthyId] using h

/-- With the database accepting its statements and every conversation id non-zero,
the resolver yields a non-zero conversation id and writes no message. -/
theorem resolve_some (fault : Nat → Bool) (dbNow : Int) (db : Store) (customerId : Nat)
    (h0 : fault 0 = false) (h1 : fault 1 = false) (h2 : fault 2 = false)
    (hconv : ∀ c ∈ db.chat_conversations, c.id ≠ 0) :
    ∃ cid, (Customer.resolveConversation fault dbNow db customerId).1 = some cid ∧ cid ≠ 0
      ∧ (Customer.resolveConversation fault dbNow db customerId).2.chat_messages
          = db.chat_messages := by
  have h : ∀ x, x = Customer.resolveConversation fault dbNow db customerId →
      ∃ cid, x.1 = some cid ∧ cid ≠ 0 ∧ x.2.chat_messages = db.chat_messages := by
    intro x hx
    unfold Customer.resolveConversation at hx
    simp only [h0, h1, h2, Bool.false_eq_true, if_false] at hx
    split at hx
    · rename_i ht
      subst hx
      obtain ⟨cid, hcid, hz⟩ := truthyId_some _ ht
      exact ⟨cid, hcid, hz, rfl⟩
    · split at hx
      · rename_i c rest heq
        subst hx
        refine ⟨c.id, rfl, hconv c ?_, rfl⟩
        have hmem : c ∈ (db.chat_conversations.filter
            (fun c => c.customer_id == customerId)).take 1 := by
          rw [heq]
          exact List.mem_cons_self _ _
        exact List.mem_of_mem_filter (List.mem_of_mem_take hmem)
      · subst hx
        exact ⟨nextConversationId db, rfl, by simp [nextConversationId], rfl⟩
  exact h _ rfl

/-- A well-formed send on an accepting database is persisted: the conversation
step yields a non-zero id, one row is appended and the message object is
returned. -/
theorem Customer_createNewMessage_ok (env : Env) (db : Store) (data : Frame)
    (hquiet : ∀ k, env.fault k = false)
    (hc : truthyId data.customer_id = true) (hs : truthyId data.sender_id = true)
    (ht : truthyStr data.sender_type = true)
    (hconv : ∀ c ∈ db.chat_conversations, c.id ≠ 0) :
    ∃ cid dbr,
      (if truthyId data.conversation_id then (data.conversation_id, db)
        else Customer.resolveConversation env.fault env.dbNow db (data.customer_id.getD 0))
        = (some cid, dbr)
      ∧ cid ≠ 0 ∧ dbr.chat_messages = db.chat_messages
      ∧ Customer.createNewMessage env db data
          = (some (Customer.returnedMessage env.date data cid (nextMessageId dbr)),
              { dbr with
                chat_messages := dbr.chat_messages
                  ++ [Customer.insertedRow env.dbNow data cid (nextMessageId dbr)] }) := by
  have hr : ∃ cid dbr,
      (if truthyId data.conversation_id then (data.conversation_id, db)
        else Customer.resolveConversation env.fault env.dbNow db (data.customer_id.getD 0))
        = (some cid, dbr)
      ∧ cid ≠ 0 ∧ dbr.chat_messages = db.chat_messages := by
    by_cases hcid : truthyId data.conversation_id = true
    · obtain ⟨cid, he, hz⟩ := truthyId_some _ hcid
      refine ⟨cid, db, ?_, hz, rfl⟩
      rw [if_pos hcid, he]
    · obtain ⟨cid, he, hz, hm⟩ := resolve_some env.fault env.dbNow db (data.customer_id.getD 0)
        (hquiet 0) (hquiet 1) (hquiet 2) hconv
      refine ⟨cid, (Customer.resolveConversation env.fault env.dbNow db
        (data.customer_id.getD 0)).2, ?_, hz, hm⟩
      rw [if_neg hcid, ← he]
  obtain ⟨cid, dbr, hres, hz, hm⟩ := hr
  refine ⟨cid, dbr, hres, hz, hm, ?_⟩
  unfold Customer.createNewMessage
  simp only [hres]
  simp [hc, hs, ht, hz, hquiet 3]

/-- C23. A customer `chat_message` frame that the rate limiter admits and that
carries `customer_id`, `sender_id` and `sender_type`, on a database that accepts
its statements and whose conversation ids are non-zero, in a registry of
distinct sockets in which the originating socket is not tagged as an admin:
the conversation step yields a conversation `cid`; exactly one row is appended
to the messages, in conversation `cid`, with `is_read` 0 and the frame's content
(the empty string when absent) and a fresh id; every open admin connection
receives exactly one event, the `chat_message` carrying the message object; the
originating connection receives exactly that one event too; every other
connection receives nothing; and the id of the message object is the id of the
row. -/
theorem customer_chat_message_contract (env : Env) (st : State) (ws : Nat) (userId : String)
    (data : Frame) (htype : data.type = some "chat_message")
    (hadm : (checkWsRateLimit st.wsRateLimits env.now userId).1 = true)
    (hc : truthyId data.customer_id = true) (hs : truthyId data.sender_id = true)
    (ht : truthyStr data.sender_type = true)
    (hquiet : ∀ k, env.fault k = false)
    (hconv : ∀ c ∈ st.db.chat_conversations, c.id ≠ 0)
    (hnd : (st.clients.map (fun c => c.sock)).Nodup)
    (hws : ∀ c ∈ st.clients, c.sock = ws → c.isAdmin = false) :
    ∃ (cid : Nat) (dbr : Store) (row : Message) (msg : MessageView),
      (if truthyId data.conversation_id then (data.conversation_id, st.db)
        else Customer.resolveConversation env.fault env.dbNow st.db (data.customer_id.getD 0))
        = (some cid, dbr)
      ∧ (Customer.onMessage env st ws userId (some data)).1.db.chat_messages
          = st.db.chat_messages ++ [row]
      ∧ row.conversation_id = cid ∧ row.is_read = 0 ∧ row.content = data.content.getD ""
      ∧ (∀ m ∈ st.db.chat_messages, m.id < row.id)
      ∧ msg = Customer.returnedMessage env.date data cid row.id
      ∧ msg.id = row.id
      ∧ (∀ c ∈ st.clients, c.isAdmin = true → c.readyState = OPEN →
          sentTo (Customer.onMessage env st ws userId (some data)).2 c.sock
            = [Event.chat_message msg])
      ∧ sentTo (Customer.onMessage env st ws userId (some data)).2 ws
          = [Event.chat_message msg]
      ∧ (∀ c ∈ st.clients, c.sock ≠ ws → ¬ (c.isAdmin = true ∧ c.readyState = OPEN) →
          sentTo (Customer.onMessage env st ws userId (some data)).2 c.sock = []) := by
  obtain ⟨cid, dbr, hres, hz, hm, hcreate⟩ :=
    Customer_createNewMessage_ok env st.db data hquiet hc hs ht hconv
  have hfresh : ∀ m ∈ st.db.chat_messages, m.id < nextMessageId dbr := by
    intro m hmem
    rw [← hm] at hmem
    exact nextMessageId_fresh dbr m hmem
  have hsend : (Customer.onMessage env st ws userId (some data)).2
      = Customer.broadcastToAdmins st.clients
          (Event.chat_message (Customer.returnedMessage env.date data cid (nextMessageId dbr)))
        ++ [(ws, Event.chat_message
            (Customer.returnedMessage env.date data cid (nextMessageId dbr)))] := by
    simp [Customer.onMessage, htype, hadm, hcreate]
  have hdb : (Customer.onMessage env st ws userId (some data)).1.db.chat_messages
      = st.db.chat_messages ++ [Customer.insertedRow env.dbNow data cid (nextMessageId dbr)] := by
    simp [Customer.onMessage, htype, hadm, hcreate, hm]
  refine ⟨cid, dbr, Customer.insertedRow env.dbNow data cid (nextMessageId dbr),
    Customer.returnedMessage env.date data cid (nextMessageId dbr),
    hres, hdb, rfl, rfl, rfl, hfresh, rfl, rfl, ?_, ?_, ?_⟩
  · intro c hcm hadmin hopen
    have hne : ws ≠ c.sock := by
      intro heq
      have := hws c hcm heq.symm
      rw [hadmin] at this
      exact absurd this (by simp)
    rw [hsend, sentTo_append]
    unfold Customer.broadcastToAdmins
    rw [sentTo_fanout st.clients _ _ hnd c hcm]
    simp [sentTo, hadmin, hopen, hne]
  · rw [hsend, sentTo_append]
    unfold Customer.broadcastToAdmins
    by_cases hin : ∃ c ∈ st.clients, c.sock = ws
    · obtain ⟨c, hcm, hsock⟩ := hin
      have hna := hws c hcm hsock
      subst hsock
      rw [sentTo_fanout st.clients _ _ hnd c hcm]
      simp [sentTo, hna]
    · have habs : ∀ c ∈ st.clients, c.sock ≠ ws := fun c hcm heq => hin ⟨c, hcm, heq⟩
      rw [sentTo_fanout_absent st.clients _ _ ws habs]
      simp [sentTo]
  · intro c hcm hne hnot
    have hne2 : ws ≠ c.sock := fun e => hne e.symm
    rw [hsend, sentTo_append]
    unfold Customer.broadcastToAdmins
    rw [sentTo_fanout st.clients _ _ hnd c hcm]
    have htest : (c.isAdmin && c.readyState == OPEN) = false := by
      by_cases ha : c.isAdmin = true
      · have ho : c.readyState ≠ OPEN := fun e => hnot ⟨ha, e⟩
        simp [ha, ho]
      · simp [ha]
    simp [sentTo, htest, hne2]

theorem customer_chat_message_contract_witness :
    ∃ (cid : Nat) (dbr : Store) (row : Message) (msg : MessageView),
      (if truthyId helloFrame.conversation_id then (helloFrame.conversation_id, liveState.db)
        else Customer.resolveConversation quietEnv.fault quietEnv.dbNow liveState.db
          (helloFrame.customer_id.getD 0))
        = (some cid, dbr)
      ∧ (Customer.onMessage quietEnv liveState 3 "42" (some helloFrame)).1.db.chat_messages
          = liveState.db.chat_messages ++ [row]
      ∧ row.conversation_id = cid ∧ row.is_read = 0
      ∧ row.content = helloFrame.content.getD ""
      ∧ (∀ m ∈ liveState.db.chat_messages, m.id < row.id)
      ∧ msg = Customer.returnedMessage quietEnv.date helloFrame cid row.id
      ∧ msg.id = row.id
      ∧ (∀ c ∈ liveState.clients, c.isAdmin = true → c.readyState = OPEN →
          sentTo (Customer.onMessage quietEnv liveState 3 "42" (some helloFrame)).2 c.sock
            = [Event.chat_message msg])
      ∧ sentTo (Customer.onMessage quietEnv liveState 3 "42" (some helloFrame)).2 3
          = [Event.chat_message msg]
      ∧ (∀ c ∈ liveState.clients, c.sock ≠ 3 → ¬ (c.isAdmin = true ∧ c.readyState = OPEN) →
          sentTo (Customer.onMessage quietEnv liveState 3 "42" (some helloFrame)).2 c.sock
            = []) :=
  customer_chat_message_contract quietEnv liveState 3 "42" helloFrame rfl (by decide)
    (by decide) (by decide) (by decide) (fun _ => rfl) (by decide) (by decide) (by decide)

end ChatCore
